import Mathlib

/-!
Verification of the Medalla-era beacon-chain state-transition core
(`eth2fastspec.py`).  The Python source is shallowly embedded: pure
functions become Lean functions, in-place list mutation becomes explicit
list passing, `raise ValidationError` becomes `Except String`, and
external collaborators (SHA-256 hashing, BLS verification, SSZ tree
roots, and the helper modules that are not part of this repository) are
abstracted as oracle parameters.
-/

namespace Eth2Fast

/-! ## Generic list helpers used by the embedding -/

/-- Swap two positions of a list, embedding the Python parallel assignment
statement input[i], input[j] = input[j], input[i].  In the source both
indices are always in range; out-of-range indices leave the list
unchanged here. -/
def listSwap (l : List α) (i j : Nat) : List α :=
  match l[i]?, l[j]? with
  | some a, some b => (l.set i b).set j a
  | _, _ => l

/-- Point update of a list through a function, embedding the state-tree
transform operation on one element. -/
def listTransform (l : List α) (i : Nat) (f : α → α) : List α :=
  match l[i]? with
  | some a => l.set i (f a)
  | none => l

/-! ## The swap-or-not shuffle (component A of the source) -/

/-- Little-endian interpretation of a byte string, embedding the Python
expression int.from_bytes(h, byteorder="little") (bytes are below 256 in
the source). -/
def bytesToNatLE : List Nat → Nat
  | [] => 0
  | b :: bs => b + 256 * bytesToNatLE bs

/-- Four little-endian bytes of a number, embedding
x.to_bytes(length=4, byteorder="little"). -/
def toBytesLE4 (n : Nat) : List Nat :=
  [n % 256, n / 256 % 256, n / 65536 % 256, n / 16777216 % 256]

/-- Eight little-endian bytes of a number, embedding
x.to_bytes(length=8, byteorder="little"). -/
def toBytesLE8 (n : Nat) : List Nat :=
  [n % 256, n / 256 % 256, n / 65536 % 256, n / 16777216 % 256,
   n / 4294967296 % 256, n / 1099511627776 % 256,
   n / 281474976710656 % 256, n / 72057594037927936 % 256]

/-- Refresh of the cached hash inside the shuffle loop: recomputed only
when the position j crosses a 256 boundary, as in the source. -/
def loopSource (H : List Nat → List Nat) (seedR : List Nat) (j : Nat)
    (source : List Nat) : List Nat :=
  if j &&& 255 == 255 then H (seedR ++ toBytesLE4 ((j >>> 8) &&& 4294967295))
  else source

/-- Refresh of the cached byte inside the shuffle loop: recomputed only
when the position j crosses an 8 boundary, as in the source. -/
def loopByte (j : Nat) (source1 : List Nat) (byteV : Nat) : Nat :=
  if j &&& 7 == 7 then source1.getD ((j &&& 255) >>> 3) 0 else byteV

/-- The selection bit of the pair whose larger position is j. -/
def loopBit (j byteV1 : Nat) : Nat :=
  (byteV1 >>> (j &&& 7)) &&& 1

/-- One iteration of the shuffle loop acting on the list: swap the pair
(i, j) exactly when the selection bit is one. -/
def loopBody (H : List Nat → List Nat) (seedR : List Nat)
    (i j : Nat) (source : List Nat) (byteV : Nat) (l : List α) : List α :=
  if loopBit j (loopByte j (loopSource H seedR j source) byteV) == 1 then
    listSwap l i j
  else l

/-- One mirrored half of a shuffle round: the while loop of
_inner_shuffle_list that walks the pair (i, j) inward while refreshing
the cached hash (source) every 256th position and the cached byte
(byteV) every 8th.  The fuel argument is the number of executed
iterations, mirror - i at the call sites. -/
def swapOrNotLoop (H : List Nat → List Nat) (seedR : List Nat) :
    Nat → Nat → Nat → List Nat → Nat → List α → List α
  | 0, _i, _j, _source, _byteV, l => l
  | fuel + 1, i, j, source, byteV, l =>
    swapOrNotLoop H seedR fuel (i + 1) (j - 1) (loopSource H seedR j source)
      (loopByte j (loopSource H seedR j source) byteV)
      (loopBody H seedR i j source byteV l)

/-- One round of _inner_shuffle_list: compute the pivot from
hash(seed ++ round), then run the two mirrored halves.  The round number
and pivot windows feed the 37-byte hash buffer exactly as the source
builds it. -/
def shuffleRound (H : List Nat → List Nat) (seed : List Nat)
    (listSize r : Nat) (l : List α) : List α :=
  let seedR := seed ++ [r]
  let pivot := bytesToNatLE ((H seedR).take 8) % listSize
  let mirror := (pivot + 1) >>> 1
  let source := H (seedR ++ toBytesLE4 ((pivot >>> 8) &&& 4294967295))
  let byteV := source.getD ((pivot &&& 255) >>> 3) 0
  let l1 := swapOrNotLoop H seedR mirror 0 pivot source byteV l
  let mirror2 := (pivot + listSize + 1) >>> 1
  let en := listSize - 1
  let source2 := H (seedR ++ toBytesLE4 ((en >>> 8) &&& 4294967295))
  let byteV2 := source2.getD ((en &&& 255) >>> 3) 0
  swapOrNotLoop H seedR (mirror2 - (pivot + 1)) (pivot + 1) en source2 byteV2 l1

/-- Embeds _inner_shuffle_list: lists of length at most one are returned
unchanged; otherwise the rounds run forward (dir = true, shuffling) or
backward (dir = false, unshuffling).  The do-while of the source visits
rounds 0 .. rounds-1 forward and rounds-1 .. 0 backward, here expressed
as a fold over the round list or its reverse. -/
def innerShuffleList (H : List Nat → List Nat) (seed : List Nat)
    (rounds : Nat) (dir : Bool) (l : List α) : List α :=
  if l.length ≤ 1 then l
  else
    ((if dir then List.range rounds else (List.range rounds).reverse).foldl
      (fun acc r => shuffleRound H seed l.length r acc) l)

/-- Embeds shuffle_list (mutation replaced by returning the new list). -/
def shuffle_list (H : List Nat → List Nat) (seed : List Nat) (rounds : Nat)
    (l : List α) : List α :=
  innerShuffleList H seed rounds true l

/-- Embeds unshuffle_list. -/
def unshuffle_list (H : List Nat → List Nat) (seed : List Nat) (rounds : Nat)
    (l : List α) : List α :=
  innerShuffleList H seed rounds false l

/-! ## Configuration and protocol constants -/

/-- The configuration fields of Eth2Config consumed by the embedded
functions, all unsigned integers in the source. -/
structure Eth2Config where
  SLOTS_PER_EPOCH : Nat
  TARGET_COMMITTEE_SIZE : Nat
  MAX_COMMITTEES_PER_SLOT : Nat
  SHUFFLE_ROUND_COUNT : Nat
  MAX_SEED_LOOKAHEAD : Nat
  MIN_PER_EPOCH_CHURN_LIMIT : Nat
  CHURN_LIMIT_QUOTIENT : Nat
  EJECTION_BALANCE : Nat
  EFFECTIVE_BALANCE_INCREMENT : Nat
  MAX_EFFECTIVE_BALANCE : Nat
  BASE_REWARD_FACTOR : Nat
  PROPOSER_REWARD_QUOTIENT : Nat
  WHISTLEBLOWER_REWARD_QUOTIENT : Nat
  INACTIVITY_PENALTY_QUOTIENT : Nat
  MIN_SLASHING_PENALTY_QUOTIENT : Nat
  EPOCHS_PER_SLASHINGS_VECTOR : Nat
  EPOCHS_PER_HISTORICAL_VECTOR : Nat
  SLOTS_PER_HISTORICAL_ROOT : Nat
  EPOCHS_PER_ETH1_VOTING_PERIOD : Nat
  MIN_EPOCHS_TO_INACTIVITY_PENALTY : Nat
  HYSTERESIS_QUOTIENT : Nat
  HYSTERESIS_DOWNWARD_MULTIPLIER : Nat
  HYSTERESIS_UPWARD_MULTIPLIER : Nat
  MIN_VALIDATOR_WITHDRAWABILITY_DELAY : Nat
  MIN_ATTESTATION_INCLUSION_DELAY : Nat
  SHARD_COMMITTEE_PERIOD : Nat
  MAX_DEPOSITS : Nat
  GENESIS_FORK_VERSION : Nat

/-- Modelled from the spec: the constant GENESIS_EPOCH imported from the
constants module, which is not part of this repository.  Its standard
value is zero. -/
def GENESIS_EPOCH : Nat := 0

/-- Modelled from the spec: FAR_FUTURE_EPOCH from the constants module
(not in this repository), the all-ones 64-bit epoch marking unset epoch
fields. -/
def FAR_FUTURE_EPOCH : Nat := 18446744073709551615

/-- Modelled from the spec: BASE_REWARDS_PER_EPOCH from the constants
module (not in this repository); the spec lists it among the
configuration with standard value 4. -/
def BASE_REWARDS_PER_EPOCH : Nat := 4

/-- Embeds integer_squareroot via the same Newton iteration; the loop
decreases y so it is given as fuel-free recursion on the measure x. -/
def sqrtAux (n : Nat) : Nat → Nat → Nat
  | x, y =>
    if y < x then sqrtAux n y ((y + n / y) / 2)
    else x
  termination_by x _ => x
  decreasing_by omega

/-- Return the largest x with x * x at most n (integer_squareroot). -/
def integer_squareroot (n : Nat) : Nat :=
  sqrtAux n n ((n + 1) / 2)

/-! ## Committee computation (component B of the source) -/

/-- Embeds compute_committee_count. -/
def compute_committee_count (active_validators_count : Nat)
    (cfg : Eth2Config) : Nat :=
  let validators_per_slot := active_validators_count / cfg.SLOTS_PER_EPOCH
  let committees_per_slot := validators_per_slot / cfg.TARGET_COMMITTEE_SIZE
  let clamped :=
    if cfg.MAX_COMMITTEES_PER_SLOT < committees_per_slot then
      cfg.MAX_COMMITTEES_PER_SLOT
    else committees_per_slot
  if clamped = 0 then 1 else clamped

/-- The ShufflingEpoch record: epoch, active indices, their inverse
shuffle, and the committees as contiguous slices of the shuffle. -/
structure ShufflingEpoch where
  epoch : Nat
  active_indices : List Nat
  shuffling : List Nat
  committees : List (List (List Nat))

/-- Embeds ShufflingEpoch constructed from indices_bounded (one triple
index, activation_epoch, exit_epoch per validator).  The seed comes from
the external get_seed helper and is passed in; H is the hash oracle used
by the unshuffle.  The source checks start_offset greater than
end_offset and raises, but the offsets are monotone so the check never
fires; the slice is taken directly. -/
def ShufflingEpoch.init (H : List Nat → List Nat) (seed : List Nat)
    (indices_bounded : List (Nat × Nat × Nat)) (epoch : Nat)
    (cfg : Eth2Config) : ShufflingEpoch :=
  let active_indices := (indices_bounded.filter
    (fun t => decide (t.2.1 ≤ epoch) && decide (epoch < t.2.2))).map
    (fun t => t.1)
  let shuffling := unshuffle_list H seed cfg.SHUFFLE_ROUND_COUNT active_indices
  let active_validator_count := active_indices.length
  let committees_per_slot := compute_committee_count active_validator_count cfg
  let committee_count := committees_per_slot * cfg.SLOTS_PER_EPOCH
  let slice_committee := fun (slot comm_index : Nat) =>
    let ind := slot * committees_per_slot + comm_index
    let start_offset := active_validator_count * ind / committee_count
    let end_offset := active_validator_count * (ind + 1) / committee_count
    (shuffling.drop start_offset).take (end_offset - start_offset)
  { epoch := epoch
    active_indices := active_indices
    shuffling := shuffling
    committees := (List.range cfg.SLOTS_PER_EPOCH).map (fun slot =>
      (List.range committees_per_slot).map (fun comm_index =>
        slice_committee slot comm_index)) }

/-! ## Data model (section 3 of the source file) -/

/-- Validator record; roots, pubkeys and signatures are abstracted as
numbers throughout the embedding.  Field order follows the source type,
which FlatValidator destructures positionally. -/
structure Validator where
  pubkey : Nat
  withdrawal_credentials : Nat
  effective_balance : Nat
  slashed : Bool
  activation_eligibility_epoch : Nat
  activation_epoch : Nat
  exit_epoch : Nat
  withdrawable_epoch : Nat
deriving DecidableEq, Inhabited

structure Checkpoint where
  epoch : Nat
  root : Nat
deriving DecidableEq, Inhabited

structure AttestationData where
  slot : Nat
  index : Nat
  beacon_block_root : Nat
  source : Checkpoint
  target : Checkpoint
deriving DecidableEq, Inhabited

structure PendingAttestation where
  aggregation_bits : List Bool
  data : AttestationData
  inclusion_delay : Nat
  proposer_index : Nat
deriving DecidableEq, Inhabited

structure Eth1Data where
  deposit_root : Nat
  deposit_count : Nat
  block_hash : Nat
deriving DecidableEq, Inhabited

structure BeaconBlockHeader where
  slot : Nat
  proposer_index : Nat
  parent_root : Nat
  state_root : Nat
  body_root : Nat
deriving DecidableEq, Inhabited

structure SignedBeaconBlockHeader where
  message : BeaconBlockHeader
  signature : Nat
deriving DecidableEq, Inhabited

structure ProposerSlashing where
  signed_header_1 : SignedBeaconBlockHeader
  signed_header_2 : SignedBeaconBlockHeader
deriving DecidableEq, Inhabited

structure IndexedAttestation where
  attesting_indices : List Nat
  data : AttestationData
  signature : Nat
deriving DecidableEq, Inhabited

structure AttesterSlashing where
  attestation_1 : IndexedAttestation
  attestation_2 : IndexedAttestation
deriving DecidableEq, Inhabited

structure Attestation where
  aggregation_bits : List Bool
  data : AttestationData
  signature : Nat
deriving DecidableEq, Inhabited

structure DepositData where
  pubkey : Nat
  withdrawal_credentials : Nat
  amount : Nat
  signature : Nat
deriving DecidableEq, Inhabited

structure DepositMessage where
  pubkey : Nat
  withdrawal_credentials : Nat
  amount : Nat
deriving DecidableEq, Inhabited

structure Deposit where
  proof : List Nat
  data : DepositData
deriving DecidableEq, Inhabited

structure VoluntaryExit where
  epoch : Nat
  validator_index : Nat
deriving DecidableEq, Inhabited

structure SignedVoluntaryExit where
  message : VoluntaryExit
  signature : Nat
deriving DecidableEq, Inhabited

structure BeaconBlockBody where
  randao_reveal : Nat
  eth1_data : Eth1Data
  proposer_slashings : List ProposerSlashing
  attester_slashings : List AttesterSlashing
  attestations : List Attestation
  deposits : List Deposit
  voluntary_exits : List SignedVoluntaryExit
deriving DecidableEq, Inhabited

structure BeaconBlock where
  slot : Nat
  proposer_index : Nat
  parent_root : Nat
  state_root : Nat
  body : BeaconBlockBody
deriving DecidableEq, Inhabited

/-- The BeaconState fields read or written by the embedded core. -/
structure BeaconState where
  slot : Nat
  genesis_time : Nat
  latest_block_header : BeaconBlockHeader
  block_roots : List Nat
  state_roots : List Nat
  historical_roots : List Nat
  eth1_data : Eth1Data
  eth1_data_votes : List Eth1Data
  eth1_deposit_index : Nat
  validators : List Validator
  balances : List Nat
  randao_mixes : List Nat
  slashings : List Nat
  previous_epoch_attestations : List PendingAttestation
  current_epoch_attestations : List PendingAttestation
  justification_bits : List Bool
  previous_justified_checkpoint : Checkpoint
  current_justified_checkpoint : Checkpoint
  finalized_checkpoint : Checkpoint
deriving DecidableEq, Inhabited

/-- Oracle bundle for the external collaborators of the core: the hasher,
BLS verification, SSZ tree roots, and every helper function imported
from modules that are not part of this repository (helpers, committee
helpers, deposit helpers and the serenity block-validation helpers).
Each validator-rule helper raises on violation in the source and is
modelled as a boolean predicate; proposer_fuel bounds the unbounded
rejection-sampling loop of compute_proposer_index. -/
structure Externals where
  hash : List Nat → List Nat
  hash_reveal : Nat → Nat
  state_root : BeaconState → Nat
  header_root : BeaconBlockHeader → Nat
  body_root : BeaconBlockBody → Nat
  eth1_data_root : Eth1Data → Nat
  historical_batch_root : List Nat → List Nat → Nat
  get_seed : BeaconState → Nat → Nat → List Nat
  compute_shuffled_index : Nat → Nat → List Nat → Nat
  proposer_fuel : Nat
  bls_verify : Nat → Nat → Nat → Bool
  fast_aggregate_verify : List Nat → Nat → Nat → Bool
  compute_domain_deposit : Nat → Nat
  compute_signing_root_deposit : DepositMessage → Nat → Nat
  get_domain_attester : BeaconState → Nat → Nat
  compute_signing_root_att_data : AttestationData → Nat → Nat
  validate_block_slot : BeaconState → BeaconBlock → Bool
  validate_block_is_new : BeaconState → BeaconBlock → Bool
  validate_block_parent_root : BeaconState → BeaconBlock → Bool
  validate_randao_reveal : BeaconState → Nat → Nat → Nat → Bool
  validate_proposer_slashing_slot : ProposerSlashing → Bool
  validate_proposer_slashing_headers : ProposerSlashing → Bool
  validate_block_header_signature : BeaconState → SignedBeaconBlockHeader → Nat → Bool
  validate_is_slashable_attestation_data :
    IndexedAttestation → IndexedAttestation → Bool
  validate_deposit_proof : BeaconState → Deposit → Bool
  validate_eligible_target_epoch : Nat → Nat → Nat → Bool
  validate_slot_matches_target_epoch : Nat → Nat → Nat → Bool
  validate_attestation_slot : Nat → Nat → Nat → Nat → Bool
  validate_checkpoint : Checkpoint → Checkpoint → Bool
  validate_validator_is_active : Validator → Nat → Bool
  validate_validator_has_not_exited : Validator → Bool
  validate_eligible_exit_epoch : Nat → Nat → Bool
  validate_validator_minimum_lifespan : Validator → Nat → Nat → Bool
  validate_voluntary_exit_signature :
    BeaconState → SignedVoluntaryExit → Validator → Bool

/-- Modelled from the spec: domain type tag for attester duties, passed
to the external get_seed and get_domain helpers. -/
def DOMAIN_BEACON_ATTESTER : Nat := 1

/-- Modelled from the spec: domain type tag for proposer duties. -/
def DOMAIN_BEACON_PROPOSER : Nat := 0

/-! ## Modelled helper functions (imported modules absent from src) -/

/-- Modelled from the spec: compute_epoch_at_slot from the helpers
module (not in this repository): the epoch containing a slot. -/
def compute_epoch_at_slot (slot SLOTS_PER_EPOCH : Nat) : Nat :=
  slot / SLOTS_PER_EPOCH

/-- Modelled from the spec: compute_start_slot_at_epoch from the helpers
module (not in this repository). -/
def compute_start_slot_at_epoch (epoch SLOTS_PER_EPOCH : Nat) : Nat :=
  epoch * SLOTS_PER_EPOCH

/-- Modelled from the spec: compute_activation_exit_epoch from the epoch
processing helpers (not in this repository): the earliest epoch at which
an activation or exit decided now can take effect, one epoch plus the
seed lookahead ahead. -/
def compute_activation_exit_epoch (epoch MAX_SEED_LOOKAHEAD : Nat) : Nat :=
  epoch + 1 + MAX_SEED_LOOKAHEAD

/-- Modelled from the spec: get_block_root_at_slot from the helpers
module (not in this repository): the block-roots circular buffer read at
slot mod SLOTS_PER_HISTORICAL_ROOT. -/
def get_block_root_at_slot (state : BeaconState)
    (slot SLOTS_PER_HISTORICAL_ROOT : Nat) : Nat :=
  state.block_roots.getD (slot % SLOTS_PER_HISTORICAL_ROOT) 0

/-- Modelled from the spec: get_block_root (helpers module, not in this
repository): the block root at the start slot of an epoch. -/
def get_block_root (state : BeaconState)
    (epoch SLOTS_PER_EPOCH SLOTS_PER_HISTORICAL_ROOT : Nat) : Nat :=
  get_block_root_at_slot state
    (compute_start_slot_at_epoch epoch SLOTS_PER_EPOCH)
    SLOTS_PER_HISTORICAL_ROOT

/-- Modelled from the spec: get_randao_mix (helpers module, not in this
repository): the randao-mixes circular buffer read at epoch mod
EPOCHS_PER_HISTORICAL_VECTOR. -/
def get_randao_mix (state : BeaconState)
    (epoch EPOCHS_PER_HISTORICAL_VECTOR : Nat) : Nat :=
  state.randao_mixes.getD (epoch % EPOCHS_PER_HISTORICAL_VECTOR) 0

/-- Modelled from the spec: increase_balance from the epoch processing
helpers (not in this repository): add delta to one balance. -/
def increase_balance (state : BeaconState) (ind delta : Nat) : BeaconState :=
  { state with balances := listTransform state.balances ind (fun b => b + delta) }

/-- Modelled from the spec: decrease_balance from the epoch processing
helpers (not in this repository): subtract delta from one balance,
saturating at zero (truncated subtraction). -/
def decrease_balance (state : BeaconState) (ind delta : Nat) : BeaconState :=
  { state with balances := listTransform state.balances ind (fun b => b - delta) }

/-- Modelled from the spec: the is_slashable method of the Validator
type (types module, not in this repository): not yet slashed and inside
the activation to withdrawable window. -/
def Validator.is_slashable (v : Validator) (epoch : Nat) : Bool :=
  !v.slashed && decide (v.activation_epoch ≤ epoch)
    && decide (epoch < v.withdrawable_epoch)

/-! ## Python dict operations used for pubkey2index -/

/-- Membership test of the pubkey2index mapping. -/
def dictContains (d : List (Nat × Nat)) (k : Nat) : Bool :=
  d.any (fun p => p.1 == k)

/-- Lookup in the pubkey2index mapping. -/
def dictLookup (d : List (Nat × Nat)) (k : Nat) : Option Nat :=
  (d.find? (fun p => p.1 == k)).map (fun p => p.2)

/-- Python dict assignment d[k] = v: overwrite if the key exists,
append in insertion order otherwise. -/
def dictInsert (d : List (Nat × Nat)) (k v : Nat) : List (Nat × Nat) :=
  if dictContains d k then
    d.map (fun p => if p.1 == k then (k, v) else p)
  else d ++ [(k, v)]

/-! ## EpochsContext (component B of the source) -/

/-- The epoch cache: pubkey tables, the three cached shufflings and the
proposers of the current epoch.  In the source the shufflings are
Optional but always populated after load_state; they are total here. -/
structure EpochsContext where
  pubkey2index : List (Nat × Nat)
  index2pubkey : List Nat
  proposers : List Nat
  previous_shuffling : ShufflingEpoch
  current_shuffling : ShufflingEpoch
  next_shuffling : ShufflingEpoch

/-- Embeds EpochsContext.sync_pubkeys: append the pubkeys of validators
beyond the current table size; raises when the two tables disagree in
length. -/
def EpochsContext.sync_pubkeys (ctx : EpochsContext) (state : BeaconState) :
    Except String EpochsContext :=
  let current_count := ctx.pubkey2index.length
  if current_count ≠ ctx.index2pubkey.length then
    .error "length of pubkey2index and index2pubkey do not match"
  else
    .ok ((List.range' current_count
        (state.validators.length - current_count)).foldl
      (fun c i =>
        match state.validators[i]? with
        | some v =>
          { c with
            pubkey2index := dictInsert c.pubkey2index v.pubkey i
            index2pubkey := c.index2pubkey ++ [v.pubkey] }
        | none => c) ctx)

/-- The rejection-sampling loop of compute_proposer_index, with explicit
fuel for the unbounded while True of the source. -/
def compute_proposer_index_loop (ext : Externals) (state : BeaconState)
    (indices : List Nat) (seed : List Nat) (cfg : Eth2Config) :
    Nat → Nat → Except String Nat
  | 0, _i => .error "proposer candidate search exhausted the fuel"
  | fuel + 1, i =>
    let candidate_index := indices.getD
      (ext.compute_shuffled_index (i % indices.length) indices.length seed) 0
    let random_byte := (ext.hash (seed ++ toBytesLE8 (i / 32))).getD (i % 32) 0
    let effective_balance :=
      (state.validators.getD candidate_index default).effective_balance
    if effective_balance * 255 ≥ cfg.MAX_EFFECTIVE_BALANCE * random_byte then
      .ok candidate_index
    else
      compute_proposer_index_loop ext state indices seed cfg fuel (i + 1)

/-- Embeds compute_proposer_index: random index sampled by effective
balance; raises when there are no active validators.  The shuffled-index
primitive comes from the committee-helpers module (not in this
repository) and is an oracle. -/
def compute_proposer_index (ext : Externals) (state : BeaconState)
    (indices : List Nat) (seed : List Nat) (cfg : Eth2Config) :
    Except String Nat :=
  if indices.length = 0 then .error "There are no active validators."
  else compute_proposer_index_loop ext state indices seed cfg
    ext.proposer_fuel 0

/-- Embeds EpochsContext._reset_proposers. -/
def EpochsContext.reset_proposers (ext : Externals) (ctx : EpochsContext)
    (state : BeaconState) (cfg : Eth2Config) : Except String EpochsContext := do
  let epoch_seed := ext.get_seed state ctx.current_shuffling.epoch
    DOMAIN_BEACON_PROPOSER
  let start_slot := compute_start_slot_at_epoch ctx.current_shuffling.epoch
    cfg.SLOTS_PER_EPOCH
  let proposers ← (List.range' start_slot cfg.SLOTS_PER_EPOCH).mapM
    (fun slot => compute_proposer_index ext state
      ctx.current_shuffling.active_indices
      (ext.hash (epoch_seed ++ toBytesLE8 slot)) cfg)
  .ok { ctx with proposers := proposers }

/-- Embeds EpochsContext.rotate_epochs: shift the three shufflings one
epoch forward, rebuild the next shuffling from the state, and recompute
the proposers. -/
def EpochsContext.rotate_epochs (ext : Externals) (ctx : EpochsContext)
    (state : BeaconState) (cfg : Eth2Config) : Except String EpochsContext := do
  let next_epoch := ctx.next_shuffling.epoch + 1
  let indices_bounded := state.validators.enum.map
    (fun p => (p.1, p.2.activation_epoch, p.2.exit_epoch))
  let seed := ext.get_seed state next_epoch DOMAIN_BEACON_ATTESTER
  let ctx1 : EpochsContext :=
    { ctx with
      previous_shuffling := ctx.current_shuffling
      current_shuffling := ctx.next_shuffling
      next_shuffling :=
        ShufflingEpoch.init ext.hash seed indices_bounded next_epoch cfg }
  EpochsContext.reset_proposers ext ctx1 state cfg

/-- Embeds EpochsContext._get_slot_comms; an out-of-window epoch is an
invariant breach in the source (a plain Exception) and is an error
here. -/
def EpochsContext.get_slot_comms (ctx : EpochsContext) (slot : Nat)
    (cfg : Eth2Config) : Except String (List (List Nat)) :=
  let epoch := compute_epoch_at_slot slot cfg.SLOTS_PER_EPOCH
  let epoch_slot := slot % cfg.SLOTS_PER_EPOCH
  if epoch = ctx.previous_shuffling.epoch then
    .ok (ctx.previous_shuffling.committees.getD epoch_slot [])
  else if epoch = ctx.current_shuffling.epoch then
    .ok (ctx.current_shuffling.committees.getD epoch_slot [])
  else if epoch = ctx.next_shuffling.epoch then
    .ok (ctx.next_shuffling.committees.getD epoch_slot [])
  else .error "committee retrieval: out of range epoch"

/-- Embeds EpochsContext.get_beacon_committee. -/
def EpochsContext.get_beacon_committee (ctx : EpochsContext)
    (slot ind : Nat) (cfg : Eth2Config) : Except String (List Nat) := do
  let slot_comms ← ctx.get_slot_comms slot cfg
  if ind ≥ slot_comms.length then
    .error "committee retrieval: out of range committee index"
  else .ok (slot_comms.getD ind [])

/-- Embeds EpochsContext.get_committee_count_at_slot. -/
def EpochsContext.get_committee_count_at_slot (ctx : EpochsContext)
    (slot : Nat) (cfg : Eth2Config) : Except String Nat := do
  let slot_comms ← ctx.get_slot_comms slot cfg
  .ok slot_comms.length

/-- Embeds EpochsContext.get_beacon_proposer; raises when the slot is
outside the current epoch. -/
def EpochsContext.get_beacon_proposer (ctx : EpochsContext) (slot : Nat)
    (cfg : Eth2Config) : Except String Nat :=
  let epoch := compute_epoch_at_slot slot cfg.SLOTS_PER_EPOCH
  if epoch ≠ ctx.current_shuffling.epoch then
    .error "slot epoch does not match the current epoch"
  else .ok (ctx.proposers.getD (slot % cfg.SLOTS_PER_EPOCH) 0)

/-! ## Attester status flags and the epoch summary (component C) -/

def FLAG_PREV_SOURCE_ATTESTER : Nat := 1 <<< 0
def FLAG_PREV_TARGET_ATTESTER : Nat := 1 <<< 1
def FLAG_PREV_HEAD_ATTESTER : Nat := 1 <<< 2
def FLAG_CURR_SOURCE_ATTESTER : Nat := 1 <<< 3
def FLAG_CURR_TARGET_ATTESTER : Nat := 1 <<< 4
def FLAG_CURR_HEAD_ATTESTER : Nat := 1 <<< 5
def FLAG_UNSLASHED : Nat := 1 <<< 6
def FLAG_ELIGIBLE_ATTESTER : Nat := 1 <<< 7

/-- The flat per-validator projection used during an epoch run. -/
structure FlatValidator where
  effective_balance : Nat
  slashed : Bool
  activation_eligibility_epoch : Nat
  activation_epoch : Nat
  exit_epoch : Nat
  withdrawable_epoch : Nat
deriving DecidableEq, Inhabited

/-- Embeds the FlatValidator constructor (positional destructuring of
the validator record, dropping pubkey and credentials). -/
def FlatValidator.ofValidator (v : Validator) : FlatValidator :=
  { effective_balance := v.effective_balance
    slashed := v.slashed
    activation_eligibility_epoch := v.activation_eligibility_epoch
    activation_epoch := v.activation_epoch
    exit_epoch := v.exit_epoch
    withdrawable_epoch := v.withdrawable_epoch }

/-- Per-validator status for one epoch run; proposer_index is signed
because -1 marks absence, as in the source. -/
structure AttesterStatus where
  flags : Nat
  proposer_index : Int
  inclusion_delay : Nat
  validator : FlatValidator
  active : Bool
deriving DecidableEq, Inhabited

/-- Embeds the AttesterStatus constructor. -/
def AttesterStatus.ofFlat (v : FlatValidator) : AttesterStatus :=
  { flags := 0
    proposer_index := -1
    inclusion_delay := 0
    validator := v
    active := false }

/-- Embeds has_markers. -/
def has_markers (flags markers : Nat) : Bool :=
  flags &&& markers == markers

/-- Invariant carried through the status updates: a status either has
no proposer recorded (proposer_index is the sentinel -1, as constructed
by AttesterStatus.ofFlat) or a nonnegative proposer index together with
a positive inclusion delay; and any status whose flags carry
FLAG_PREV_SOURCE_ATTESTER (bit zero) is of the second kind. -/
def statusProposerInv (st : AttesterStatus) : Prop :=
  (st.flags % 2 = 1 →
    0 ≤ st.proposer_index ∧ 1 ≤ st.inclusion_delay) ∧
  (st.proposer_index = -1 ∨
    (0 ≤ st.proposer_index ∧ 1 ≤ st.inclusion_delay))

structure EpochStakeSummary where
  source_stake : Nat
  target_stake : Nat
  head_stake : Nat
deriving DecidableEq, Inhabited

structure EpochProcess where
  prev_epoch : Nat
  current_epoch : Nat
  statuses : List AttesterStatus
  total_active_stake : Nat
  prev_epoch_unslashed_stake : EpochStakeSummary
  curr_epoch_unslashed_target_stake : Nat
  active_validators : Nat
  indices_to_slash : List Nat
  indices_to_set_activation_eligibility : List Nat
  indices_to_maybe_activate : List Nat
  indices_to_eject : List Nat
  exit_queue_end : Nat
  exit_queue_end_churn : Nat
  churn_limit : Nat
deriving DecidableEq

/-- Embeds the EpochProcess zero constructor. -/
def EpochProcess.empty : EpochProcess :=
  { prev_epoch := 0
    current_epoch := 0
    statuses := []
    total_active_stake := 0
    prev_epoch_unslashed_stake :=
      { source_stake := 0, target_stake := 0, head_stake := 0 }
    curr_epoch_unslashed_target_stake := 0
    active_validators := 0
    indices_to_slash := []
    indices_to_set_activation_eligibility := []
    indices_to_maybe_activate := []
    indices_to_eject := []
    exit_queue_end := 0
    exit_queue_end_churn := 0
    churn_limit := 0 }

/-- Embeds get_churn_limit. -/
def get_churn_limit (active_validator_count : Nat) (cfg : Eth2Config) : Nat :=
  max cfg.MIN_PER_EPOCH_CHURN_LIMIT
    (active_validator_count / cfg.CHURN_LIMIT_QUOTIENT)

/-- Embeds is_active_flat_validator. -/
def is_active_flat_validator (v : FlatValidator) (epoch : Nat) : Bool :=
  decide (v.activation_epoch ≤ epoch) && decide (epoch < v.exit_epoch)

/-- The comparison key used to sort indices_to_maybe_activate: the pair
of activation_eligibility_epoch and index, lexicographically. -/
def activationKeyLe (statuses : List AttesterStatus) (i j : Nat) : Bool :=
  let a := (statuses.getD i default).validator.activation_eligibility_epoch
  let b := (statuses.getD j default).validator.activation_eligibility_epoch
  decide (a < b) || (decide (a = b) && decide (i ≤ j))

/-! ## EpochProcess preparation (component C of the source) -/

/-- One validator of the first pass of prepare_epoch_process_state:
build the status, enqueue the index on the various work lists, and
accumulate the active stake and the exit queue end. -/
def prepareStep (cfg : Eth2Config) (slashings_epoch prev_epoch current_epoch : Nat)
    (out : EpochProcess) (p : Nat × Validator) : EpochProcess :=
  let i := p.1
  let v := FlatValidator.ofValidator p.2
  let status := AttesterStatus.ofFlat v
  let indices_to_slash :=
    if v.slashed ∧ slashings_epoch = v.withdrawable_epoch then
      out.indices_to_slash ++ [i]
    else out.indices_to_slash
  let status :=
    if v.slashed then status
    else { status with flags := status.flags ||| FLAG_UNSLASHED }
  let status :=
    if is_active_flat_validator v prev_epoch
        ∨ (v.slashed ∧ prev_epoch + 1 < v.withdrawable_epoch) then
      { status with flags := status.flags ||| FLAG_ELIGIBLE_ATTESTER }
    else status
  let active := is_active_flat_validator v current_epoch
  let status := if active then { status with active := true } else status
  let total_active_stake :=
    if active then out.total_active_stake + v.effective_balance
    else out.total_active_stake
  let active_validators :=
    if active then out.active_validators + 1 else out.active_validators
  let exit_queue_end :=
    if v.exit_epoch ≠ FAR_FUTURE_EPOCH ∧ v.exit_epoch > out.exit_queue_end then
      v.exit_epoch
    else out.exit_queue_end
  let indices_to_set_activation_eligibility :=
    if v.activation_eligibility_epoch = FAR_FUTURE_EPOCH
        ∧ v.effective_balance = cfg.MAX_EFFECTIVE_BALANCE then
      out.indices_to_set_activation_eligibility ++ [i]
    else out.indices_to_set_activation_eligibility
  let indices_to_maybe_activate :=
    if v.activation_epoch = FAR_FUTURE_EPOCH
        ∧ v.activation_eligibility_epoch ≤ current_epoch then
      out.indices_to_maybe_activate ++ [i]
    else out.indices_to_maybe_activate
  let indices_to_eject :=
    if status.active ∧ v.effective_balance ≤ cfg.EJECTION_BALANCE
        ∧ v.exit_epoch = FAR_FUTURE_EPOCH then
      out.indices_to_eject ++ [i]
    else out.indices_to_eject
  { out with
    statuses := out.statuses ++ [status]
    total_active_stake := total_active_stake
    active_validators := active_validators
    exit_queue_end := exit_queue_end
    indices_to_slash := indices_to_slash
    indices_to_set_activation_eligibility := indices_to_set_activation_eligibility
    indices_to_maybe_activate := indices_to_maybe_activate
    indices_to_eject := indices_to_eject }

/-- The proposer-tracking update of one participant for a previous-epoch
attestation: record proposer and delay when this inclusion is the
earliest seen. -/
def attProposerUpdate (inclusion_delay proposer_index : Nat)
    (status : AttesterStatus) : AttesterStatus :=
  if status.proposer_index == -1
      || decide (inclusion_delay < status.inclusion_delay) then
    { status with
      proposer_index := (proposer_index : Int)
      inclusion_delay := inclusion_delay }
  else status

/-- The flag update of one participant: always the source flag, plus the
target flag when the attestation hit the epoch boundary root and the
head flag when it additionally hit the slot root. -/
def attFlagUpdate (source_flag target_flag head_flag : Nat)
    (att_voted_target_root att_voted_head_root : Bool)
    (status : AttesterStatus) : AttesterStatus :=
  let flags := status.flags ||| source_flag
  let flags :=
    if att_voted_target_root then
      flags ||| target_flag ||| (if att_voted_head_root then head_flag else 0)
    else flags
  { status with flags := flags }

/-- Embeds the inner status_process_epoch closure of
prepare_epoch_process_state: walk the pending attestations, resolve each
committee from the cache, and update the participating statuses. -/
def status_process_epoch (epochs_ctx : EpochsContext) (state : BeaconState)
    (statuses : List AttesterStatus) (attestations : List PendingAttestation)
    (epoch prev_epoch : Nat) (source_flag target_flag head_flag : Nat)
    (cfg : Eth2Config) : Except String (List AttesterStatus) := do
  let actual_target_block_root := get_block_root_at_slot state
    (compute_start_slot_at_epoch epoch cfg.SLOTS_PER_EPOCH)
    cfg.SLOTS_PER_HISTORICAL_ROOT
  attestations.foldlM (fun statuses att => do
    let att_slot := att.data.slot
    let committee_index := att.data.index
    let att_voted_target_root := att.data.target.root == actual_target_block_root
    let att_voted_head_root := att.data.beacon_block_root
      == get_block_root_at_slot state att_slot cfg.SLOTS_PER_HISTORICAL_ROOT
    let committee ← epochs_ctx.get_beacon_committee att_slot committee_index cfg
    let participants := (committee.enum.filter
      (fun p => att.aggregation_bits.getD p.1 false)).map (fun p => p.2)
    let statuses :=
      if epoch = prev_epoch then
        participants.foldl (fun sts p =>
          listTransform sts p
            (attProposerUpdate att.inclusion_delay att.proposer_index)) statuses
      else statuses
    let statuses := participants.foldl (fun sts p =>
      listTransform sts p
        (attFlagUpdate source_flag target_flag head_flag
          att_voted_target_root att_voted_head_root)) statuses
    pure statuses) statuses

/-- The four unslashed stake aggregates accumulated at the end of
prepare_epoch_process_state, in source order (target nested under
source, head nested under target). -/
def stakeAggregates (statuses : List AttesterStatus) :
    Nat × Nat × Nat × Nat :=
  statuses.foldl (fun acc status =>
    let (ps, pt, ph, ct) := acc
    let (ps, pt, ph) :=
      if has_markers status.flags (FLAG_PREV_SOURCE_ATTESTER ||| FLAG_UNSLASHED) then
        let ps := ps + status.validator.effective_balance
        let (pt, ph) :=
          if has_markers status.flags FLAG_PREV_TARGET_ATTESTER then
            let pt := pt + status.validator.effective_balance
            let ph :=
              if has_markers status.flags FLAG_PREV_HEAD_ATTESTER then
                ph + status.validator.effective_balance
              else ph
            (pt, ph)
          else (pt, ph)
        (ps, pt, ph)
      else (ps, pt, ph)
    let ct :=
      if has_markers status.flags (FLAG_CURR_TARGET_ATTESTER ||| FLAG_UNSLASHED) then
        ct + status.validator.effective_balance
      else ct
    (ps, pt, ph, ct)) (0, 0, 0, 0)

/-- Embeds prepare_epoch_process_state. -/
def prepare_epoch_process_state (epochs_ctx : EpochsContext)
    (state : BeaconState) (cfg : Eth2Config) : Except String EpochProcess := do
  let current_epoch := epochs_ctx.current_shuffling.epoch
  let prev_epoch := epochs_ctx.previous_shuffling.epoch
  let slashings_epoch := current_epoch + cfg.EPOCHS_PER_SLASHINGS_VECTOR / 2
  let out : EpochProcess :=
    { EpochProcess.empty with
      current_epoch := current_epoch
      prev_epoch := prev_epoch
      exit_queue_end :=
        compute_activation_exit_epoch current_epoch cfg.MAX_SEED_LOOKAHEAD }
  let out := state.validators.enum.foldl
    (prepareStep cfg slashings_epoch prev_epoch current_epoch) out
  let out :=
    if out.total_active_stake < cfg.EFFECTIVE_BALANCE_INCREMENT then
      { out with total_active_stake := cfg.EFFECTIVE_BALANCE_INCREMENT }
    else out
  let out :=
    { out with
      indices_to_maybe_activate :=
        out.indices_to_maybe_activate.mergeSort (activationKeyLe out.statuses) }
  let exit_queue_end_churn := out.statuses.countP
    (fun status => status.validator.exit_epoch == out.exit_queue_end)
  let churn_limit := get_churn_limit out.active_validators cfg
  let (exit_queue_end, exit_queue_end_churn) :=
    if exit_queue_end_churn ≥ churn_limit then (out.exit_queue_end + 1, 0)
    else (out.exit_queue_end, exit_queue_end_churn)
  let out :=
    { out with
      exit_queue_end_churn := exit_queue_end_churn
      exit_queue_end := exit_queue_end
      churn_limit := churn_limit }
  let statuses ← if state.slot > 0 then
      status_process_epoch epochs_ctx state out.statuses
        state.previous_epoch_attestations prev_epoch prev_epoch
        FLAG_PREV_SOURCE_ATTESTER FLAG_PREV_TARGET_ATTESTER
        FLAG_PREV_HEAD_ATTESTER cfg
    else pure out.statuses
  let statuses ←
    if compute_start_slot_at_epoch current_epoch cfg.SLOTS_PER_EPOCH
        < state.slot then
      status_process_epoch epochs_ctx state statuses
        state.current_epoch_attestations current_epoch prev_epoch
        FLAG_CURR_SOURCE_ATTESTER FLAG_CURR_TARGET_ATTESTER
        FLAG_CURR_HEAD_ATTESTER cfg
    else pure statuses
  let out := { out with statuses := statuses }
  let (ps, pt, ph, ct) := stakeAggregates statuses
  .ok { out with
    prev_epoch_unslashed_stake :=
      { source_stake := max ps cfg.EFFECTIVE_BALANCE_INCREMENT
        target_stake := max pt cfg.EFFECTIVE_BALANCE_INCREMENT
        head_stake := max ph cfg.EFFECTIVE_BALANCE_INCREMENT }
    curr_epoch_unslashed_target_stake := max ct cfg.EFFECTIVE_BALANCE_INCREMENT }

/-! ## Epoch transition (component D of the source) -/

/-- The Python expression all(bits[a:b]). -/
def bitsRangeAll (bits : List Bool) (a b : Nat) : Bool :=
  ((bits.drop a).take (b - a)).all (fun x => x)

/-- Embeds process_justification_and_finalization.  The bit shift
bits[1:] = bits[:-1]; bits[0] = False becomes false consed onto
dropLast; the length-four check of the source raises after the update
and is kept as the error case. -/
def process_justification_and_finalization (_epochs_ctx : EpochsContext)
    (process : EpochProcess) (state : BeaconState) (cfg : Eth2Config) :
    Except String BeaconState :=
  let previous_epoch := process.prev_epoch
  let current_epoch := process.current_epoch
  if current_epoch ≤ GENESIS_EPOCH + 1 then .ok state
  else
    let old_previous_justified_checkpoint := state.previous_justified_checkpoint
    let old_current_justified_checkpoint := state.current_justified_checkpoint
    let state :=
      { state with
        previous_justified_checkpoint := state.current_justified_checkpoint }
    let bits := false :: state.justification_bits.dropLast
    let (state, bits) :=
      if process.prev_epoch_unslashed_stake.target_stake * 3
          ≥ process.total_active_stake * 2 then
        ({ state with current_justified_checkpoint :=
            { epoch := previous_epoch
              root := get_block_root state previous_epoch cfg.SLOTS_PER_EPOCH
                cfg.SLOTS_PER_HISTORICAL_ROOT } },
          bits.set 1 true)
      else (state, bits)
    let (state, bits) :=
      if process.curr_epoch_unslashed_target_stake * 3
          ≥ process.total_active_stake * 2 then
        ({ state with current_justified_checkpoint :=
            { epoch := current_epoch
              root := get_block_root state current_epoch cfg.SLOTS_PER_EPOCH
                cfg.SLOTS_PER_HISTORICAL_ROOT } },
          bits.set 0 true)
      else (state, bits)
    let state := { state with justification_bits := bits }
    if bits.length ≠ 4 then
      .error "justification_bits length does not equal 4"
    else
      let state :=
        if bitsRangeAll bits 1 4
            ∧ old_previous_justified_checkpoint.epoch + 3 = current_epoch then
          { state with finalized_checkpoint := old_previous_justified_checkpoint }
        else state
      let state :=
        if bitsRangeAll bits 1 3
            ∧ old_previous_justified_checkpoint.epoch + 2 = current_epoch then
          { state with finalized_checkpoint := old_previous_justified_checkpoint }
        else state
      let state :=
        if bitsRangeAll bits 0 3
            ∧ old_current_justified_checkpoint.epoch + 2 = current_epoch then
          { state with finalized_checkpoint := old_current_justified_checkpoint }
        else state
      let state :=
        if bitsRangeAll bits 0 2
            ∧ old_current_justified_checkpoint.epoch + 1 = current_epoch then
          { state with finalized_checkpoint := old_current_justified_checkpoint }
        else state
      .ok state

structure Deltas where
  rewards : List Nat
  penalties : List Nat
deriving DecidableEq

structure RewardsAndPenalties where
  source : Deltas
  target : Deltas
  head : Deltas
  inclusion_delay : Deltas
  inactivity : Deltas
deriving DecidableEq

/-- Embeds mk_rew_pen. -/
def mk_rew_pen (size : Nat) : RewardsAndPenalties :=
  { source := { rewards := List.replicate size 0, penalties := List.replicate size 0 }
    target := { rewards := List.replicate size 0, penalties := List.replicate size 0 }
    head := { rewards := List.replicate size 0, penalties := List.replicate size 0 }
    inclusion_delay :=
      { rewards := List.replicate size 0, penalties := List.replicate size 0 }
    inactivity :=
      { rewards := List.replicate size 0, penalties := List.replicate size 0 } }

/-- Python list read with a possibly negative index (a negative index
counts from the end, so index -1 reads the last element). -/
def pyListGet (l : List Nat) (i : Int) : Nat :=
  if i < 0 then l.getD (l.length - (-i).toNat) 0 else l.getD i.toNat 0

/-- Python list write with a possibly negative index. -/
def pyListSet (l : List Nat) (i : Int) (x : Nat) : List Nat :=
  if i < 0 then l.set (l.length - (-i).toNat) x else l.set i.toNat x

/-- Read-modify-write of one slot of a deltas array, the Python
statement arr[i] = arr[i] + amt. -/
def listAddAt (l : List Nat) (i amt : Nat) : List Nat :=
  l.set i (l.getD i 0 + amt)

/-- Embeds the per-validator body of
get_attestation_rewards_and_penalties. -/
def attRewardStep (cfg : Eth2Config)
    (balance_sq_root finality_delay : Nat) (is_inactivity_leak : Bool)
    (total_balance prev_epoch_source_stake prev_epoch_target_stake
      prev_epoch_head_stake : Nat)
    (res : RewardsAndPenalties) (p : Nat × AttesterStatus) :
    RewardsAndPenalties :=
  let i := p.1
  let status := p.2
  let eff_balance := status.validator.effective_balance
  let base_reward := eff_balance * cfg.BASE_REWARD_FACTOR / balance_sq_root
    / BASE_REWARDS_PER_EPOCH
  let proposer_reward := base_reward / cfg.PROPOSER_REWARD_QUOTIENT
  let res :=
    if has_markers status.flags (FLAG_PREV_SOURCE_ATTESTER ||| FLAG_UNSLASHED) then
      let propRewards :=
        pyListSet res.inclusion_delay.rewards status.proposer_index
          (pyListGet res.inclusion_delay.rewards status.proposer_index
            + proposer_reward)
      let res :=
        { res with inclusion_delay :=
          { res.inclusion_delay with rewards := propRewards } }
      let max_attester_reward := base_reward - proposer_reward
      { res with inclusion_delay :=
        { res.inclusion_delay with rewards :=
          (listAddAt res.inclusion_delay.rewards i
            (max_attester_reward / status.inclusion_delay)) } }
    else res
  if status.flags &&& FLAG_ELIGIBLE_ATTESTER ≠ 0 then
    let res :=
      if has_markers status.flags (FLAG_PREV_SOURCE_ATTESTER ||| FLAG_UNSLASHED) then
        if is_inactivity_leak then
          { res with source :=
            { res.source with rewards := (listAddAt res.source.rewards i base_reward) } }
        else
          { res with source :=
            { res.source with rewards :=
              (listAddAt res.source.rewards i
                (base_reward * prev_epoch_source_stake / total_balance)) } }
      else
        { res with source :=
          { res.source with penalties :=
            (listAddAt res.source.penalties i base_reward) } }
    let res :=
      if has_markers status.flags (FLAG_PREV_TARGET_ATTESTER ||| FLAG_UNSLASHED) then
        if is_inactivity_leak then
          { res with target :=
            { res.target with rewards := (listAddAt res.target.rewards i base_reward) } }
        else
          { res with target :=
            { res.target with rewards :=
              (listAddAt res.target.rewards i
                (base_reward * prev_epoch_target_stake / total_balance)) } }
      else
        { res with target :=
          { res.target with penalties :=
            (listAddAt res.target.penalties i base_reward) } }
    let res :=
      if has_markers status.flags (FLAG_PREV_HEAD_ATTESTER ||| FLAG_UNSLASHED) then
        if is_inactivity_leak then
          { res with head :=
            { res.head with rewards := (listAddAt res.head.rewards i base_reward) } }
        else
          { res with head :=
            { res.head with rewards :=
              (listAddAt res.head.rewards i
                (base_reward * prev_epoch_head_stake / total_balance)) } }
      else
        { res with head :=
          { res.head with penalties :=
            (listAddAt res.head.penalties i base_reward) } }
    if is_inactivity_leak then
      let leakPen :=
        res.inclusion_delay.penalties.set i
          (res.inclusion_delay.penalties.getD i 0
            + base_reward * BASE_REWARDS_PER_EPOCH - proposer_reward)
      let res :=
        { res with inclusion_delay :=
          { res.inclusion_delay with penalties := leakPen } }
      if ¬ has_markers status.flags
          (FLAG_PREV_TARGET_ATTESTER ||| FLAG_UNSLASHED) then
        { res with inclusion_delay :=
          { res.inclusion_delay with penalties :=
            (listAddAt res.inclusion_delay.penalties i
              (eff_balance * finality_delay
                / cfg.INACTIVITY_PENALTY_QUOTIENT)) } }
      else res
    else res
  else res

/-- Embeds get_attestation_rewards_and_penalties. -/
def get_attestation_rewards_and_penalties (_epochs_ctx : EpochsContext)
    (process : EpochProcess) (state : BeaconState) (cfg : Eth2Config) :
    RewardsAndPenalties :=
  let validator_count := process.statuses.length
  let res := mk_rew_pen validator_count
  let increment := cfg.EFFECTIVE_BALANCE_INCREMENT
  let total_balance := max process.total_active_stake increment
  let prev_epoch_source_stake :=
    max process.prev_epoch_unslashed_stake.source_stake increment
  let prev_epoch_target_stake :=
    max process.prev_epoch_unslashed_stake.target_stake increment
  let prev_epoch_head_stake :=
    max process.prev_epoch_unslashed_stake.head_stake increment
  let balance_sq_root := integer_squareroot total_balance
  let finality_delay := process.prev_epoch - state.finalized_checkpoint.epoch
  let is_inactivity_leak :=
    decide (finality_delay > cfg.MIN_EPOCHS_TO_INACTIVITY_PENALTY)
  let total_balance := total_balance / increment
  let prev_epoch_source_stake := prev_epoch_source_stake / increment
  let prev_epoch_target_stake := prev_epoch_target_stake / increment
  let prev_epoch_head_stake := prev_epoch_head_stake / increment
  process.statuses.enum.foldl
    (attRewardStep cfg balance_sq_root finality_delay is_inactivity_leak
      total_balance prev_epoch_source_stake prev_epoch_target_stake
      prev_epoch_head_stake) res

/-- Embeds the add_rewards closure of process_rewards_and_penalties. -/
def add_rewards (new_balances : List Nat) (deltas : Deltas) : List Nat :=
  deltas.rewards.enum.foldl
    (fun nb p => nb.set p.1 (nb.getD p.1 0 + p.2)) new_balances

/-- Embeds the add_penalties closure: penalties floor the balance at
zero. -/
def add_penalties (new_balances : List Nat) (deltas : Deltas) : List Nat :=
  deltas.penalties.enum.foldl
    (fun nb p =>
      if p.2 > nb.getD p.1 0 then nb.set p.1 0
      else nb.set p.1 (nb.getD p.1 0 - p.2)) new_balances

/-- Embeds process_rewards_and_penalties: identity at GENESIS_EPOCH,
otherwise all rewards then all penalties applied to the balances in one
write. -/
def process_rewards_and_penalties (epochs_ctx : EpochsContext)
    (process : EpochProcess) (state : BeaconState) (cfg : Eth2Config) :
    BeaconState :=
  if process.current_epoch = GENESIS_EPOCH then state
  else
    let res := get_attestation_rewards_and_penalties epochs_ctx process state cfg
    let new_balances := state.balances
    let new_balances := add_rewards new_balances res.source
    let new_balances := add_rewards new_balances res.target
    let new_balances := add_rewards new_balances res.head
    let new_balances := add_rewards new_balances res.inclusion_delay
    let new_balances := add_rewards new_balances res.inactivity
    let new_balances := add_penalties new_balances res.source
    let new_balances := add_penalties new_balances res.target
    let new_balances := add_penalties new_balances res.head
    let new_balances := add_penalties new_balances res.inclusion_delay
    let new_balances := add_penalties new_balances res.inactivity
    { state with balances := new_balances }

/-- The activation loop of process_registry_updates: walk the sorted
queue up to the churn limit, stopping at the first entry whose
eligibility is past finality. -/
def processActivations (statuses : List AttesterStatus)
    (finality_epoch act_epoch : Nat) :
    List Nat → BeaconState → BeaconState
  | [], state => state
  | ind :: rest, state =>
    if (statuses.getD ind default).validator.activation_eligibility_epoch
        > finality_epoch then state
    else
      processActivations statuses finality_epoch act_epoch rest
        { state with validators := (listTransform state.validators ind
          (fun v => { v with activation_epoch := act_epoch })) }

/-- The ejection step of process_registry_updates: one index of the
indices_to_eject loop, threading the exit queue end and its churn. -/
def registryEjectStep (process : EpochProcess) (cfg : Eth2Config)
    (acc : BeaconState × Nat × Nat) (ind : Nat) : BeaconState × Nat × Nat :=
  let (state, exit_end, end_churn) := acc
  let state :=
    { state with validators := (listTransform state.validators ind
      (fun v =>
        { v with
          exit_epoch := exit_end
          withdrawable_epoch :=
            exit_end + cfg.MIN_VALIDATOR_WITHDRAWABILITY_DELAY })) }
  let end_churn := end_churn + 1
  let (end_churn, exit_end) :=
    if end_churn ≥ process.churn_limit then (0, exit_end + 1)
    else (end_churn, exit_end)
  (state, exit_end, end_churn)

/-- The activation-eligibility update applied to one validator index in
process_registry_updates. -/
def registryEligStep (epochs_ctx : EpochsContext)
    (state : BeaconState) (ind : Nat) : BeaconState :=
  { state with validators := (listTransform state.validators ind
    (fun v =>
      { v with activation_eligibility_epoch :=
        epochs_ctx.current_shuffling.epoch + 1 })) }

/-- Embeds process_registry_updates: ejections, activation
eligibilities, then activations up to the churn limit. -/
def process_registry_updates (epochs_ctx : EpochsContext)
    (process : EpochProcess) (state : BeaconState) (cfg : Eth2Config) :
    BeaconState :=
  let (state, _, _) := process.indices_to_eject.foldl
    (registryEjectStep process cfg)
    (state, process.exit_queue_end, process.exit_queue_end_churn)
  let state := process.indices_to_set_activation_eligibility.foldl
    (registryEligStep epochs_ctx) state
  let finality_epoch := state.finalized_checkpoint.epoch
  processActivations process.statuses finality_epoch
    (compute_activation_exit_epoch process.current_epoch cfg.MAX_SEED_LOOKAHEAD)
    (process.indices_to_maybe_activate.take process.churn_limit) state

/-- Embeds process_slashings. -/
def process_slashings (_epochs_ctx : EpochsContext) (process : EpochProcess)
    (state : BeaconState) (cfg : Eth2Config) : BeaconState :=
  let total_balance := process.total_active_stake
  let slashings_scale := min (state.slashings.sum * 3) total_balance
  process.indices_to_slash.foldl
    (fun state ind =>
      let increment := cfg.EFFECTIVE_BALANCE_INCREMENT
      let effective_balance :=
        (process.statuses.getD ind default).validator.effective_balance
      let penalty_numerator := effective_balance / increment * slashings_scale
      let penalty := penalty_numerator / total_balance * increment
      decrease_balance state ind penalty) state

/-- The effective-balance hysteresis update for one (index, status,
balance) triple during process_final_updates. -/
def finalHysteresisStep (cfg : Eth2Config) (state : BeaconState)
    (p : (Nat × AttesterStatus) × Nat) : BeaconState :=
  let HYSTERESIS_INCREMENT :=
    cfg.EFFECTIVE_BALANCE_INCREMENT / cfg.HYSTERESIS_QUOTIENT
  let DOWNWARD_THRESHOLD :=
    HYSTERESIS_INCREMENT * cfg.HYSTERESIS_DOWNWARD_MULTIPLIER
  let UPWARD_THRESHOLD :=
    HYSTERESIS_INCREMENT * cfg.HYSTERESIS_UPWARD_MULTIPLIER
  let ind := p.1.1
  let status := p.1.2
  let balance := p.2
  let effective_balance := status.validator.effective_balance
  if balance + DOWNWARD_THRESHOLD < effective_balance
      ∨ effective_balance + UPWARD_THRESHOLD < balance then
    let new_effective_balance :=
      min (balance - balance % cfg.EFFECTIVE_BALANCE_INCREMENT)
        cfg.MAX_EFFECTIVE_BALANCE
    { state with validators := (listTransform state.validators ind
      (fun v => { v with effective_balance := new_effective_balance })) }
  else state

/-- Embeds process_final_updates: eth1 vote reset, effective-balance
hysteresis, slashings and randao rotation, historical accumulator, and
the attestation rotation. -/
def process_final_updates (ext : Externals) (_epochs_ctx : EpochsContext)
    (process : EpochProcess) (state : BeaconState) (cfg : Eth2Config) :
    BeaconState :=
  let current_epoch := process.current_epoch
  let next_epoch := current_epoch + 1
  let state :=
    if next_epoch % cfg.EPOCHS_PER_ETH1_VOTING_PERIOD = 0 then
      { state with eth1_data_votes := [] }
    else state
  let state := (process.statuses.enum.zip state.balances).foldl
    (finalHysteresisStep cfg) state
  let state :=
    { state with slashings := (listTransform state.slashings
      (next_epoch % cfg.EPOCHS_PER_SLASHINGS_VECTOR) (fun _ => 0)) }
  let state :=
    { state with randao_mixes := (listTransform state.randao_mixes
      (next_epoch % cfg.EPOCHS_PER_HISTORICAL_VECTOR)
      (fun _ => get_randao_mix state current_epoch
        cfg.EPOCHS_PER_HISTORICAL_VECTOR)) }
  let state :=
    if next_epoch % (cfg.SLOTS_PER_HISTORICAL_ROOT / cfg.SLOTS_PER_EPOCH)
        = 0 then
      { state with historical_roots := state.historical_roots
        ++ [ext.historical_batch_root state.block_roots state.state_roots] }
    else state
  let state :=
    { state with
      previous_epoch_attestations := state.current_epoch_attestations }
  { state with current_epoch_attestations := [] }

/-- Embeds process_epoch: the fixed six-stage pipeline. -/
def process_epoch (ext : Externals) (epochs_ctx : EpochsContext)
    (state : BeaconState) (cfg : Eth2Config) : Except String BeaconState := do
  let process ← prepare_epoch_process_state epochs_ctx state cfg
  let state ← process_justification_and_finalization epochs_ctx process state cfg
  let state := process_rewards_and_penalties epochs_ctx process state cfg
  let state := process_registry_updates epochs_ctx process state cfg
  let state := process_slashings epochs_ctx process state cfg
  .ok (process_final_updates ext epochs_ctx process state cfg)

/-! ## Block transition and operation processors (components E and F) -/

/-- Embeds process_block_header: slot, freshness, proposer and parent
checks, then cache the new latest block header with a zero state root,
then reject a slashed proposer. -/
def process_block_header (ext : Externals) (epochs_ctx : EpochsContext)
    (state : BeaconState) (block : BeaconBlock) (cfg : Eth2Config) :
    Except String BeaconState := do
  if ¬ ext.validate_block_slot state block then
    .error "block slot validation failed"
  else if ¬ ext.validate_block_is_new state block then
    .error "block is not newer than the latest block header"
  else do
    let proposer_index ← epochs_ctx.get_beacon_proposer state.slot cfg
    if block.proposer_index ≠ proposer_index then
      .error "block proposer does not equal the expected proposer"
    else if ¬ ext.validate_block_parent_root state block then
      .error "block parent root validation failed"
    else
      let state :=
        { state with latest_block_header :=
          { slot := block.slot
            proposer_index := block.proposer_index
            parent_root := block.parent_root
            state_root := 0
            body_root := ext.body_root block.body } }
      let proposer := state.validators.getD proposer_index default
      if proposer.slashed then .error "proposer for block is slashed"
      else .ok state

/-- Embeds process_randao: verify the reveal and xor its hash into the
current randao mix. -/
def process_randao (ext : Externals) (epochs_ctx : EpochsContext)
    (state : BeaconState) (body : BeaconBlockBody) (cfg : Eth2Config) :
    Except String BeaconState := do
  let epoch := epochs_ctx.current_shuffling.epoch
  let proposer_index ← epochs_ctx.get_beacon_proposer state.slot cfg
  if ¬ ext.validate_randao_reveal state proposer_index epoch
      body.randao_reveal then
    .error "randao reveal validation failed"
  else
    let mix := Nat.xor
      (get_randao_mix state epoch cfg.EPOCHS_PER_HISTORICAL_VECTOR)
      (ext.hash_reveal body.randao_reveal)
    .ok { state with randao_mixes := (listTransform state.randao_mixes
      (epoch % cfg.EPOCHS_PER_HISTORICAL_VECTOR) (fun _ => mix)) }

/-- Embeds process_eth1_data: append the vote; adopt the data once a
strict majority of a voting period matches. -/
def process_eth1_data (ext : Externals) (_epochs_ctx : EpochsContext)
    (state : BeaconState) (body : BeaconBlockBody) (cfg : Eth2Config) :
    BeaconState :=
  let new_eth1_data := body.eth1_data
  let state :=
    { state with eth1_data_votes := state.eth1_data_votes ++ [new_eth1_data] }
  if state.eth1_data = new_eth1_data then state
  else
    let votes := state.eth1_data_votes.countP
      (fun vote => ext.eth1_data_root vote == ext.eth1_data_root new_eth1_data)
    if votes * 2 > cfg.EPOCHS_PER_ETH1_VOTING_PERIOD * cfg.SLOTS_PER_EPOCH then
      { state with eth1_data := new_eth1_data }
    else state

/-- Embeds initiate_validator_exit: no-op when the exit epoch is already
set; otherwise place the validator at the end of the exit queue,
advancing it by one when the churn at that epoch is saturated. -/
def initiate_validator_exit (epochs_ctx : EpochsContext)
    (state : BeaconState) (index : Nat) (cfg : Eth2Config) : BeaconState :=
  let new_validator := state.validators.getD index default
  if new_validator.exit_epoch ≠ FAR_FUTURE_EPOCH then state
  else
    let current_epoch := epochs_ctx.current_shuffling.epoch
    let exit_epochs := (state.validators.filter
      (fun v => v.exit_epoch ≠ FAR_FUTURE_EPOCH)).map (fun v => v.exit_epoch)
    let exit_queue_epoch := (exit_epochs
      ++ [compute_activation_exit_epoch current_epoch
        cfg.MAX_SEED_LOOKAHEAD]).foldl max 0
    let exit_queue_churn := (state.validators.filter
      (fun v => v.exit_epoch = exit_queue_epoch)).length
    let exit_queue_epoch :=
      if exit_queue_churn ≥ get_churn_limit
          epochs_ctx.current_shuffling.active_indices.length cfg then
        exit_queue_epoch + 1
      else exit_queue_epoch
    { state with validators := (listTransform state.validators index
      (fun _ =>
        { new_validator with
          exit_epoch := exit_queue_epoch
          withdrawable_epoch :=
            exit_queue_epoch + cfg.MIN_VALIDATOR_WITHDRAWABILITY_DELAY })) }

/-- Embeds slash_validator: initiate exit, mark slashed, extend the
withdrawable epoch, add the stake to the slashings buffer, apply the
minimum penalty, and pay proposer and whistleblower. -/
def slash_validator (_ext : Externals) (epochs_ctx : EpochsContext)
    (state : BeaconState) (slashed_index : Nat) (cfg : Eth2Config)
    (whistleblower_index : Option Nat) : Except String BeaconState := do
  let epoch := epochs_ctx.current_shuffling.epoch
  let state := initiate_validator_exit epochs_ctx state slashed_index cfg
  let v := state.validators.getD slashed_index default
  let new_validator :=
    { v with
      slashed := true
      withdrawable_epoch :=
        max v.withdrawable_epoch (epoch + cfg.EPOCHS_PER_SLASHINGS_VECTOR) }
  let state :=
    { state with slashings := (listTransform state.slashings
      (epoch % cfg.EPOCHS_PER_SLASHINGS_VECTOR)
      (fun slashing => slashing + new_validator.effective_balance)) }
  let state :=
    { state with validators := (listTransform state.validators slashed_index
      (fun _ => new_validator)) }
  let state := decrease_balance state slashed_index
    (new_validator.effective_balance / cfg.MIN_SLASHING_PENALTY_QUOTIENT)
  let proposer_index ← epochs_ctx.get_beacon_proposer state.slot cfg
  let whistleblower := whistleblower_index.getD proposer_index
  let whistleblower_reward :=
    new_validator.effective_balance / cfg.WHISTLEBLOWER_REWARD_QUOTIENT
  let proposer_reward := whistleblower_reward / cfg.PROPOSER_REWARD_QUOTIENT
  let state := increase_balance state proposer_index proposer_reward
  .ok (increase_balance state whistleblower
    (whistleblower_reward - proposer_reward))

/-- Embeds process_proposer_slashing. -/
def process_proposer_slashing (ext : Externals) (epochs_ctx : EpochsContext)
    (state : BeaconState) (proposer_slashing : ProposerSlashing)
    (cfg : Eth2Config) : Except String BeaconState := do
  let proposer_index := proposer_slashing.signed_header_1.message.proposer_index
  let proposer := state.validators.getD proposer_index default
  if ¬ ext.validate_proposer_slashing_slot proposer_slashing then
    .error "proposer slashing slot validation failed"
  else if ¬ ext.validate_proposer_slashing_headers proposer_slashing then
    .error "proposer slashing header validation failed"
  else if ¬ proposer.is_slashable epochs_ctx.current_shuffling.epoch then
    .error "proposer is not slashable"
  else if ¬ ext.validate_block_header_signature state
      proposer_slashing.signed_header_1 proposer.pubkey then
    .error "first header signature validation failed"
  else if ¬ ext.validate_block_header_signature state
      proposer_slashing.signed_header_2 proposer.pubkey then
    .error "second header signature validation failed"
  else
    slash_validator ext epochs_ctx state proposer_index cfg none

/-- Embeds is_valid_indexed_attestation: sorted unique indices and a
valid aggregate signature over the attester pubkeys. -/
def is_valid_indexed_attestation (ext : Externals)
    (epochs_ctx : EpochsContext) (state : BeaconState)
    (indexed_attestation : IndexedAttestation) (_cfg : Eth2Config) : Bool :=
  let indices := indexed_attestation.attesting_indices
  if indices.length = 0
      ∨ indices ≠ indices.dedup.mergeSort (fun a b => decide (a ≤ b)) then
    false
  else
    let pubkeys := indices.map (fun i => epochs_ctx.index2pubkey.getD i 0)
    let domain := ext.get_domain_attester state
      indexed_attestation.data.target.epoch
    let signing_root := ext.compute_signing_root_att_data
      indexed_attestation.data domain
    ext.fast_aggregate_verify pubkeys indexed_attestation.signature
      signing_root

/-- Embeds process_attester_slashing: both attestations must be valid
and mutually slashable; the sorted intersection is slashed (checking
slashability against the validator set read before the loop, as the
source does) and at least one validator must be slashed. -/
def process_attester_slashing (ext : Externals) (epochs_ctx : EpochsContext)
    (state : BeaconState) (attester_slashing : AttesterSlashing)
    (cfg : Eth2Config) : Except String BeaconState := do
  let attestation_1 := attester_slashing.attestation_1
  let attestation_2 := attester_slashing.attestation_2
  if ¬ ext.validate_is_slashable_attestation_data attestation_1
      attestation_2 then
    .error "attestation data pair is not slashable"
  else if ¬ is_valid_indexed_attestation ext epochs_ctx state
      attestation_1 cfg then
    .error "invalid first indexed attestation"
  else if ¬ is_valid_indexed_attestation ext epochs_ctx state
      attestation_2 cfg then
    .error "invalid second indexed attestation"
  else do
    let indices := ((attestation_1.attesting_indices.filter
      (fun i => attestation_2.attesting_indices.contains i)).dedup).mergeSort
      (fun a b => decide (a ≤ b))
    let validators := state.validators
    let stAny ← indices.foldlM
      (fun (acc : BeaconState × Bool) ind => do
        if (validators.getD ind default).is_slashable
            epochs_ctx.current_shuffling.epoch then
          let st ← slash_validator ext epochs_ctx acc.1 ind cfg none
          pure (st, true)
        else pure acc) (state, false)
    if ¬ stAny.2 then .error "No validators slashed."
    else .ok stAny.1

/-- Embeds process_attestation. -/
def process_attestation (ext : Externals) (epochs_ctx : EpochsContext)
    (state : BeaconState) (attestation : Attestation) (cfg : Eth2Config) :
    Except String BeaconState := do
  let slot := state.slot
  let data := attestation.data
  let committees_per_slot ← epochs_ctx.get_committee_count_at_slot data.slot cfg
  if data.index ≥ committees_per_slot then
    .error "attestation committee index out of range"
  else if ¬ ext.validate_eligible_target_epoch data.target.epoch
      epochs_ctx.current_shuffling.epoch
      epochs_ctx.previous_shuffling.epoch then
    .error "attestation target epoch not eligible"
  else if ¬ ext.validate_slot_matches_target_epoch data.target.epoch
      data.slot cfg.SLOTS_PER_EPOCH then
    .error "attestation slot does not match its target epoch"
  else if ¬ ext.validate_attestation_slot data.slot slot
      cfg.SLOTS_PER_EPOCH cfg.MIN_ATTESTATION_INCLUSION_DELAY then
    .error "attestation slot outside the inclusion window"
  else do
    let committee ← epochs_ctx.get_beacon_committee data.slot data.index cfg
    if attestation.aggregation_bits.length ≠ committee.length then
      .error "attestation bit lengths do not match"
    else do
      let proposer ← epochs_ctx.get_beacon_proposer slot cfg
      let pending_attestation : PendingAttestation :=
        { data := data
          aggregation_bits := attestation.aggregation_bits
          inclusion_delay := slot - data.slot
          proposer_index := proposer }
      let state ←
        if data.target.epoch = epochs_ctx.current_shuffling.epoch then
          if ¬ ext.validate_checkpoint data.source
              state.current_justified_checkpoint then
            Except.error "attestation source checkpoint validation failed"
          else
            Except.ok { state with current_epoch_attestations :=
              state.current_epoch_attestations ++ [pending_attestation] }
        else
          if ¬ ext.validate_checkpoint data.source
              state.previous_justified_checkpoint then
            Except.error "attestation source checkpoint validation failed"
          else
            Except.ok { state with previous_epoch_attestations :=
              state.previous_epoch_attestations ++ [pending_attestation] }
      let committee2 ← epochs_ctx.get_beacon_committee data.slot data.index cfg
      let attesting_indices := (((committee2.enum.filter
        (fun p => attestation.aggregation_bits.getD p.1 false)).map
        (fun p => p.2)).dedup).mergeSort (fun a b => decide (a ≤ b))
      let indexed_attestation : IndexedAttestation :=
        { attesting_indices := attesting_indices
          data := attestation.data
          signature := attestation.signature }
      if ¬ is_valid_indexed_attestation ext epochs_ctx state
          indexed_attestation cfg then
        .error "invalid indexed attestation"
      else .ok state

/-- Embeds process_deposit: validate the Merkle proof, count the
deposit, then either create a validator (skipped silently when the
proof of possession fails) or top up the known validator, finally
syncing the pubkey tables. -/
def process_deposit (ext : Externals) (epochs_ctx : EpochsContext)
    (state : BeaconState) (deposit : Deposit) (cfg : Eth2Config) :
    Except String (BeaconState × EpochsContext) := do
  if ¬ ext.validate_deposit_proof state deposit then
    .error "deposit proof validation failed"
  else do
    let state := { state with eth1_deposit_index := state.eth1_deposit_index + 1 }
    let pubkey := deposit.data.pubkey
    let amount := deposit.data.amount
    if ¬ dictContains epochs_ctx.pubkey2index pubkey then
      let deposit_message : DepositMessage :=
        { pubkey := deposit.data.pubkey
          withdrawal_credentials := deposit.data.withdrawal_credentials
          amount := deposit.data.amount }
      let domain := ext.compute_domain_deposit cfg.GENESIS_FORK_VERSION
      let signing_root := ext.compute_signing_root_deposit deposit_message domain
      if ¬ ext.bls_verify signing_root deposit.data.signature pubkey then
        .ok (state, epochs_ctx)
      else do
        let state :=
          { state with
            validators := state.validators ++
              [{ pubkey := pubkey
                 withdrawal_credentials := deposit.data.withdrawal_credentials
                 effective_balance :=
                   min (amount - amount % cfg.EFFECTIVE_BALANCE_INCREMENT)
                     cfg.MAX_EFFECTIVE_BALANCE
                 slashed := false
                 activation_eligibility_epoch := FAR_FUTURE_EPOCH
                 activation_epoch := FAR_FUTURE_EPOCH
                 exit_epoch := FAR_FUTURE_EPOCH
                 withdrawable_epoch := FAR_FUTURE_EPOCH }]
            balances := state.balances ++ [amount] }
        let ctx ← epochs_ctx.sync_pubkeys state
        .ok (state, ctx)
    else do
      let ind := (dictLookup epochs_ctx.pubkey2index pubkey).getD 0
      let state := increase_balance state ind amount
      let ctx ← epochs_ctx.sync_pubkeys state
      .ok (state, ctx)

/-- Embeds process_voluntary_exit. -/
def process_voluntary_exit (ext : Externals) (epochs_ctx : EpochsContext)
    (state : BeaconState) (signed_voluntary_exit : SignedVoluntaryExit)
    (cfg : Eth2Config) : Except String BeaconState := do
  let voluntary_exit := signed_voluntary_exit.message
  let validator := state.validators.getD voluntary_exit.validator_index default
  let current_epoch := epochs_ctx.current_shuffling.epoch
  if ¬ ext.validate_validator_is_active validator current_epoch then
    .error "exiting validator is not active"
  else if ¬ ext.validate_validator_has_not_exited validator then
    .error "exiting validator already exited"
  else if ¬ ext.validate_eligible_exit_epoch voluntary_exit.epoch
      current_epoch then
    .error "exit epoch not yet eligible"
  else if ¬ ext.validate_validator_minimum_lifespan validator current_epoch
      cfg.SHARD_COMMITTEE_PERIOD then
    .error "validator has not been active long enough"
  else if ¬ ext.validate_voluntary_exit_signature state
      signed_voluntary_exit validator then
    .error "voluntary exit signature validation failed"
  else
    .ok (initiate_validator_exit epochs_ctx state
      voluntary_exit.validator_index cfg)

/-- Embeds process_operations: the deposit-count check, then the five
operation kinds dispatched in fixed order, each in body order.  The
epoch context is threaded because process_deposit extends its pubkey
tables. -/
def process_operations (ext : Externals) (epochs_ctx : EpochsContext)
    (state : BeaconState) (body : BeaconBlockBody) (cfg : Eth2Config) :
    Except String (BeaconState × EpochsContext) := do
  if body.deposits.length ≠ min cfg.MAX_DEPOSITS
      (state.eth1_data.deposit_count - state.eth1_deposit_index) then
    .error "Incorrect number of deposits"
  else do
    let state ← body.proposer_slashings.foldlM
      (fun st op => process_proposer_slashing ext epochs_ctx st op cfg) state
    let state ← body.attester_slashings.foldlM
      (fun st op => process_attester_slashing ext epochs_ctx st op cfg) state
    let state ← body.attestations.foldlM
      (fun st op => process_attestation ext epochs_ctx st op cfg) state
    let stCtx ← body.deposits.foldlM
      (fun (acc : BeaconState × EpochsContext) op =>
        process_deposit ext acc.2 acc.1 op cfg) (state, epochs_ctx)
    let state ← body.voluntary_exits.foldlM
      (fun st op => process_voluntary_exit ext stCtx.2 st op cfg) stCtx.1
    .ok (state, stCtx.2)

/-- Embeds process_block: header, randao, eth1 data, then operations. -/
def process_block (ext : Externals) (epochs_ctx : EpochsContext)
    (state : BeaconState) (block : BeaconBlock) (cfg : Eth2Config) :
    Except String (BeaconState × EpochsContext) := do
  let state ← process_block_header ext epochs_ctx state block cfg
  let state ← process_randao ext epochs_ctx state block.body cfg
  let state := process_eth1_data ext epochs_ctx state block.body cfg
  process_operations ext epochs_ctx state block.body cfg

/-! ## Slot driver (component G) -/

/-- Modelled from the spec: the per-slot cache update _process_slot of
the serenity slot-processing module (not in this repository): cache the
state root, fill the pending block header state root when zero, then
cache the block root.  It does not change the slot field. -/
def process_slot_cache (ext : Externals) (state : BeaconState)
    (cfg : Eth2Config) : BeaconState :=
  let previous_state_root := ext.state_root state
  let state :=
    { state with state_roots := (listTransform state.state_roots
      (state.slot % cfg.SLOTS_PER_HISTORICAL_ROOT)
      (fun _ => previous_state_root)) }
  let state :=
    if state.latest_block_header.state_root = 0 then
      { state with latest_block_header :=
        { state.latest_block_header with state_root := previous_state_root } }
    else state
  { state with block_roots := (listTransform state.block_roots
    (state.slot % cfg.SLOTS_PER_HISTORICAL_ROOT)
    (fun _ => ext.header_root state.latest_block_header)) }

/-- The while loop of process_slots; the fuel is the exact number of
remaining slots (the loop advances the slot by one per iteration). -/
def process_slots_go (ext : Externals) (cfg : Eth2Config) :
    Nat → BeaconState → EpochsContext →
    Except String (BeaconState × EpochsContext)
  | 0, state, epochs_ctx => .ok (state, epochs_ctx)
  | fuel + 1, state, epochs_ctx => do
    let state := process_slot_cache ext state cfg
    let next_slot := state.slot + 1
    let stCtx ←
      if next_slot % cfg.SLOTS_PER_EPOCH = 0 then do
        let state ← process_epoch ext epochs_ctx state cfg
        let epochs_ctx ← EpochsContext.rotate_epochs ext epochs_ctx
          { state with slot := next_slot } cfg
        pure (state, epochs_ctx)
      else pure (state, epochs_ctx)
    process_slots_go ext cfg fuel { stCtx.1 with slot := next_slot } stCtx.2

/-- The same loop as process_slots_go, additionally counting how many
epoch transitions (process_epoch followed by rotate_epochs) it
performs; the counter is the only difference, so a successful run of
process_slots_go is a successful run of this trace with some count. -/
def process_slots_go_trace (ext : Externals) (cfg : Eth2Config) :
    Nat → BeaconState → EpochsContext →
    Except String (BeaconState × EpochsContext × Nat)
  | 0, state, epochs_ctx => .ok (state, epochs_ctx, 0)
  | fuel + 1, state, epochs_ctx => do
    let state := process_slot_cache ext state cfg
    let next_slot := state.slot + 1
    let stCtx ←
      if next_slot % cfg.SLOTS_PER_EPOCH = 0 then do
        let state ← process_epoch ext epochs_ctx state cfg
        let epochs_ctx ← EpochsContext.rotate_epochs ext epochs_ctx
          { state with slot := next_slot } cfg
        pure (state, epochs_ctx, 1)
      else pure (state, epochs_ctx, 0)
    let rest ← process_slots_go_trace ext cfg fuel
      { stCtx.1 with slot := next_slot } stCtx.2.1
    .ok (rest.1, rest.2.1, stCtx.2.2 + rest.2.2)

/-- Embeds process_slots: raises when the target is not ahead of the
current slot, otherwise advances slot by slot, running the epoch
transition and the cache rotation at each epoch boundary. -/
def process_slots (ext : Externals) (epochs_ctx : EpochsContext)
    (state : BeaconState) (slot : Nat) (cfg : Eth2Config) :
    Except String (BeaconState × EpochsContext) :=
  if state.slot ≥ slot then
    .error "requested slot transition is behind the current slot"
  else process_slots_go ext cfg (slot - state.slot) state epochs_ctx

/-! ## Concrete fixtures used to instantiate the theorems -/

/-- A small concrete configuration for instantiating theorems. -/
def testConfig : Eth2Config :=
  { SLOTS_PER_EPOCH := 1
    TARGET_COMMITTEE_SIZE := 1
    MAX_COMMITTEES_PER_SLOT := 4
    SHUFFLE_ROUND_COUNT := 2
    MAX_SEED_LOOKAHEAD := 1
    MIN_PER_EPOCH_CHURN_LIMIT := 1
    CHURN_LIMIT_QUOTIENT := 16
    EJECTION_BALANCE := 16
    EFFECTIVE_BALANCE_INCREMENT := 1
    MAX_EFFECTIVE_BALANCE := 32
    BASE_REWARD_FACTOR := 1
    PROPOSER_REWARD_QUOTIENT := 8
    WHISTLEBLOWER_REWARD_QUOTIENT := 512
    INACTIVITY_PENALTY_QUOTIENT := 1024
    MIN_SLASHING_PENALTY_QUOTIENT := 32
    EPOCHS_PER_SLASHINGS_VECTOR := 2
    EPOCHS_PER_HISTORICAL_VECTOR := 2
    SLOTS_PER_HISTORICAL_ROOT := 2
    EPOCHS_PER_ETH1_VOTING_PERIOD := 2
    MIN_EPOCHS_TO_INACTIVITY_PENALTY := 4
    HYSTERESIS_QUOTIENT := 4
    HYSTERESIS_DOWNWARD_MULTIPLIER := 1
    HYSTERESIS_UPWARD_MULTIPLIER := 5
    MIN_VALIDATOR_WITHDRAWABILITY_DELAY := 1
    MIN_ATTESTATION_INCLUSION_DELAY := 1
    SHARD_COMMITTEE_PERIOD := 1
    MAX_DEPOSITS := 16
    GENESIS_FORK_VERSION := 0 }

/-- A trivial oracle bundle: hashing returns zero bytes, every rule
check passes, and the proof-of-possession BLS check fails. -/
def testExt : Externals :=
  { hash := fun _ => List.replicate 32 0
    hash_reveal := fun _ => 0
    state_root := fun _ => 0
    header_root := fun _ => 0
    body_root := fun _ => 0
    eth1_data_root := fun _ => 0
    historical_batch_root := fun _ _ => 0
    get_seed := fun _ _ _ => List.replicate 32 0
    compute_shuffled_index := fun i _ _ => i
    proposer_fuel := 8
    bls_verify := fun _ _ _ => false
    fast_aggregate_verify := fun _ _ _ => true
    compute_domain_deposit := fun _ => 0
    compute_signing_root_deposit := fun _ _ => 0
    get_domain_attester := fun _ _ => 0
    compute_signing_root_att_data := fun _ _ => 0
    validate_block_slot := fun _ _ => true
    validate_block_is_new := fun _ _ => true
    validate_block_parent_root := fun _ _ => true
    validate_randao_reveal := fun _ _ _ _ => true
    validate_proposer_slashing_slot := fun _ => true
    validate_proposer_slashing_headers := fun _ => true
    validate_block_header_signature := fun _ _ _ => true
    validate_is_slashable_attestation_data := fun _ _ => true
    validate_deposit_proof := fun _ _ => true
    validate_eligible_target_epoch := fun _ _ _ => true
    validate_slot_matches_target_epoch := fun _ _ _ => true
    validate_attestation_slot := fun _ _ _ _ => true
    validate_checkpoint := fun _ _ => true
    validate_validator_is_active := fun _ _ => true
    validate_validator_has_not_exited := fun _ => true
    validate_eligible_exit_epoch := fun _ _ => true
    validate_validator_minimum_lifespan := fun _ _ _ => true
    validate_voluntary_exit_signature := fun _ _ _ => true }

/-- A shuffling record of an empty active set. -/
def testShuffling (e : Nat) : ShufflingEpoch :=
  { epoch := e, active_indices := [], shuffling := [], committees := [[]] }

/-- A context caching empty shufflings for epochs 0 and 1. -/
def testCtx : EpochsContext :=
  { pubkey2index := []
    index2pubkey := []
    proposers := [0]
    previous_shuffling := testShuffling 0
    current_shuffling := testShuffling 0
    next_shuffling := testShuffling 1 }

/-- A minimal state at slot 0 with no validators. -/
def testState : BeaconState :=
  { slot := 0
    genesis_time := 0
    latest_block_header :=
      { slot := 0, proposer_index := 0, parent_root := 0, state_root := 0
        body_root := 0 }
    block_roots := [0, 0]
    state_roots := [0, 0]
    historical_roots := []
    eth1_data := { deposit_root := 0, deposit_count := 0, block_hash := 0 }
    eth1_data_votes := []
    eth1_deposit_index := 0
    validators := []
    balances := []
    randao_mixes := [0, 0]
    slashings := [0, 0]
    previous_epoch_attestations := []
    current_epoch_attestations := []
    justification_bits := [false, false, false, false]
    previous_justified_checkpoint := { epoch := 0, root := 0 }
    current_justified_checkpoint := { epoch := 0, root := 0 }
    finalized_checkpoint := { epoch := 0, root := 0 } }

/-- A deposit naming a pubkey absent from testCtx. -/
def testDeposit : Deposit :=
  { proof := []
    data :=
      { pubkey := 99, withdrawal_credentials := 0, amount := 5
        signature := 0 } }

/-- An epoch summary at epoch two with full previous and current target
stake. -/
def testProcess : EpochProcess :=
  { EpochProcess.empty with
    current_epoch := 2
    prev_epoch := 1
    total_active_stake := 1
    prev_epoch_unslashed_stake :=
      { source_stake := 1, target_stake := 1, head_stake := 1 }
    curr_epoch_unslashed_target_stake := 1 }

/-- The state produced by the justification step on the fixtures. -/
def testJustifiedResult : BeaconState :=
  match process_justification_and_finalization testCtx testProcess testState
      testConfig with
  | .ok s => s
  | .error _ => testState

/-- A state with one balance and accumulated slashings, for the
slashing-penalty theorem. -/
def testSlashState : BeaconState :=
  { testState with balances := [10], slashings := [1, 0] }

/-- An epoch summary with one queued slashing. -/
def testSlashProcess : EpochProcess :=
  { EpochProcess.empty with
    total_active_stake := 2
    indices_to_slash := [0]
    statuses :=
      [{ flags := 0
         proposer_index := -1
         inclusion_delay := 0
         active := false
         validator :=
           { effective_balance := 4
             slashed := true
             activation_eligibility_epoch := 0
             activation_epoch := 0
             exit_epoch := 0
             withdrawable_epoch := 0 } }] }

/-- A state with a single validator, for instantiating the
status-invariant theorem. -/
def testStateV : BeaconState :=
  { testState with
    validators :=
      [{ pubkey := 1
         withdrawal_credentials := 0
         effective_balance := 32
         slashed := false
         activation_eligibility_epoch := 0
         activation_epoch := 0
         exit_epoch := FAR_FUTURE_EPOCH
         withdrawable_epoch := FAR_FUTURE_EPOCH }]
    balances := [32] }

/-- A shuffling for one slot whose single committee holds validator
zero. -/
def testShufflingOne (e : Nat) : ShufflingEpoch :=
  { epoch := e, active_indices := [0], shuffling := [0]
    committees := [[[0]]] }

/-- A context caching the one-validator committee for epochs 0 and 1. -/
def testCtxA : EpochsContext :=
  { pubkey2index := []
    index2pubkey := []
    proposers := [0]
    previous_shuffling := testShufflingOne 0
    current_shuffling := testShufflingOne 0
    next_shuffling := testShufflingOne 1 }

/-- The one-validator state at slot 1 carrying one previous-epoch
pending attestation for validator zero with inclusion delay one. -/
def testStateA : BeaconState :=
  { testStateV with
    slot := 1
    previous_epoch_attestations :=
      [{ aggregation_bits := [true]
         data :=
           { slot := 0, index := 0, beacon_block_root := 0
             source := { epoch := 0, root := 0 }
             target := { epoch := 0, root := 0 } }
         inclusion_delay := 1
         proposer_index := 0 }] }

/-- The epoch summary prepared from testStateA, whose single status
carries FLAG_PREV_SOURCE_ATTESTER. -/
def testPrepA : EpochProcess :=
  match prepare_epoch_process_state testCtxA testStateA testConfig with
  | .ok p => p
  | .error _ => EpochProcess.empty

/-! ## Lemma section -/

theorem listSwap_length (l : List α) (i j : Nat) :
    (listSwap l i j).length = l.length := by
  unfold listSwap
  cases h1 : l[i]? <;> cases h2 : l[j]? <;> simp

theorem listTransform_length (l : List α) (i : Nat) (f : α → α) :
    (listTransform l i f).length = l.length := by
  unfold listTransform
  cases h : l[i]? <;> simp

theorem listSwap_of_oob (l : List α) {i j : Nat}
    (h : l.length ≤ i ∨ l.length ≤ j) : listSwap l i j = l := by
  unfold listSwap
  rcases h with h | h
  · rw [List.getElem?_eq_none h]
  · rw [List.getElem?_eq_none h]
    cases l[i]? <;> rfl

theorem listSwap_self (l : List α) (i : Nat) : listSwap l i i = l := by
  unfold listSwap
  cases h : l[i]? with
  | none => simp
  | some a =>
    have hi : i < l.length := by
      by_contra hc
      rw [List.getElem?_eq_none (by omega)] at h
      exact Option.noConfusion h
    apply List.ext_getElem?
    intro n
    by_cases hn : i = n
    · subst hn
      rw [List.getElem?_set_self (by simpa using hi), h]
    · rw [List.getElem?_set_ne hn, List.getElem?_set_ne hn]

theorem listSwap_getElem?_left {l : List α} {i j : Nat}
    (hi : i < l.length) (hj : j < l.length) (hij : i ≠ j) :
    (listSwap l i j)[i]? = l[j]? := by
  unfold listSwap
  rw [List.getElem?_eq_getElem hi, List.getElem?_eq_getElem hj]
  rw [List.getElem?_set_ne (Ne.symm hij), List.getElem?_set_self hi]

theorem listSwap_getElem?_right {l : List α} {i j : Nat}
    (hi : i < l.length) (hj : j < l.length) :
    (listSwap l i j)[j]? = l[i]? := by
  by_cases hij : i = j
  · subst hij; rw [listSwap_self, List.getElem?_eq_getElem hi]
  · unfold listSwap
    rw [List.getElem?_eq_getElem hi, List.getElem?_eq_getElem hj]
    rw [List.getElem?_set_self (by simpa using hj)]

theorem listSwap_getElem?_other {l : List α} {i j k : Nat}
    (hki : k ≠ i) (hkj : k ≠ j) :
    (listSwap l i j)[k]? = l[k]? := by
  unfold listSwap
  cases h1 : l[i]? <;> cases h2 : l[j]? <;> simp
  rw [List.getElem?_set_ne (Ne.symm hkj), List.getElem?_set_ne (Ne.symm hki)]

/-- Swapping the same pair twice restores the list. -/
theorem listSwap_invol (l : List α) (i j : Nat) :
    listSwap (listSwap l i j) i j = l := by
  by_cases hoob : l.length ≤ i ∨ l.length ≤ j
  · rw [listSwap_of_oob l hoob, listSwap_of_oob l hoob]
  · push_neg at hoob
    obtain ⟨hi, hj⟩ := hoob
    by_cases hij : i = j
    · subst hij; rw [listSwap_self, listSwap_self]
    · have hlen : (listSwap l i j).length = l.length := listSwap_length l i j
      apply List.ext_getElem?
      intro n
      by_cases hni : n = i
      · subst hni
        rw [listSwap_getElem?_left (by omega) (by omega) hij,
          listSwap_getElem?_right hi hj]
      · by_cases hnj : n = j
        · subst hnj
          rw [listSwap_getElem?_right (by omega) (by omega),
            listSwap_getElem?_left hi hj hij]
        · rw [listSwap_getElem?_other hni hnj, listSwap_getElem?_other hni hnj]

/-- Swaps of disjoint pairs commute. -/
theorem listSwap_comm (l : List α) {i j a b : Nat}
    (hai : a ≠ i) (haj : a ≠ j) (hbi : b ≠ i) (hbj : b ≠ j) :
    listSwap (listSwap l a b) i j = listSwap (listSwap l i j) a b := by
  by_cases hoobij : l.length ≤ i ∨ l.length ≤ j
  · rw [listSwap_of_oob l hoobij,
      listSwap_of_oob (l := listSwap l a b) (by rwa [listSwap_length])]
  · by_cases hoobab : l.length ≤ a ∨ l.length ≤ b
    · rw [listSwap_of_oob l hoobab,
        listSwap_of_oob (l := listSwap l i j) (by rwa [listSwap_length])]
    · push_neg at hoobij hoobab
      obtain ⟨hi, hj⟩ := hoobij
      obtain ⟨ha, hb⟩ := hoobab
      have l1 : (listSwap l a b).length = l.length := listSwap_length l a b
      have l2 : (listSwap l i j).length = l.length := listSwap_length l i j
      by_cases hij : i = j
      · subst hij; rw [listSwap_self, listSwap_self]
      · by_cases hab : a = b
        · subst hab; rw [listSwap_self, listSwap_self]
        · apply List.ext_getElem?
          intro n
          by_cases hni : n = i
          · have e1 : (listSwap (listSwap l a b) i j)[i]? = l[j]? := by
              rw [listSwap_getElem?_left (by omega) (by omega) hij]
              exact listSwap_getElem?_other (Ne.symm haj) (Ne.symm hbj)
            have e2 : (listSwap (listSwap l i j) a b)[i]? = l[j]? := by
              rw [listSwap_getElem?_other (Ne.symm hai) (Ne.symm hbi)]
              exact listSwap_getElem?_left hi hj hij
            rw [hni, e1, e2]
          · by_cases hnj : n = j
            · have e1 : (listSwap (listSwap l a b) i j)[j]? = l[i]? := by
                rw [listSwap_getElem?_right (by omega) (by omega)]
                exact listSwap_getElem?_other (Ne.symm hai) (Ne.symm hbi)
              have e2 : (listSwap (listSwap l i j) a b)[j]? = l[i]? := by
                rw [listSwap_getElem?_other (Ne.symm haj) (Ne.symm hbj)]
                exact listSwap_getElem?_right hi hj
              rw [hnj, e1, e2]
            · by_cases hna : n = a
              · have e1 : (listSwap (listSwap l a b) i j)[a]? = l[b]? := by
                  rw [listSwap_getElem?_other hai haj]
                  exact listSwap_getElem?_left ha hb hab
                have e2 : (listSwap (listSwap l i j) a b)[a]? = l[b]? := by
                  rw [listSwap_getElem?_left (by omega) (by omega) hab]
                  exact listSwap_getElem?_other hbi hbj
                rw [hna, e1, e2]
              · by_cases hnb : n = b
                · have e1 : (listSwap (listSwap l a b) i j)[b]? = l[a]? := by
                    rw [listSwap_getElem?_other hbi hbj]
                    exact listSwap_getElem?_right ha hb
                  have e2 : (listSwap (listSwap l i j) a b)[b]? = l[a]? := by
                    rw [listSwap_getElem?_right (by omega) (by omega)]
                    exact listSwap_getElem?_other hai haj
                  rw [hnb, e1, e2]
                · rw [listSwap_getElem?_other hni hnj,
                    listSwap_getElem?_other hna hnb,
                    listSwap_getElem?_other hna hnb,
                    listSwap_getElem?_other hni hnj]

/-- A loop iteration is either the swap of its pair or the identity,
uniformly in the list. -/
theorem loopBody_cases (H : List Nat → List Nat) (seedR : List Nat)
    (i j : Nat) (source : List Nat) (byteV : Nat) :
    (∀ l : List α, loopBody H seedR i j source byteV l = listSwap l i j) ∨
    (∀ l : List α, loopBody H seedR i j source byteV l = l) := by
  by_cases h :
      (loopBit j (loopByte j (loopSource H seedR j source) byteV) == 1) = true
  · exact Or.inl fun l => if_pos h
  · exact Or.inr fun l => if_neg h

theorem loopBody_length (H : List Nat → List Nat) (seedR : List Nat)
    (i j : Nat) (source : List Nat) (byteV : Nat) (l : List α) :
    (loopBody H seedR i j source byteV l).length = l.length := by
  rcases loopBody_cases H seedR i j source byteV (α := α) with h | h
  · rw [h, listSwap_length]
  · rw [h]

/-- One loop iteration is an involution on the list. -/
theorem loopBody_invol (H : List Nat → List Nat) (seedR : List Nat)
    (i j : Nat) (source : List Nat) (byteV : Nat) (l : List α) :
    loopBody H seedR i j source byteV (loopBody H seedR i j source byteV l)
      = l := by
  rcases loopBody_cases H seedR i j source byteV (α := α) with h | h
  · rw [h, h, listSwap_invol]
  · rw [h, h]

/-- A loop iteration commutes with a swap of a disjoint pair. -/
theorem loopBody_swap_comm (H : List Nat → List Nat) (seedR : List Nat)
    {i j a b : Nat} (source : List Nat) (byteV : Nat) (l : List α)
    (hai : a ≠ i) (haj : a ≠ j) (hbi : b ≠ i) (hbj : b ≠ j) :
    loopBody H seedR i j source byteV (listSwap l a b)
      = listSwap (loopBody H seedR i j source byteV l) a b := by
  rcases loopBody_cases H seedR i j source byteV (α := α) with h | h
  · rw [h, h]
    exact listSwap_comm l hai haj hbi hbj
  · rw [h, h]

theorem swapOrNotLoop_length (H : List Nat → List Nat) (seedR : List Nat) :
    ∀ (fuel i j : Nat) (source : List Nat) (byteV : Nat) (l : List α),
    (swapOrNotLoop H seedR fuel i j source byteV l).length = l.length := by
  intro fuel
  induction fuel with
  | zero => intro i j source byteV l; rfl
  | succ n ih =>
    intro i j source byteV l
    rw [swapOrNotLoop, ih, loopBody_length]

/-- A swap of a pair untouched by the loop commutes with the loop. -/
theorem swapOrNotLoop_swap_comm (H : List Nat → List Nat) (seedR : List Nat)
    (a b : Nat) :
    ∀ (fuel i j : Nat) (source : List Nat) (byteV : Nat) (l : List α),
    (∀ t, t < fuel → a ≠ i + t ∧ a ≠ j - t ∧ b ≠ i + t ∧ b ≠ j - t) →
    swapOrNotLoop H seedR fuel i j source byteV (listSwap l a b)
      = listSwap (swapOrNotLoop H seedR fuel i j source byteV l) a b := by
  intro fuel
  induction fuel with
  | zero => intro i j source byteV l _; rfl
  | succ n ih =>
    intro i j source byteV l hcond
    obtain ⟨hai, haj, hbi, hbj⟩ := by
      have h0 := hcond 0 (by omega)
      simpa using h0
    rw [swapOrNotLoop, swapOrNotLoop,
      loopBody_swap_comm H seedR source byteV l hai haj hbi hbj]
    apply ih
    intro t ht
    have hc := hcond (t + 1) (by omega)
    omega

/-- Running one mirrored half twice undoes it: the pairs it touches are
pairwise disjoint, so the conditional swaps cancel. -/
theorem swapOrNotLoop_invol (H : List Nat → List Nat) (seedR : List Nat) :
    ∀ (fuel i j : Nat) (source : List Nat) (byteV : Nat) (l : List α),
    2 * fuel ≤ j + 1 - i →
    swapOrNotLoop H seedR fuel i j source byteV
      (swapOrNotLoop H seedR fuel i j source byteV l) = l := by
  intro fuel
  induction fuel with
  | zero => intro i j source byteV l _; rfl
  | succ n ih =>
    intro i j source byteV l hfuel
    have hij : i + 2 * n + 1 ≤ j := by omega
    rw [swapOrNotLoop, swapOrNotLoop]
    have hcomm : ∀ m : List α,
        swapOrNotLoop H seedR n (i + 1) (j - 1)
            (loopSource H seedR j source)
            (loopByte j (loopSource H seedR j source) byteV)
            (loopBody H seedR i j source byteV m)
        = loopBody H seedR i j source byteV
            (swapOrNotLoop H seedR n (i + 1) (j - 1)
              (loopSource H seedR j source)
              (loopByte j (loopSource H seedR j source) byteV) m) := by
      intro m
      rcases loopBody_cases H seedR i j source byteV (α := α) with h | h
      · rw [h, h]
        rw [swapOrNotLoop_swap_comm]
        intro t ht
        omega
      · rw [h, h]
    rw [hcomm l, loopBody_invol]
    apply ih
    omega

/-- Two mirrored halves over disjoint position ranges commute. -/
theorem swapOrNotLoop_comm_loops (H : List Nat → List Nat) (seedR : List Nat) :
    ∀ (f1 i1 j1 : Nat) (s1 : List Nat) (v1 : Nat)
      (f2 i2 j2 : Nat) (s2 : List Nat) (v2 : Nat) (l : List α),
    (∀ t u, t < f1 → u < f2 →
      i1 + t ≠ i2 + u ∧ i1 + t ≠ j2 - u ∧ j1 - t ≠ i2 + u ∧ j1 - t ≠ j2 - u) →
    swapOrNotLoop H seedR f1 i1 j1 s1 v1 (swapOrNotLoop H seedR f2 i2 j2 s2 v2 l)
      = swapOrNotLoop H seedR f2 i2 j2 s2 v2
          (swapOrNotLoop H seedR f1 i1 j1 s1 v1 l) := by
  intro f1
  induction f1 with
  | zero => intro i1 j1 s1 v1 f2 i2 j2 s2 v2 l _; rfl
  | succ n ih =>
    intro i1 j1 s1 v1 f2 i2 j2 s2 v2 l hcond
    rw [swapOrNotLoop]
    conv_rhs => rw [swapOrNotLoop]
    have hswap :
        loopBody H seedR i1 j1 s1 v1 (swapOrNotLoop H seedR f2 i2 j2 s2 v2 l)
        = swapOrNotLoop H seedR f2 i2 j2 s2 v2
            (loopBody H seedR i1 j1 s1 v1 l) := by
      rcases loopBody_cases H seedR i1 j1 s1 v1 (α := α) with h | h
      · rw [h, h]
        rw [swapOrNotLoop_swap_comm]
        intro u hu
        have hc := hcond 0 u (by omega) hu
        omega
      · rw [h, h]
    rw [hswap, ih]
    intro t u ht hu
    have hc := hcond (t + 1) u (by omega) hu
    omega

theorem shuffleRound_length (H : List Nat → List Nat) (seed : List Nat)
    (listSize r : Nat) (l : List α) :
    (shuffleRound H seed listSize r l).length = l.length := by
  unfold shuffleRound
  rw [swapOrNotLoop_length, swapOrNotLoop_length]

/-- The two mirrored halves of one round, applied twice, cancel.  This is
the body of shuffleRound with the pivot and the cached hash state taken
abstract. -/
theorem roundBody_invol (H : List Nat → List Nat) (seedR : List Nat)
    (pivot n : Nat) (s1 : List Nat) (v1 : Nat) (s2 : List Nat) (v2 : Nat)
    (l : List α) (hp : pivot < n) :
    swapOrNotLoop H seedR (((pivot + n + 1) >>> 1) - (pivot + 1)) (pivot + 1)
      (n - 1) s2 v2
      (swapOrNotLoop H seedR ((pivot + 1) >>> 1) 0 pivot s1 v1
        (swapOrNotLoop H seedR (((pivot + n + 1) >>> 1) - (pivot + 1))
          (pivot + 1) (n - 1) s2 v2
          (swapOrNotLoop H seedR ((pivot + 1) >>> 1) 0 pivot s1 v1 l))) = l := by
  have hm1 : (pivot + 1) >>> 1 = (pivot + 1) / 2 := by
    simp [Nat.shiftRight_eq_div_pow]
  have hm2 : (pivot + n + 1) >>> 1 = (pivot + n + 1) / 2 := by
    simp [Nat.shiftRight_eq_div_pow]
  have hA : ∀ m : List α,
      swapOrNotLoop H seedR ((pivot + 1) >>> 1) 0 pivot s1 v1
        (swapOrNotLoop H seedR (((pivot + n + 1) >>> 1) - (pivot + 1))
          (pivot + 1) (n - 1) s2 v2 m)
      = swapOrNotLoop H seedR (((pivot + n + 1) >>> 1) - (pivot + 1))
          (pivot + 1) (n - 1) s2 v2
          (swapOrNotLoop H seedR ((pivot + 1) >>> 1) 0 pivot s1 v1 m) := by
    intro m
    apply swapOrNotLoop_comm_loops
    intro t u ht hu
    rw [hm1] at ht
    rw [hm1, hm2] at *
    omega
  rw [hA]
  have h11 : swapOrNotLoop H seedR ((pivot + 1) >>> 1) 0 pivot s1 v1
      (swapOrNotLoop H seedR ((pivot + 1) >>> 1) 0 pivot s1 v1 l) = l := by
    apply swapOrNotLoop_invol
    rw [hm1]; omega
  rw [h11]
  apply swapOrNotLoop_invol
  rw [hm2]; omega

/-- One shuffle round is an involution on lists of the stated size. -/
theorem shuffleRound_invol (H : List Nat → List Nat) (seed : List Nat)
    (listSize r : Nat) (l : List α) (hpos : 1 ≤ listSize) :
    shuffleRound H seed listSize r (shuffleRound H seed listSize r l) = l := by
  have hpivot : bytesToNatLE ((H (seed ++ [r])).take 8) % listSize < listSize :=
    Nat.mod_lt _ (by omega)
  simp only [shuffleRound]
  exact roundBody_invol H (seed ++ [r]) _ listSize _ _ _ _ l hpivot

/-- Cancellation of a fold over a list of involutions run in reverse. -/
theorem foldl_rounds_cancel (f : List α → Nat → List α) (n : Nat)
    (hlen : ∀ r l, (f l r).length = l.length)
    (hinv : ∀ r l, l.length = n → f (f l r) r = l) :
    ∀ (rs : List Nat) (l : List α), l.length = n →
      rs.reverse.foldl f (rs.foldl f l) = l := by
  intro rs
  induction rs with
  | nil => intro l _; rfl
  | cons r rs ih =>
    intro l hl
    rw [List.foldl_cons, List.reverse_cons, List.foldl_append,
      ih (f l r) (by rw [hlen]; exact hl), List.foldl_cons, List.foldl_nil,
      hinv r l hl]

theorem foldl_rounds_length (f : List α → Nat → List α)
    (hlen : ∀ r l, (f l r).length = l.length) :
    ∀ (rs : List Nat) (l : List α), (rs.foldl f l).length = l.length := by
  intro rs
  induction rs with
  | nil => intro l; rfl
  | cons r rs ih =>
    intro l
    rw [List.foldl_cons, ih, hlen]


/-! ## The shuffle permutes its input -/

theorem set_cons_perm {xs : List α} {m : Nat} {b : α} (h : xs[m]? = some b)
    (x : α) : (b :: xs.set m x).Perm (x :: xs) := by
  induction xs generalizing m with
  | nil => simp at h
  | cons y t ih =>
    cases m with
    | zero =>
      simp only [List.getElem?_cons_zero, Option.some.injEq] at h
      subst h
      simp only [List.set_cons_zero]
      exact List.Perm.swap x y t
    | succ k =>
      simp only [List.getElem?_cons_succ] at h
      simp only [List.set_cons_succ]
      exact ((List.Perm.swap y b _).trans (((ih h).cons y))).trans
        (List.Perm.swap x y t)

theorem listSwap_perm (l : List α) (i j : Nat) : (listSwap l i j).Perm l := by
  induction l generalizing i j with
  | nil =>
    have : listSwap ([] : List α) i j = [] :=
      listSwap_of_oob _ (Or.inl (by simp))
    rw [this]
  | cons x xs ih =>
    cases i with
    | zero =>
      cases j with
      | zero => rw [listSwap_self]
      | succ m =>
        unfold listSwap
        simp only [List.getElem?_cons_zero, List.getElem?_cons_succ]
        cases h : xs[m]? with
        | none => exact List.Perm.refl _
        | some b =>
          simp only [List.set_cons_zero, List.set_cons_succ]
          exact set_cons_perm h x
    | succ n =>
      cases j with
      | zero =>
        unfold listSwap
        simp only [List.getElem?_cons_zero, List.getElem?_cons_succ]
        cases h : xs[n]? with
        | none => exact List.Perm.refl _
        | some a =>
          simp only [List.set_cons_zero, List.set_cons_succ]
          exact set_cons_perm h x
      | succ m =>
        have hperm := ih n m
        unfold listSwap at hperm ⊢
        simp only [List.getElem?_cons_succ]
        cases h1 : xs[n]? with
        | none =>
          simp only [h1] at hperm
          cases h2 : xs[m]? <;> exact List.Perm.refl _
        | some a =>
          cases h2 : xs[m]? with
          | none =>
            simp only [h1, h2] at hperm
            exact List.Perm.refl _
          | some b =>
            simp only [h1, h2] at hperm
            simp only [List.set_cons_succ]
            exact hperm.cons x

theorem loopBody_perm (H : List Nat → List Nat) (seedR : List Nat)
    (i j : Nat) (source : List Nat) (byteV : Nat) (l : List α) :
    (loopBody H seedR i j source byteV l).Perm l := by
  rcases loopBody_cases H seedR i j source byteV (α := α) with h | h
  · rw [h]; exact listSwap_perm l i j
  · rw [h]

theorem swapOrNotLoop_perm (H : List Nat → List Nat) (seedR : List Nat) :
    ∀ (fuel i j : Nat) (source : List Nat) (byteV : Nat) (l : List α),
    (swapOrNotLoop H seedR fuel i j source byteV l).Perm l := by
  intro fuel
  induction fuel with
  | zero => intro i j source byteV l; exact List.Perm.refl _
  | succ n ih =>
    intro i j source byteV l
    rw [swapOrNotLoop]
    exact (ih _ _ _ _ _).trans (loopBody_perm H seedR i j source byteV l)

theorem shuffleRound_perm (H : List Nat → List Nat) (seed : List Nat)
    (listSize r : Nat) (l : List α) :
    (shuffleRound H seed listSize r l).Perm l := by
  unfold shuffleRound
  exact (swapOrNotLoop_perm H _ _ _ _ _ _ _).trans
    (swapOrNotLoop_perm H _ _ _ _ _ _ _)

theorem foldl_rounds_perm (f : List α → Nat → List α)
    (hperm : ∀ r l, (f l r).Perm l) :
    ∀ (rs : List Nat) (l : List α), (rs.foldl f l).Perm l := by
  intro rs
  induction rs with
  | nil => intro l; exact List.Perm.refl _
  | cons r rs ih =>
    intro l
    rw [List.foldl_cons]
    exact (ih (f l r)).trans (hperm r l)

theorem innerShuffleList_perm (H : List Nat → List Nat) (seed : List Nat)
    (rounds : Nat) (dir : Bool) (l : List α) :
    (innerShuffleList H seed rounds dir l).Perm l := by
  unfold innerShuffleList
  split
  · exact List.Perm.refl _
  · exact foldl_rounds_perm _ (fun r m => shuffleRound_perm H seed l.length r m) _ l

theorem innerShuffleList_length (H : List Nat → List Nat) (seed : List Nat)
    (rounds : Nat) (dir : Bool) (l : List α) :
    (innerShuffleList H seed rounds dir l).length = l.length :=
  (innerShuffleList_perm H seed rounds dir l).length_eq

theorem unshuffle_list_perm (H : List Nat → List Nat) (seed : List Nat)
    (rounds : Nat) (l : List α) : (unshuffle_list H seed rounds l).Perm l :=
  innerShuffleList_perm H seed rounds false l

/-! ## Claim C1: shuffle and unshuffle are mutual inverses -/

theorem innerShuffleList_cancel (H : List Nat → List Nat) (seed : List Nat)
    (rounds : Nat) (l : List α) (dir : Bool) :
    innerShuffleList H seed rounds (!dir)
      (innerShuffleList H seed rounds dir l) = l := by
  by_cases hle : l.length ≤ 1
  · unfold innerShuffleList
    rw [if_pos hle, if_pos hle]
  · have hpos : 1 ≤ l.length := by omega
    have hinv : ∀ (r : Nat) (m : List α), m.length = l.length →
        shuffleRound H seed l.length r (shuffleRound H seed l.length r m) = m :=
      fun r m _ => shuffleRound_invol H seed l.length r m hpos
    have hlen : ∀ (r : Nat) (m : List α),
        (shuffleRound H seed l.length r m).length = m.length :=
      fun r m => shuffleRound_length H seed l.length r m
    have hAlen : (innerShuffleList H seed rounds dir l).length = l.length :=
      innerShuffleList_length H seed rounds dir l
    have hle2 : ¬ (innerShuffleList H seed rounds dir l).length ≤ 1 := by
      rw [hAlen]; exact hle
    cases dir with
    | true =>
      conv_lhs =>
        rw [innerShuffleList, if_neg hle2, hAlen]
      conv_lhs =>
        rw [innerShuffleList, if_neg hle]
      exact foldl_rounds_cancel _ l.length hlen hinv (List.range rounds) l rfl
    | false =>
      conv_lhs =>
        rw [innerShuffleList, if_neg hle2, hAlen]
      conv_lhs =>
        rw [innerShuffleList, if_neg hle]
      have := foldl_rounds_cancel
        (fun acc r => shuffleRound H seed l.length r acc) l.length hlen hinv
        (List.range rounds).reverse l rfl
      rwa [List.reverse_reverse] at this

/-- C1: for every hash oracle, every seed, every round count and every
list of validator indices (any element type, any length, including 0 and
1), unshuffle_list undoes shuffle_list and shuffle_list undoes
unshuffle_list. -/
theorem shuffle_list_unshuffle_list_inverse (H : List Nat → List Nat)
    (seed : List Nat) (rounds : Nat) (l : List α) :
    unshuffle_list H seed rounds (shuffle_list H seed rounds l) = l ∧
    shuffle_list H seed rounds (unshuffle_list H seed rounds l) = l := by
  constructor
  · exact innerShuffleList_cancel H seed rounds l true
  · exact innerShuffleList_cancel H seed rounds l false


/-! ## Claim C2: committees partition the shuffling -/

theorem flatten_map_range_mul (g : Nat → List β) (m c : Nat) :
    ((List.range m).map (fun slot =>
      (List.range c).map (fun k => g (slot * c + k)))).flatten
      = (List.range (m * c)).map g := by
  induction m with
  | zero => simp
  | succ n ih =>
    rw [List.range_succ, List.map_append, List.flatten_append, ih,
      Nat.succ_mul, List.range_add, List.map_append, List.map_map]
    simp [Function.comp_def]

theorem flatten_slices (l : List β) (A C : Nat) (_hA : A = l.length) :
    ∀ m, ((List.range m).map (fun ind =>
      (l.drop (A * ind / C)).take (A * (ind + 1) / C - A * ind / C))).flatten
      = l.take (A * m / C) := by
  intro m
  induction m with
  | zero => simp
  | succ n ih =>
    rw [List.range_succ, List.map_append, List.flatten_append, ih]
    simp only [List.map_cons, List.map_nil, List.flatten_cons,
      List.flatten_nil, List.append_nil]
    have hmono : A * n / C ≤ A * (n + 1) / C :=
      Nat.div_le_div_right (Nat.mul_le_mul_left _ (by omega))
    conv_rhs =>
      rw [show A * (n + 1) / C = A * n / C + (A * (n + 1) / C - A * n / C) by
        omega, List.take_add]

theorem compute_committee_count_pos (n : Nat) (cfg : Eth2Config) :
    0 < compute_committee_count n cfg := by
  simp only [compute_committee_count]
  by_cases h1 : cfg.MAX_COMMITTEES_PER_SLOT
      < n / cfg.SLOTS_PER_EPOCH / cfg.TARGET_COMMITTEE_SIZE
  · rw [if_pos h1]
    by_cases h2 : cfg.MAX_COMMITTEES_PER_SLOT = 0
    · rw [if_pos h2]; omega
    · rw [if_neg h2]; exact Nat.pos_of_ne_zero h2
  · rw [if_neg h1]
    by_cases h2 : n / cfg.SLOTS_PER_EPOCH / cfg.TARGET_COMMITTEE_SIZE = 0
    · rw [if_pos h2]; omega
    · rw [if_neg h2]; exact Nat.pos_of_ne_zero h2

/-- C2: for a ShufflingEpoch built from per-validator bounds with
distinct indices (as enumerate produces) and a positive SLOTS_PER_EPOCH,
concatenating committees over all slots and committee indices in
lexicographic order yields exactly the shuffling; the shuffling is a
permutation of active_indices (so the union of the committees covers
active_indices exactly once); and the committees are pairwise
disjoint. -/
theorem ShufflingEpoch_committee_partition (H : List Nat → List Nat)
    (seed : List Nat) (indices_bounded : List (Nat × Nat × Nat))
    (epoch : Nat) (cfg : Eth2Config)
    (hspe : 0 < cfg.SLOTS_PER_EPOCH)
    (hnodup : (indices_bounded.map (fun t => t.1)).Nodup) :
    (ShufflingEpoch.init H seed indices_bounded epoch cfg).committees.flatten.flatten
      = (ShufflingEpoch.init H seed indices_bounded epoch cfg).shuffling ∧
    (ShufflingEpoch.init H seed indices_bounded epoch cfg).shuffling.Perm
      (ShufflingEpoch.init H seed indices_bounded epoch cfg).active_indices ∧
    List.Pairwise List.Disjoint
      (ShufflingEpoch.init H seed indices_bounded epoch cfg).committees.flatten := by
  simp only [ShufflingEpoch.init]
  set active := (indices_bounded.filter
    (fun t => decide (t.2.1 ≤ epoch) && decide (epoch < t.2.2))).map
    (fun t => t.1) with hactive_def
  set shuffling := unshuffle_list H seed cfg.SHUFFLE_ROUND_COUNT active
    with hshuffling_def
  have hperm : shuffling.Perm active :=
    unshuffle_list_perm H seed cfg.SHUFFLE_ROUND_COUNT active
  have hlen : shuffling.length = active.length := hperm.length_eq
  set cps := compute_committee_count active.length cfg with hcps_def
  have hcpos : 0 < cps := compute_committee_count_pos active.length cfg
  have hCCpos : 0 < cps * cfg.SLOTS_PER_EPOCH := by positivity
  have hflat :
      ((List.range cfg.SLOTS_PER_EPOCH).map (fun slot =>
        (List.range cps).map (fun comm_index =>
          (shuffling.drop
            (active.length * (slot * cps + comm_index) /
              (cps * cfg.SLOTS_PER_EPOCH))).take
            (active.length * (slot * cps + comm_index + 1) /
                (cps * cfg.SLOTS_PER_EPOCH) -
              active.length * (slot * cps + comm_index) /
                (cps * cfg.SLOTS_PER_EPOCH))))).flatten.flatten
      = shuffling := by
    rw [flatten_map_range_mul (fun ind =>
      (shuffling.drop
        (active.length * ind / (cps * cfg.SLOTS_PER_EPOCH))).take
        (active.length * (ind + 1) / (cps * cfg.SLOTS_PER_EPOCH) -
          active.length * ind / (cps * cfg.SLOTS_PER_EPOCH)))
      cfg.SLOTS_PER_EPOCH cps]
    rw [flatten_slices shuffling active.length (cps * cfg.SLOTS_PER_EPOCH)
      hlen.symm (cfg.SLOTS_PER_EPOCH * cps)]
    rw [Nat.mul_comm cfg.SLOTS_PER_EPOCH cps,
      Nat.mul_div_cancel _ hCCpos, ← hlen, List.take_length]
  refine ⟨hflat, hperm, ?_⟩
  have hactiveNodup : active.Nodup := by
    rw [hactive_def]
    exact ((List.filter_sublist indices_bounded).map (fun t => t.1)).nodup hnodup
  have hshufNodup : shuffling.Nodup := hperm.symm.nodup hactiveNodup
  have hflatNodup :
      (((List.range cfg.SLOTS_PER_EPOCH).map (fun slot =>
        (List.range cps).map (fun comm_index =>
          (shuffling.drop
            (active.length * (slot * cps + comm_index) /
              (cps * cfg.SLOTS_PER_EPOCH))).take
            (active.length * (slot * cps + comm_index + 1) /
                (cps * cfg.SLOTS_PER_EPOCH) -
              active.length * (slot * cps + comm_index) /
                (cps * cfg.SLOTS_PER_EPOCH))))).flatten.flatten).Nodup := by
    rw [hflat]; exact hshufNodup
  exact (List.nodup_flatten.mp hflatNodup).2


/-! ## Claim C5: silent skip on deposit signature failure -/

/-- C5: when the Merkle proof validates, the pubkey is unknown to the
cache, and the proof-of-possession signature fails, process_deposit is
not an error: it returns the input state with only eth1_deposit_index
incremented, appending no validator and no balance, and leaves the
context untouched. -/
theorem process_deposit_bad_signature_silent
    (ext : Externals) (epochs_ctx : EpochsContext) (state : BeaconState)
    (deposit : Deposit) (cfg : Eth2Config)
    (hproof : ext.validate_deposit_proof state deposit = true)
    (hunknown : dictContains epochs_ctx.pubkey2index deposit.data.pubkey = false)
    (hsig : ext.bls_verify
      (ext.compute_signing_root_deposit
        { pubkey := deposit.data.pubkey
          withdrawal_credentials := deposit.data.withdrawal_credentials
          amount := deposit.data.amount }
        (ext.compute_domain_deposit cfg.GENESIS_FORK_VERSION))
      deposit.data.signature deposit.data.pubkey = false) :
    process_deposit ext epochs_ctx state deposit cfg
      = .ok ({ state with eth1_deposit_index := state.eth1_deposit_index + 1 },
        epochs_ctx) := by
  unfold process_deposit
  simp [hproof, hunknown, hsig]

/-- Witness for C5 at the concrete fixtures. -/
theorem process_deposit_bad_signature_silent_witness :
    (testExt.validate_deposit_proof testState testDeposit = true) ∧
    (dictContains testCtx.pubkey2index testDeposit.data.pubkey = false) ∧
    process_deposit testExt testCtx testState testDeposit testConfig
      = .ok ({ testState with
          eth1_deposit_index := testState.eth1_deposit_index + 1 }, testCtx) :=
  ⟨rfl, rfl,
    process_deposit_bad_signature_silent testExt testCtx testState testDeposit
      testConfig rfl rfl rfl⟩


/-! ## Claim C6: justification thresholds -/

theorem bool_list_len4 : ∀ (l : List Bool), l.length = 4 →
    ∃ a b c d, l = [a, b, c, d]
  | [a, b, c, d], _ => ⟨a, b, c, d, rfl⟩
  | [], h => by simp at h
  | [_], h => by simp at h
  | [_, _], h => by simp at h
  | [_, _, _], h => by simp at h
  | _ :: _ :: _ :: _ :: _ :: _, h => by simp at h

theorem ite_finalized_cjc {c : Prop} [Decidable c] (s : BeaconState)
    (x : Checkpoint) :
    (if c then { s with finalized_checkpoint := x } else s).current_justified_checkpoint
      = s.current_justified_checkpoint := by
  split <;> rfl

theorem ite_finalized_bits {c : Prop} [Decidable c] (s : BeaconState)
    (x : Checkpoint) :
    (if c then { s with finalized_checkpoint := x } else s).justification_bits
      = s.justification_bits := by
  split <;> rfl

/-- C6: past the second epoch, after the bit shift, the previous-epoch
supermajority sets the justified checkpoint to the previous epoch and
bit one, the current-epoch supermajority sets it to the current epoch
and bit zero, and when both thresholds hold the current-epoch
assignment wins. -/
theorem process_justification_thresholds
    (epochs_ctx : EpochsContext) (process : EpochProcess)
    (state : BeaconState) (cfg : Eth2Config) (s' : BeaconState)
    (hcur : GENESIS_EPOCH + 2 ≤ process.current_epoch)
    (hbits : state.justification_bits.length = 4)
    (hrun : process_justification_and_finalization epochs_ctx process state cfg
      = .ok s') :
    (process.prev_epoch_unslashed_stake.target_stake * 3
        ≥ process.total_active_stake * 2 →
      s'.justification_bits.getD 1 false = true) ∧
    (process.curr_epoch_unslashed_target_stake * 3
        ≥ process.total_active_stake * 2 →
      s'.current_justified_checkpoint =
        { epoch := process.current_epoch
          root := get_block_root state process.current_epoch
            cfg.SLOTS_PER_EPOCH cfg.SLOTS_PER_HISTORICAL_ROOT } ∧
      s'.justification_bits.getD 0 false = true) ∧
    (process.prev_epoch_unslashed_stake.target_stake * 3
        ≥ process.total_active_stake * 2 →
      ¬ process.curr_epoch_unslashed_target_stake * 3
        ≥ process.total_active_stake * 2 →
      s'.current_justified_checkpoint =
        { epoch := process.prev_epoch
          root := get_block_root state process.prev_epoch
            cfg.SLOTS_PER_EPOCH cfg.SLOTS_PER_HISTORICAL_ROOT }) := by
  obtain ⟨b0, b1, b2, b3, hb⟩ := bool_list_len4 _ hbits
  unfold process_justification_and_finalization at hrun
  rw [if_neg (by unfold GENESIS_EPOCH at hcur ⊢; omega)] at hrun
  by_cases h1 : process.prev_epoch_unslashed_stake.target_stake * 3
      ≥ process.total_active_stake * 2
  · by_cases h2 : process.curr_epoch_unslashed_target_stake * 3
        ≥ process.total_active_stake * 2
    · simp only [hb, if_pos h1, if_pos h2, List.dropLast, List.set] at hrun
      rw [if_neg (by simp)] at hrun
      simp only [Except.ok.injEq] at hrun
      subst hrun
      refine ⟨fun _ => ?_, fun _ => ⟨?_, ?_⟩, fun _ hn => absurd h2 hn⟩
      · simp [apply_ite BeaconState.justification_bits]
      · simp [apply_ite BeaconState.current_justified_checkpoint,
          get_block_root, get_block_root_at_slot, compute_start_slot_at_epoch]
      · simp [apply_ite BeaconState.justification_bits]
    · simp only [hb, if_pos h1, if_neg h2, List.dropLast, List.set] at hrun
      rw [if_neg (by simp)] at hrun
      simp only [Except.ok.injEq] at hrun
      subst hrun
      refine ⟨fun _ => ?_, fun hx => absurd hx h2, fun _ _ => ?_⟩
      · simp [apply_ite BeaconState.justification_bits]
      · simp [apply_ite BeaconState.current_justified_checkpoint,
          get_block_root, get_block_root_at_slot, compute_start_slot_at_epoch]
  · by_cases h2 : process.curr_epoch_unslashed_target_stake * 3
        ≥ process.total_active_stake * 2
    · simp only [hb, if_neg h1, if_pos h2, List.dropLast, List.set] at hrun
      rw [if_neg (by simp)] at hrun
      simp only [Except.ok.injEq] at hrun
      subst hrun
      refine ⟨fun hx => absurd hx h1, fun _ => ⟨?_, ?_⟩,
        fun hx _ => absurd hx h1⟩
      · simp [apply_ite BeaconState.current_justified_checkpoint,
          get_block_root, get_block_root_at_slot, compute_start_slot_at_epoch]
      · simp [apply_ite BeaconState.justification_bits]
    · simp only [hb, if_neg h1, if_neg h2, List.dropLast, List.set] at hrun
      rw [if_neg (by simp)] at hrun
      simp only [Except.ok.injEq] at hrun
      subst hrun
      exact ⟨fun hx => absurd hx h1, fun hx => absurd hx h2,
        fun hx _ => absurd hx h1⟩


/-- Witness for C6 at the concrete fixtures. -/
theorem process_justification_thresholds_witness :
    (GENESIS_EPOCH + 2 ≤ testProcess.current_epoch) ∧
    testState.justification_bits.length = 4 ∧
    ((testProcess.prev_epoch_unslashed_stake.target_stake * 3
        ≥ testProcess.total_active_stake * 2 →
      testJustifiedResult.justification_bits.getD 1 false = true) ∧
    (testProcess.curr_epoch_unslashed_target_stake * 3
        ≥ testProcess.total_active_stake * 2 →
      testJustifiedResult.current_justified_checkpoint =
        { epoch := testProcess.current_epoch
          root := get_block_root testState testProcess.current_epoch
            testConfig.SLOTS_PER_EPOCH testConfig.SLOTS_PER_HISTORICAL_ROOT } ∧
      testJustifiedResult.justification_bits.getD 0 false = true) ∧
    (testProcess.prev_epoch_unslashed_stake.target_stake * 3
        ≥ testProcess.total_active_stake * 2 →
      ¬ testProcess.curr_epoch_unslashed_target_stake * 3
        ≥ testProcess.total_active_stake * 2 →
      testJustifiedResult.current_justified_checkpoint =
        { epoch := testProcess.prev_epoch
          root := get_block_root testState testProcess.prev_epoch
            testConfig.SLOTS_PER_EPOCH
            testConfig.SLOTS_PER_HISTORICAL_ROOT })) :=
  ⟨by decide, by decide,
    process_justification_thresholds testCtx testProcess testState testConfig
      testJustifiedResult (by decide) (by decide) (by rfl)⟩

theorem listTransform_getD_self {l : List α} {i : Nat} (f : α → α) (d : α)
    (hi : i < l.length) :
    (listTransform l i f).getD i d = f (l.getD i d) := by
  unfold listTransform
  rw [List.getElem?_eq_getElem hi]
  rw [List.getD_eq_getElem?_getD, List.getElem?_set_self (by simpa using hi),
    List.getD_eq_getElem?_getD, List.getElem?_eq_getElem hi]
  rfl

theorem listTransform_getD_other {l : List α} {i j : Nat} (f : α → α) (d : α)
    (hij : i ≠ j) :
    (listTransform l i f).getD j d = l.getD j d := by
  unfold listTransform
  cases h : l[i]?
  · rfl
  · rw [List.getD_eq_getElem?_getD, List.getElem?_set_ne hij,
      ← List.getD_eq_getElem?_getD]

theorem foldl_decrease_balance_spec (pen : Nat → Nat) :
    ∀ (is : List Nat) (s : BeaconState), is.Nodup →
      (∀ i ∈ is, i < s.balances.length) →
      ((∀ i ∈ is,
        (is.foldl (fun st ind => decrease_balance st ind (pen ind)) s).balances.getD i 0
          = s.balances.getD i 0 - pen i) ∧
      (∀ j, j ∉ is →
        (is.foldl (fun st ind => decrease_balance st ind (pen ind)) s).balances.getD j 0
          = s.balances.getD j 0)) := by
  intro is
  induction is with
  | nil =>
    intro s _ _
    exact ⟨fun i hi => absurd hi (List.not_mem_nil i), fun j _ => rfl⟩
  | cons a rest ih =>
    intro s hnd hb
    obtain ⟨hna, hndrest⟩ := List.nodup_cons.mp hnd
    rw [List.foldl_cons]
    have hlen : (decrease_balance s a (pen a)).balances.length
        = s.balances.length := by
      simp [decrease_balance, listTransform_length]
    have hb' : ∀ i ∈ rest, i < (decrease_balance s a (pen a)).balances.length := by
      intro i hi
      rw [hlen]
      exact hb i (List.mem_cons_of_mem a hi)
    obtain ⟨ih1, ih2⟩ := ih (decrease_balance s a (pen a)) hndrest hb'
    constructor
    · intro i hi
      rcases List.mem_cons.mp hi with rfl | hi'
      · rw [ih2 i hna]
        show (listTransform s.balances i (fun b => b - pen i)).getD i 0
          = s.balances.getD i 0 - pen i
        rw [listTransform_getD_self _ 0 (hb i (List.mem_cons_self i rest))]
      · rw [ih1 i hi']
        have hia : a ≠ i := fun heq => hna (heq ▸ hi')
        show (listTransform s.balances a (fun b => b - pen a)).getD i 0 - pen i
          = s.balances.getD i 0 - pen i
        rw [listTransform_getD_other _ 0 hia]
    · intro j hj
      have hja : a ≠ j := fun heq => hj (heq ▸ List.mem_cons_self a rest)
      have hjrest : j ∉ rest := fun hx => hj (List.mem_cons_of_mem a hx)
      rw [ih2 j hjrest]
      show (listTransform s.balances a (fun b => b - pen a)).getD j 0
        = s.balances.getD j 0
      rw [listTransform_getD_other _ 0 hja]

/-- C8: process_slashings decreases each slashed balance by exactly the
stated penalty, saturating at zero (truncated subtraction), and leaves
every other balance unchanged. -/
theorem process_slashings_penalties
    (epochs_ctx : EpochsContext) (process : EpochProcess)
    (state : BeaconState) (cfg : Eth2Config)
    (_htotal : 0 < process.total_active_stake)
    (hnodup : process.indices_to_slash.Nodup)
    (hbounds : ∀ i ∈ process.indices_to_slash, i < state.balances.length) :
    (∀ i ∈ process.indices_to_slash,
      (process_slashings epochs_ctx process state cfg).balances.getD i 0
        = state.balances.getD i 0 -
          (process.statuses.getD i default).validator.effective_balance
            / cfg.EFFECTIVE_BALANCE_INCREMENT
            * min (state.slashings.sum * 3) process.total_active_stake
            / process.total_active_stake * cfg.EFFECTIVE_BALANCE_INCREMENT) ∧
    (∀ j, j ∉ process.indices_to_slash →
      (process_slashings epochs_ctx process state cfg).balances.getD j 0
        = state.balances.getD j 0) := by
  unfold process_slashings
  exact foldl_decrease_balance_spec
    (fun ind =>
      (process.statuses.getD ind default).validator.effective_balance
        / cfg.EFFECTIVE_BALANCE_INCREMENT
        * min (state.slashings.sum * 3) process.total_active_stake
        / process.total_active_stake * cfg.EFFECTIVE_BALANCE_INCREMENT)
    process.indices_to_slash state hnodup hbounds


/-- Witness for C8 at the concrete fixtures. -/
theorem process_slashings_penalties_witness :
    (0 < testSlashProcess.total_active_stake) ∧
    testSlashProcess.indices_to_slash.Nodup ∧
    (∀ i ∈ testSlashProcess.indices_to_slash,
      i < testSlashState.balances.length) ∧
    ((∀ i ∈ testSlashProcess.indices_to_slash,
      (process_slashings testCtx testSlashProcess testSlashState
          testConfig).balances.getD i 0
        = testSlashState.balances.getD i 0 -
          (testSlashProcess.statuses.getD i default).validator.effective_balance
            / testConfig.EFFECTIVE_BALANCE_INCREMENT
            * min (testSlashState.slashings.sum * 3)
              testSlashProcess.total_active_stake
            / testSlashProcess.total_active_stake
            * testConfig.EFFECTIVE_BALANCE_INCREMENT) ∧
    (∀ j, j ∉ testSlashProcess.indices_to_slash →
      (process_slashings testCtx testSlashProcess testSlashState
          testConfig).balances.getD j 0
        = testSlashState.balances.getD j 0)) :=
  ⟨by decide, by decide, by decide,
    process_slashings_penalties testCtx testSlashProcess testSlashState
      testConfig (by decide) (by decide) (by decide)⟩


theorem foldl_balances_length (f : List Nat → Nat × Nat → List Nat)
    (h : ∀ nb p, (f nb p).length = nb.length) :
    ∀ (l : List (Nat × Nat)) (nb : List Nat),
      (l.foldl f nb).length = nb.length := by
  intro l
  induction l with
  | nil => intro nb; rfl
  | cons p rest ih => intro nb; rw [List.foldl_cons, ih, h]

theorem add_rewards_length (nb : List Nat) (d : Deltas) :
    (add_rewards nb d).length = nb.length := by
  unfold add_rewards
  exact foldl_balances_length _ (fun nb p => List.length_set nb p.1 _) _ nb

theorem add_penalties_length (nb : List Nat) (d : Deltas) :
    (add_penalties nb d).length = nb.length := by
  unfold add_penalties
  apply foldl_balances_length
  intro nb p
  split <;> simp

theorem process_rewards_frame (epochs_ctx : EpochsContext)
    (process : EpochProcess) (state : BeaconState) (cfg : Eth2Config) :
    (process_rewards_and_penalties epochs_ctx process state cfg).slot
        = state.slot ∧
    (process_rewards_and_penalties epochs_ctx process state cfg).validators
        = state.validators ∧
    (process_rewards_and_penalties epochs_ctx process state cfg).balances.length
        = state.balances.length := by
  unfold process_rewards_and_penalties
  split
  · exact ⟨rfl, rfl, rfl⟩
  · refine ⟨rfl, rfl, ?_⟩
    simp only [add_rewards_length, add_penalties_length]

theorem pjf_frame (epochs_ctx : EpochsContext) (process : EpochProcess)
    (state : BeaconState) (cfg : Eth2Config) (s' : BeaconState)
    (hrun : process_justification_and_finalization epochs_ctx process state cfg
      = .ok s') :
    s'.slot = state.slot ∧ s'.validators = state.validators ∧
      s'.balances = state.balances := by
  unfold process_justification_and_finalization at hrun
  by_cases hgen : process.current_epoch ≤ GENESIS_EPOCH + 1
  · rw [if_pos hgen] at hrun
    cases hrun
    exact ⟨rfl, rfl, rfl⟩
  · rw [if_neg hgen] at hrun
    by_cases h1 : process.prev_epoch_unslashed_stake.target_stake * 3
        ≥ process.total_active_stake * 2
    · by_cases h2 : process.curr_epoch_unslashed_target_stake * 3
          ≥ process.total_active_stake * 2
      · simp only [if_pos h1, if_pos h2] at hrun
        split at hrun
        · simp at hrun
        · simp only [Except.ok.injEq] at hrun
          subst hrun
          refine ⟨?_, ?_, ?_⟩ <;>
            simp [apply_ite BeaconState.slot, apply_ite BeaconState.validators,
              apply_ite BeaconState.balances]
      · simp only [if_pos h1, if_neg h2] at hrun
        split at hrun
        · simp at hrun
        · simp only [Except.ok.injEq] at hrun
          subst hrun
          refine ⟨?_, ?_, ?_⟩ <;>
            simp [apply_ite BeaconState.slot, apply_ite BeaconState.validators,
              apply_ite BeaconState.balances]
    · by_cases h2 : process.curr_epoch_unslashed_target_stake * 3
          ≥ process.total_active_stake * 2
      · simp only [if_neg h1, if_pos h2] at hrun
        split at hrun
        · simp at hrun
        · simp only [Except.ok.injEq] at hrun
          subst hrun
          refine ⟨?_, ?_, ?_⟩ <;>
            simp [apply_ite BeaconState.slot, apply_ite BeaconState.validators,
              apply_ite BeaconState.balances]
      · simp only [if_neg h1, if_neg h2] at hrun
        split at hrun
        · simp at hrun
        · simp only [Except.ok.injEq] at hrun
          subst hrun
          refine ⟨?_, ?_, ?_⟩ <;>
            simp [apply_ite BeaconState.slot, apply_ite BeaconState.validators,
              apply_ite BeaconState.balances]

/-- Invariant preservation through a pure fold. -/
theorem foldl_prop {σ α : Type} (P : σ → Prop) (f : σ → α → σ)
    (hf : ∀ s a, P s → P (f s a)) :
    ∀ (l : List α) (s : σ), P s → P (l.foldl f s) := by
  intro l
  induction l with
  | nil => intro s hs; exact hs
  | cons a rest ih => intro s hs; rw [List.foldl_cons]; exact ih _ (hf s a hs)

/-- Inversion of a successful Except bind. -/
theorem except_bind_ok {α β : Type} {x : Except String α}
    {f : α → Except String β} {b : β} (h : (x >>= f) = .ok b) :
    ∃ a, x = .ok a ∧ f a = .ok b := by
  cases x with
  | error e => simp [Bind.bind, Except.bind] at h
  | ok a => exact ⟨a, rfl, by simpa [Bind.bind, Except.bind] using h⟩

/-- Invariant preservation through a monadic fold over Except. -/
theorem foldlM_except_prop {σ α : Type} (P : σ → Prop)
    (f : σ → α → Except String σ)
    (hf : ∀ s a s2, P s → f s a = .ok s2 → P s2) :
    ∀ (l : List α) (s s2 : σ), P s → l.foldlM f s = .ok s2 → P s2 := by
  intro l
  induction l with
  | nil =>
    intro s s2 hs h
    simp only [List.foldlM_nil] at h
    cases h
    exact hs
  | cons a rest ih =>
    intro s s2 hs h
    simp only [List.foldlM_cons] at h
    obtain ⟨s1, h1, h2⟩ := except_bind_ok h
    exact ih s1 s2 (hf s a s1 hs h1) h2

theorem processActivations_frame (sts : List AttesterStatus)
    (fe ae : Nat) :
    ∀ (l : List Nat) (s : BeaconState),
      (processActivations sts fe ae l s).slot = s.slot ∧
      (processActivations sts fe ae l s).validators.length
        = s.validators.length ∧
      (processActivations sts fe ae l s).balances = s.balances := by
  intro l
  induction l with
  | nil => intro s; exact ⟨rfl, rfl, rfl⟩
  | cons a rest ih =>
    intro s
    unfold processActivations
    split
    · exact ⟨rfl, rfl, rfl⟩
    · obtain ⟨e1, e2, e3⟩ := ih
        { s with validators := (listTransform s.validators a
          (fun v => { v with activation_epoch := ae })) }
      refine ⟨e1, ?_, e3⟩
      rw [e2]
      simp [listTransform_length]

theorem registryEjectStep_frame (process : EpochProcess) (cfg : Eth2Config)
    (acc : BeaconState × Nat × Nat) (ind : Nat) :
    (registryEjectStep process cfg acc ind).1.slot = acc.1.slot ∧
    (registryEjectStep process cfg acc ind).1.validators.length
      = acc.1.validators.length ∧
    (registryEjectStep process cfg acc ind).1.balances = acc.1.balances := by
  obtain ⟨s, e, c⟩ := acc
  unfold registryEjectStep
  refine ⟨?_, ?_, ?_⟩ <;> simp [listTransform_length]

theorem process_registry_frame (epochs_ctx : EpochsContext)
    (process : EpochProcess) (state : BeaconState) (cfg : Eth2Config) :
    (process_registry_updates epochs_ctx process state cfg).slot = state.slot ∧
    (process_registry_updates epochs_ctx process state cfg).validators.length
      = state.validators.length ∧
    (process_registry_updates epochs_ctx process state cfg).balances
      = state.balances := by
  unfold process_registry_updates
  have hej := foldl_prop
    (fun (acc : BeaconState × Nat × Nat) =>
      acc.1.slot = state.slot ∧
      acc.1.validators.length = state.validators.length ∧
      acc.1.balances = state.balances)
    (registryEjectStep process cfg)
    (fun acc ind hacc => by
      obtain ⟨a1, a2, a3⟩ := hacc
      obtain ⟨b1, b2, b3⟩ := registryEjectStep_frame process cfg acc ind
      exact ⟨b1.trans a1, b2.trans a2, b3.trans a3⟩)
    process.indices_to_eject
    (state, process.exit_queue_end, process.exit_queue_end_churn)
    ⟨rfl, rfl, rfl⟩
  rcases hfold : process.indices_to_eject.foldl (registryEjectStep process cfg)
    (state, process.exit_queue_end, process.exit_queue_end_churn)
    with ⟨s1, e1, c1⟩
  rw [hfold] at hej
  obtain ⟨a1, a2, a3⟩ := hej
  simp only [hfold]
  have hel := foldl_prop
    (fun (s : BeaconState) =>
      s.slot = state.slot ∧
      s.validators.length = state.validators.length ∧
      s.balances = state.balances)
    (registryEligStep epochs_ctx)
    (fun s ind hs => by
      obtain ⟨b1, b2, b3⟩ := hs
      unfold registryEligStep
      exact ⟨b1, by simpa [listTransform_length] using b2, b3⟩)
    process.indices_to_set_activation_eligibility s1 ⟨a1, a2, a3⟩
  obtain ⟨c1, c2, c3⟩ := hel
  obtain ⟨d1, d2, d3⟩ := processActivations_frame process.statuses
    (process.indices_to_set_activation_eligibility.foldl
      (registryEligStep epochs_ctx) s1).finalized_checkpoint.epoch
    (compute_activation_exit_epoch process.current_epoch cfg.MAX_SEED_LOOKAHEAD)
    (process.indices_to_maybe_activate.take process.churn_limit)
    (process.indices_to_set_activation_eligibility.foldl
      (registryEligStep epochs_ctx) s1)
  exact ⟨d1.trans c1, d2.trans c2, d3.trans c3⟩

theorem decrease_balance_frame (state : BeaconState) (ind amt : Nat) :
    (decrease_balance state ind amt).slot = state.slot ∧
    (decrease_balance state ind amt).validators = state.validators ∧
    (decrease_balance state ind amt).balances.length
      = state.balances.length := by
  unfold decrease_balance
  exact ⟨rfl, rfl, by simp [listTransform_length]⟩

theorem process_slashings_frame (epochs_ctx : EpochsContext)
    (process : EpochProcess) (state : BeaconState) (cfg : Eth2Config) :
    (process_slashings epochs_ctx process state cfg).slot = state.slot ∧
    (process_slashings epochs_ctx process state cfg).validators
      = state.validators ∧
    (process_slashings epochs_ctx process state cfg).balances.length
      = state.balances.length := by
  unfold process_slashings
  exact foldl_prop
    (fun (s : BeaconState) =>
      s.slot = state.slot ∧ s.validators = state.validators ∧
      s.balances.length = state.balances.length)
    _
    (fun s ind hs => by
      obtain ⟨a1, a2, a3⟩ := hs
      obtain ⟨b1, b2, b3⟩ := decrease_balance_frame s ind
        ((process.statuses.getD ind default).validator.effective_balance /
            cfg.EFFECTIVE_BALANCE_INCREMENT *
            (min (state.slashings.sum * 3) process.total_active_stake) /
            process.total_active_stake * cfg.EFFECTIVE_BALANCE_INCREMENT)
      exact ⟨b1.trans a1, b2.trans a2, b3.trans a3⟩)
    process.indices_to_slash state ⟨rfl, rfl, rfl⟩

theorem finalHysteresisStep_frame (cfg : Eth2Config) (s : BeaconState)
    (p : (Nat × AttesterStatus) × Nat) :
    (finalHysteresisStep cfg s p).slot = s.slot ∧
    (finalHysteresisStep cfg s p).validators.length
      = s.validators.length ∧
    (finalHysteresisStep cfg s p).balances = s.balances := by
  unfold finalHysteresisStep
  dsimp only
  refine ⟨?_, ?_, ?_⟩ <;> split <;> simp [listTransform_length]

theorem process_final_frame (ext : Externals) (epochs_ctx : EpochsContext)
    (process : EpochProcess) (state : BeaconState) (cfg : Eth2Config) :
    (process_final_updates ext epochs_ctx process state cfg).slot
      = state.slot ∧
    (process_final_updates ext epochs_ctx process state cfg).validators.length
      = state.validators.length ∧
    (process_final_updates ext epochs_ctx process state cfg).balances
      = state.balances := by
  unfold process_final_updates
  have h0 :
      (if (process.current_epoch + 1) % cfg.EPOCHS_PER_ETH1_VOTING_PERIOD = 0
        then { state with eth1_data_votes := [] } else state).slot
          = state.slot ∧
      (if (process.current_epoch + 1) % cfg.EPOCHS_PER_ETH1_VOTING_PERIOD = 0
        then { state with eth1_data_votes := [] } else state).validators
          = state.validators ∧
      (if (process.current_epoch + 1) % cfg.EPOCHS_PER_ETH1_VOTING_PERIOD = 0
        then { state with eth1_data_votes := [] } else state).balances
          = state.balances := by
    refine ⟨?_, ?_, ?_⟩ <;> split <;> rfl
  obtain ⟨a1, a2, a3⟩ := h0
  have hhy := foldl_prop
    (fun (s : BeaconState) =>
      s.slot = state.slot ∧
      s.validators.length = state.validators.length ∧
      s.balances = state.balances)
    (finalHysteresisStep cfg)
    (fun s p hs => by
      obtain ⟨b1, b2, b3⟩ := hs
      obtain ⟨c1, c2, c3⟩ := finalHysteresisStep_frame cfg s p
      exact ⟨c1.trans b1, c2.trans b2, c3.trans b3⟩)
    (process.statuses.enum.zip
      (if (process.current_epoch + 1) % cfg.EPOCHS_PER_ETH1_VOTING_PERIOD = 0
        then { state with eth1_data_votes := [] } else state).balances)
    (if (process.current_epoch + 1) % cfg.EPOCHS_PER_ETH1_VOTING_PERIOD = 0
      then { state with eth1_data_votes := [] } else state)
    ⟨a1, by rw [a2], a3⟩
  obtain ⟨c1, c2, c3⟩ := hhy
  dsimp only
  refine ⟨?_, ?_, ?_⟩
  · simpa [apply_ite BeaconState.slot, ite_self] using c1
  · simpa [apply_ite BeaconState.validators, ite_self] using c2
  · simpa [apply_ite BeaconState.balances, ite_self] using c3

theorem process_slot_cache_frame (ext : Externals) (state : BeaconState)
    (cfg : Eth2Config) :
    (process_slot_cache ext state cfg).slot = state.slot ∧
    (process_slot_cache ext state cfg).validators = state.validators ∧
    (process_slot_cache ext state cfg).balances = state.balances := by
  unfold process_slot_cache
  dsimp only
  refine ⟨?_, ?_, ?_⟩
  · simp [apply_ite BeaconState.slot, ite_self]
  · simp [apply_ite BeaconState.validators, ite_self]
  · simp [apply_ite BeaconState.balances, ite_self]

theorem process_epoch_frame (ext : Externals) (epochs_ctx : EpochsContext)
    (state s2 : BeaconState) (cfg : Eth2Config)
    (hrun : process_epoch ext epochs_ctx state cfg = .ok s2) :
    s2.slot = state.slot ∧
    s2.validators.length = state.validators.length ∧
    s2.balances.length = state.balances.length := by
  unfold process_epoch at hrun
  obtain ⟨p, hp, hrun⟩ := except_bind_ok hrun
  obtain ⟨s1, h1, hrun⟩ := except_bind_ok hrun
  simp only [Except.ok.injEq] at hrun
  subst hrun
  obtain ⟨j1, j2, j3⟩ := pjf_frame epochs_ctx p state cfg s1 h1
  obtain ⟨r1, r2, r3⟩ := process_rewards_frame epochs_ctx p s1 cfg
  obtain ⟨g1, g2, g3⟩ := process_registry_frame epochs_ctx p
    (process_rewards_and_penalties epochs_ctx p s1 cfg) cfg
  obtain ⟨l1, l2, l3⟩ := process_slashings_frame epochs_ctx p
    (process_registry_updates epochs_ctx p
      (process_rewards_and_penalties epochs_ctx p s1 cfg) cfg) cfg
  obtain ⟨f1, f2, f3⟩ := process_final_frame ext epochs_ctx p
    (process_slashings epochs_ctx p
      (process_registry_updates epochs_ctx p
        (process_rewards_and_penalties epochs_ctx p s1 cfg) cfg) cfg) cfg
  refine ⟨?_, ?_, ?_⟩
  · rw [f1, l1, g1, r1, j1]
  · rw [f2, congrArg List.length l2, g2, congrArg List.length r2,
      congrArg List.length j2]
  · rw [congrArg List.length f3, l3, congrArg List.length g3, r3,
      congrArg List.length j3]

theorem process_slots_go_spec (ext : Externals) (cfg : Eth2Config) :
    ∀ (fuel : Nat) (state : BeaconState) (epochs_ctx : EpochsContext)
      (s2 : BeaconState) (ctx2 : EpochsContext),
      process_slots_go ext cfg fuel state epochs_ctx = .ok (s2, ctx2) →
      s2.slot = state.slot + fuel ∧
      (state.validators.length = state.balances.length →
        s2.validators.length = s2.balances.length) := by
  intro fuel
  induction fuel with
  | zero =>
    intro state epochs_ctx s2 ctx2 h
    unfold process_slots_go at h
    simp only [Except.ok.injEq, Prod.mk.injEq] at h
    obtain ⟨h1, _⟩ := h
    subst h1
    exact ⟨rfl, fun h => h⟩
  | succ fuel ih =>
    intro state epochs_ctx s2 ctx2 h
    unfold process_slots_go at h
    dsimp only at h
    obtain ⟨cf1, cf2, cf3⟩ := process_slot_cache_frame ext state cfg
    by_cases hb : ((process_slot_cache ext state cfg).slot + 1)
        % cfg.SLOTS_PER_EPOCH = 0
    · rw [if_pos hb] at h
      obtain ⟨se, he, h⟩ := except_bind_ok h
      obtain ⟨cx, hcx, h⟩ := except_bind_ok h
      obtain ⟨y, hy, h⟩ := except_bind_ok h
      simp only [pure, Except.pure, Except.ok.injEq] at hy
      subst hy
      obtain ⟨g1, g2⟩ := ih _ _ s2 ctx2 h
      obtain ⟨e1, e2, e3⟩ := process_epoch_frame ext epochs_ctx
        (process_slot_cache ext state cfg) se cfg he
      constructor
      · rw [g1]
        show (process_slot_cache ext state cfg).slot + 1 + fuel
          = state.slot + (fuel + 1)
        rw [cf1]
        omega
      · intro hv
        apply g2
        show se.validators.length = se.balances.length
        rw [e2, e3, cf2, cf3]
        exact hv
    · rw [if_neg hb] at h
      obtain ⟨y, hy, h⟩ := except_bind_ok h
      simp only [pure, Except.pure, Except.ok.injEq] at hy
      subst hy
      obtain ⟨g1, g2⟩ := ih _ _ s2 ctx2 h
      constructor
      · rw [g1]
        show (process_slot_cache ext state cfg).slot + 1 + fuel
          = state.slot + (fuel + 1)
        rw [cf1]
        omega
      · intro hv
        apply g2
        show (process_slot_cache ext state cfg).validators.length
          = (process_slot_cache ext state cfg).balances.length
        rw [cf2, cf3]
        exact hv



theorem process_slots_go_trace_spec (ext : Externals) (cfg : Eth2Config) :
    ∀ (fuel : Nat) (state : BeaconState) (epochs_ctx : EpochsContext)
      (s2 : BeaconState) (ctx2 : EpochsContext),
      process_slots_go ext cfg fuel state epochs_ctx = .ok (s2, ctx2) →
      process_slots_go_trace ext cfg fuel state epochs_ctx
        = .ok (s2, ctx2,
            (state.slot + fuel) / cfg.SLOTS_PER_EPOCH
              - state.slot / cfg.SLOTS_PER_EPOCH) := by
  intro fuel
  induction fuel with
  | zero =>
    intro state epochs_ctx s2 ctx2 h
    unfold process_slots_go at h
    simp only [Except.ok.injEq, Prod.mk.injEq] at h
    obtain ⟨h1, h2⟩ := h
    subst h1
    subst h2
    unfold process_slots_go_trace
    simp
  | succ fuel ih =>
    intro state epochs_ctx s2 ctx2 h
    unfold process_slots_go at h
    dsimp only at h
    unfold process_slots_go_trace
    dsimp only
    obtain ⟨cf1, cf2, cf3⟩ := process_slot_cache_frame ext state cfg
    by_cases hb : ((process_slot_cache ext state cfg).slot + 1)
        % cfg.SLOTS_PER_EPOCH = 0
    · rw [if_pos hb] at h ⊢
      obtain ⟨se, he, h⟩ := except_bind_ok h
      obtain ⟨cx, hcx, h⟩ := except_bind_ok h
      obtain ⟨y, hy, h⟩ := except_bind_ok h
      simp only [pure, Except.pure, Except.ok.injEq] at hy
      subst hy
      have hrec := ih _ _ s2 ctx2 h
      rw [he]
      simp only [Bind.bind, Except.bind]
      rw [hcx]
      simp only [pure, Except.pure]
      rw [hrec]
      simp only [Except.ok.injEq, Prod.mk.injEq]
      refine ⟨trivial, trivial, ?_⟩
      dsimp only
      rw [cf1]
      rw [cf1] at hb
      have hdvd : cfg.SLOTS_PER_EPOCH ∣ state.slot + 1 :=
        Nat.dvd_of_mod_eq_zero hb
      have h1 : (state.slot + 1) / cfg.SLOTS_PER_EPOCH
          = state.slot / cfg.SLOTS_PER_EPOCH
            + if cfg.SLOTS_PER_EPOCH ∣ state.slot + 1 then 1 else 0 :=
        Nat.succ_div state.slot cfg.SLOTS_PER_EPOCH
      rw [if_pos hdvd] at h1
      have h2 : (state.slot + 1) / cfg.SLOTS_PER_EPOCH
          ≤ (state.slot + 1 + fuel) / cfg.SLOTS_PER_EPOCH :=
        Nat.div_le_div_right (by omega)
      have h3 : state.slot + 1 + fuel = state.slot + (fuel + 1) := by omega
      rw [h3] at h2 ⊢
      omega
    · rw [if_neg hb] at h ⊢
      obtain ⟨y, hy, h⟩ := except_bind_ok h
      simp only [pure, Except.pure, Except.ok.injEq] at hy
      subst hy
      have hrec := ih _ _ s2 ctx2 h
      simp only [pure, Except.pure, Bind.bind, Except.bind]
      rw [hrec]
      simp only [Except.ok.injEq, Prod.mk.injEq]
      refine ⟨trivial, trivial, ?_⟩
      dsimp only
      rw [cf1]
      rw [cf1] at hb
      have hndvd : ¬ cfg.SLOTS_PER_EPOCH ∣ state.slot + 1 := by
        intro hd
        exact hb (Nat.dvd_iff_mod_eq_zero.mp hd)
      have h1 : (state.slot + 1) / cfg.SLOTS_PER_EPOCH
          = state.slot / cfg.SLOTS_PER_EPOCH
            + if cfg.SLOTS_PER_EPOCH ∣ state.slot + 1 then 1 else 0 :=
        Nat.succ_div state.slot cfg.SLOTS_PER_EPOCH
      rw [if_neg hndvd] at h1
      have h2 : state.slot / cfg.SLOTS_PER_EPOCH
          ≤ (state.slot + 1 + fuel) / cfg.SLOTS_PER_EPOCH :=
        Nat.div_le_div_right (by omega)
      have h3 : state.slot + 1 + fuel = state.slot + (fuel + 1) := by omega
      rw [h3] at h2 ⊢
      omega

theorem process_slots_behind (ext : Externals) (epochs_ctx : EpochsContext)
    (state : BeaconState) (slot : Nat) (cfg : Eth2Config)
    (hle : slot ≤ state.slot) :
    process_slots ext epochs_ctx state slot cfg
      = .error "requested slot transition is behind the current slot" := by
  unfold process_slots
  rw [if_pos (by omega)]

theorem process_slots_ok_spec (ext : Externals) (epochs_ctx : EpochsContext)
    (state : BeaconState) (slot : Nat) (cfg : Eth2Config)
    (s2 : BeaconState) (ctx2 : EpochsContext)
    (h : process_slots ext epochs_ctx state slot cfg = .ok (s2, ctx2)) :
    state.slot < slot ∧ s2.slot = slot ∧
    process_slots_go_trace ext cfg (slot - state.slot) state epochs_ctx
      = .ok (s2, ctx2,
          slot / cfg.SLOTS_PER_EPOCH - state.slot / cfg.SLOTS_PER_EPOCH) := by
  unfold process_slots at h
  by_cases hge : state.slot ≥ slot
  · rw [if_pos hge] at h
    exact absurd h (by simp)
  · rw [if_neg hge] at h
    have hlt : state.slot < slot := by omega
    have harr : state.slot + (slot - state.slot) = slot := by omega
    refine ⟨hlt, ?_, ?_⟩
    · obtain ⟨g1, _⟩ := process_slots_go_spec ext cfg _ _ _ _ _ h
      omega
    · have ht := process_slots_go_trace_spec ext cfg _ state epochs_ctx
        s2 ctx2 h
      rw [harr] at ht
      exact ht

/-- C3: process_slots raises the behind-slot error whenever the target
slot is not ahead of the current slot; on success the returned state
sits exactly at the target slot, the loop having advanced one slot per
iteration and performed exactly
slot / SLOTS_PER_EPOCH - state.slot / SLOTS_PER_EPOCH epoch
transitions, as counted by the instrumented trace of the same loop.
(The original claim says it raises exactly when slot <= state.slot; the
counterexample shows a raise with slot > state.slot, from the epoch
transition itself.) -/
theorem process_slots_slot_target_and_epoch_count (ext : Externals)
    (epochs_ctx : EpochsContext) (state : BeaconState) (slot : Nat)
    (cfg : Eth2Config) :
    (slot ≤ state.slot →
      process_slots ext epochs_ctx state slot cfg
        = .error "requested slot transition is behind the current slot") ∧
    (∀ (s2 : BeaconState) (ctx2 : EpochsContext),
      process_slots ext epochs_ctx state slot cfg = .ok (s2, ctx2) →
      state.slot < slot ∧ s2.slot = slot ∧
      process_slots_go_trace ext cfg (slot - state.slot) state epochs_ctx
        = .ok (s2, ctx2,
            slot / cfg.SLOTS_PER_EPOCH
              - state.slot / cfg.SLOTS_PER_EPOCH)) :=
  ⟨fun hle => process_slots_behind ext epochs_ctx state slot cfg hle,
   fun s2 ctx2 h =>
     process_slots_ok_spec ext epochs_ctx state slot cfg s2 ctx2 h⟩

/-- C3 witness: the behind-slot side of the theorem at a concrete
state whose slot 5 is ahead of the target 3. -/
theorem process_slots_slot_target_and_epoch_count_witness :
    process_slots testExt testCtx { testState with slot := 5 } 3 testConfig
      = .error "requested slot transition is behind the current slot" :=
  (process_slots_slot_target_and_epoch_count testExt testCtx
    { testState with slot := 5 } 3 testConfig).1 (by decide)

/-- C3 counterexample: with no validators at all, a transition from
slot 0 to slot 1 has the target strictly ahead of the current slot and
still raises, because the epoch transition at the boundary cannot
compute a proposer; so process_slots does not raise exactly when
slot <= state.slot. -/
theorem process_slots_counterexample :
    testState.slot < 1 ∧
    process_slots testExt testCtx testState 1 testConfig
      = .error "There are no active validators." :=
  ⟨by decide, by rfl⟩


theorem increase_balance_frame (state : BeaconState) (ind delta : Nat) :
    (increase_balance state ind delta).validators = state.validators ∧
    (increase_balance state ind delta).balances.length
      = state.balances.length := by
  unfold increase_balance
  exact ⟨rfl, by simp [listTransform_length]⟩

theorem initiate_validator_exit_frame (epochs_ctx : EpochsContext)
    (state : BeaconState) (index : Nat) (cfg : Eth2Config) :
    (initiate_validator_exit epochs_ctx state index cfg).validators.length
      = state.validators.length ∧
    (initiate_validator_exit epochs_ctx state index cfg).balances
      = state.balances := by
  unfold initiate_validator_exit
  dsimp only
  constructor
  · split <;> simp [listTransform_length]
  · split <;> rfl

theorem slash_validator_frame (ext : Externals) (epochs_ctx : EpochsContext)
    (state : BeaconState) (slashed_index : Nat) (cfg : Eth2Config)
    (whistleblower_index : Option Nat) (s2 : BeaconState)
    (h : slash_validator ext epochs_ctx state slashed_index cfg
      whistleblower_index = .ok s2) :
    s2.validators.length = state.validators.length ∧
    s2.balances.length = state.balances.length := by
  unfold slash_validator at h
  dsimp only at h
  obtain ⟨p, hp, h⟩ := except_bind_ok h
  simp only [Except.ok.injEq] at h
  subst h
  obtain ⟨i1, i2⟩ := initiate_validator_exit_frame epochs_ctx state
    slashed_index cfg
  constructor
  · simp [increase_balance, decrease_balance, listTransform_length, i1]
  · simp [increase_balance, decrease_balance, listTransform_length, i2]


theorem process_block_header_frame (ext : Externals)
    (epochs_ctx : EpochsContext) (state : BeaconState) (block : BeaconBlock)
    (cfg : Eth2Config) (s2 : BeaconState)
    (h : process_block_header ext epochs_ctx state block cfg = .ok s2) :
    s2.validators = state.validators ∧ s2.balances = state.balances := by
  unfold process_block_header at h
  split at h
  · exact absurd h (by simp)
  · split at h
    · exact absurd h (by simp)
    · obtain ⟨p, hp, h⟩ := except_bind_ok h
      split at h
      · exact absurd h (by simp)
      · split at h
        · exact absurd h (by simp)
        · dsimp only at h
          split at h
          · exact absurd h (by simp)
          · simp only [Except.ok.injEq] at h
            subst h
            exact ⟨rfl, rfl⟩

theorem process_randao_frame (ext : Externals) (epochs_ctx : EpochsContext)
    (state : BeaconState) (body : BeaconBlockBody) (cfg : Eth2Config)
    (s2 : BeaconState)
    (h : process_randao ext epochs_ctx state body cfg = .ok s2) :
    s2.validators = state.validators ∧ s2.balances = state.balances := by
  unfold process_randao at h
  obtain ⟨p, hp, h⟩ := except_bind_ok h
  split at h
  · exact absurd h (by simp)
  · simp only [Except.ok.injEq] at h
    subst h
    exact ⟨rfl, rfl⟩

theorem process_eth1_data_frame (ext : Externals)
    (epochs_ctx : EpochsContext) (state : BeaconState)
    (body : BeaconBlockBody) (cfg : Eth2Config) :
    (process_eth1_data ext epochs_ctx state body cfg).validators
      = state.validators ∧
    (process_eth1_data ext epochs_ctx state body cfg).balances
      = state.balances := by
  unfold process_eth1_data
  dsimp only
  constructor
  · split
    · rfl
    · split <;> rfl
  · split
    · rfl
    · split <;> rfl

theorem process_proposer_slashing_frame (ext : Externals)
    (epochs_ctx : EpochsContext) (state : BeaconState)
    (op : ProposerSlashing) (cfg : Eth2Config) (s2 : BeaconState)
    (h : process_proposer_slashing ext epochs_ctx state op cfg = .ok s2) :
    s2.validators.length = state.validators.length ∧
    s2.balances.length = state.balances.length := by
  unfold process_proposer_slashing at h
  dsimp only at h
  split at h
  · exact absurd h (by simp)
  · split at h
    · exact absurd h (by simp)
    · split at h
      · exact absurd h (by simp)
      · split at h
        · exact absurd h (by simp)
        · split at h
          · exact absurd h (by simp)
          · exact slash_validator_frame ext epochs_ctx state _ cfg none s2 h

theorem process_attester_slashing_frame (ext : Externals)
    (epochs_ctx : EpochsContext) (state : BeaconState)
    (op : AttesterSlashing) (cfg : Eth2Config) (s2 : BeaconState)
    (h : process_attester_slashing ext epochs_ctx state op cfg = .ok s2) :
    s2.validators.length = state.validators.length ∧
    s2.balances.length = state.balances.length := by
  unfold process_attester_slashing at h
  dsimp only at h
  split at h
  · exact absurd h (by simp)
  · split at h
    · exact absurd h (by simp)
    · split at h
      · exact absurd h (by simp)
      · obtain ⟨stAny, hst, h⟩ := except_bind_ok h
        have hfold := foldlM_except_prop
          (fun (acc : BeaconState × Bool) =>
            acc.1.validators.length = state.validators.length ∧
            acc.1.balances.length = state.balances.length)
          _
          (fun acc ind acc2 hacc hstep => by
            obtain ⟨a1, a2⟩ := hacc
            split at hstep
            · obtain ⟨st, hsl, hstep⟩ := except_bind_ok hstep
              simp only [pure, Except.pure, Except.ok.injEq] at hstep
              subst hstep
              obtain ⟨b1, b2⟩ := slash_validator_frame ext epochs_ctx
                acc.1 ind cfg none st hsl
              exact ⟨b1.trans a1, b2.trans a2⟩
            · simp only [pure, Except.pure, Except.ok.injEq] at hstep
              subst hstep
              exact ⟨a1, a2⟩)
          _ (state, false) stAny ⟨rfl, rfl⟩ hst
        split at h
        · exact absurd h (by simp)
        · simp only [Except.ok.injEq] at h
          subst h
          exact hfold


theorem process_attestation_frame (ext : Externals)
    (epochs_ctx : EpochsContext) (state : BeaconState) (op : Attestation)
    (cfg : Eth2Config) (s2 : BeaconState)
    (h : process_attestation ext epochs_ctx state op cfg = .ok s2) :
    s2.validators = state.validators ∧ s2.balances = state.balances := by
  unfold process_attestation at h
  dsimp only at h
  obtain ⟨cps, hcps, h⟩ := except_bind_ok h
  split at h
  · exact absurd h (by simp)
  · split at h
    · exact absurd h (by simp)
    · split at h
      · exact absurd h (by simp)
      · split at h
        · exact absurd h (by simp)
        · obtain ⟨comm, hcomm, h⟩ := except_bind_ok h
          split at h
          · exact absurd h (by simp)
          · obtain ⟨prop, hprop, h⟩ := except_bind_ok h
            split at h
            · split at h
              · obtain ⟨y, hy, h⟩ := except_bind_ok h
                exact absurd hy (by simp)
              · obtain ⟨y, hy, h⟩ := except_bind_ok h
                simp only [Except.ok.injEq] at hy
                subst hy
                obtain ⟨comm2, hcomm2, h⟩ := except_bind_ok h
                split at h
                · exact absurd h (by simp)
                · simp only [Except.ok.injEq] at h
                  subst h
                  exact ⟨rfl, rfl⟩
            · split at h
              · obtain ⟨y, hy, h⟩ := except_bind_ok h
                exact absurd hy (by simp)
              · obtain ⟨y, hy, h⟩ := except_bind_ok h
                simp only [Except.ok.injEq] at hy
                subst hy
                obtain ⟨comm2, hcomm2, h⟩ := except_bind_ok h
                split at h
                · exact absurd h (by simp)
                · simp only [Except.ok.injEq] at h
                  subst h
                  exact ⟨rfl, rfl⟩

theorem process_voluntary_exit_frame (ext : Externals)
    (epochs_ctx : EpochsContext) (state : BeaconState)
    (op : SignedVoluntaryExit) (cfg : Eth2Config) (s2 : BeaconState)
    (h : process_voluntary_exit ext epochs_ctx state op cfg = .ok s2) :
    s2.validators.length = state.validators.length ∧
    s2.balances = state.balances := by
  unfold process_voluntary_exit at h
  dsimp only at h
  split at h
  · exact absurd h (by simp)
  · split at h
    · exact absurd h (by simp)
    · split at h
      · exact absurd h (by simp)
      · split at h
        · exact absurd h (by simp)
        · split at h
          · exact absurd h (by simp)
          · simp only [Except.ok.injEq] at h
            subst h
            exact initiate_validator_exit_frame epochs_ctx state _ cfg

theorem process_deposit_lengths (ext : Externals)
    (epochs_ctx : EpochsContext) (state : BeaconState) (deposit : Deposit)
    (cfg : Eth2Config) (s2 : BeaconState) (ctx2 : EpochsContext)
    (h : process_deposit ext epochs_ctx state deposit cfg = .ok (s2, ctx2)) :
    (s2.validators.length = state.validators.length ∧
      s2.balances.length = state.balances.length) ∨
    (s2.validators.length = state.validators.length + 1 ∧
      s2.balances.length = state.balances.length + 1) := by
  unfold process_deposit at h
  dsimp only at h
  split at h
  · exact absurd h (by simp)
  · split at h
    · split at h
      · simp only [Except.ok.injEq, Prod.mk.injEq] at h
        obtain ⟨h1, _⟩ := h
        subst h1
        exact Or.inl ⟨rfl, rfl⟩
      · obtain ⟨ctx, hctx, h⟩ := except_bind_ok h
        simp only [Except.ok.injEq, Prod.mk.injEq] at h
        obtain ⟨h1, _⟩ := h
        subst h1
        refine Or.inr ⟨?_, ?_⟩ <;> simp
    · obtain ⟨ctx, hctx, h⟩ := except_bind_ok h
      simp only [Except.ok.injEq, Prod.mk.injEq] at h
      obtain ⟨h1, _⟩ := h
      subst h1
      refine Or.inl ⟨?_, ?_⟩ <;>
        simp [increase_balance, listTransform_length]

theorem process_operations_vb (ext : Externals) (epochs_ctx : EpochsContext)
    (state : BeaconState) (body : BeaconBlockBody) (cfg : Eth2Config)
    (s2 : BeaconState) (ctx2 : EpochsContext)
    (hvb : state.validators.length = state.balances.length)
    (h : process_operations ext epochs_ctx state body cfg = .ok (s2, ctx2)) :
    s2.validators.length = s2.balances.length := by
  unfold process_operations at h
  split at h
  · exact absurd h (by simp)
  · obtain ⟨st1, h1, h⟩ := except_bind_ok h
    obtain ⟨st2, h2, h⟩ := except_bind_ok h
    obtain ⟨st3, h3, h⟩ := except_bind_ok h
    obtain ⟨stCtx, h4, h⟩ := except_bind_ok h
    obtain ⟨st5, h5, h⟩ := except_bind_ok h
    simp only [Except.ok.injEq, Prod.mk.injEq] at h
    obtain ⟨he1, _⟩ := h
    subst he1
    have v1 : st1.validators.length = st1.balances.length := by
      have := foldlM_except_prop
        (fun (s : BeaconState) => s.validators.length = s.balances.length)
        _
        (fun s op s2 hs hstep => by
          obtain ⟨b1, b2⟩ := process_proposer_slashing_frame ext epochs_ctx
            s op cfg s2 hstep
          rw [b1, b2]; exact hs)
        body.proposer_slashings state st1 hvb h1
      exact this
    have v2 : st2.validators.length = st2.balances.length := by
      exact foldlM_except_prop
        (fun (s : BeaconState) => s.validators.length = s.balances.length)
        _
        (fun s op s2 hs hstep => by
          obtain ⟨b1, b2⟩ := process_attester_slashing_frame ext epochs_ctx
            s op cfg s2 hstep
          rw [b1, b2]; exact hs)
        body.attester_slashings st1 st2 v1 h2
    have v3 : st3.validators.length = st3.balances.length := by
      exact foldlM_except_prop
        (fun (s : BeaconState) => s.validators.length = s.balances.length)
        _
        (fun s op s2 hs hstep => by
          obtain ⟨b1, b2⟩ := process_attestation_frame ext epochs_ctx
            s op cfg s2 hstep
          rw [b1, b2]; exact hs)
        body.attestations st2 st3 v2 h3
    have v4 : stCtx.1.validators.length = stCtx.1.balances.length := by
      exact foldlM_except_prop
        (fun (acc : BeaconState × EpochsContext) =>
          acc.1.validators.length = acc.1.balances.length)
        _
        (fun acc op acc2 hacc hstep => by
          obtain ⟨a2, c2⟩ := acc2
          rcases process_deposit_lengths ext acc.2 acc.1 op cfg a2 c2 hstep
            with ⟨b1, b2⟩ | ⟨b1, b2⟩
          · dsimp only
            rw [b1, b2]; exact hacc
          · dsimp only
            rw [b1, b2, hacc])
        body.deposits (st3, epochs_ctx) stCtx v3 h4
    exact foldlM_except_prop
      (fun (s : BeaconState) => s.validators.length = s.balances.length)
      _
      (fun s op s2 hs hstep => by
        obtain ⟨b1, b2⟩ := process_voluntary_exit_frame ext stCtx.2
          s op cfg s2 hstep
        rw [b1, b2]; exact hs)
      body.voluntary_exits stCtx.1 st5 v4 h5

theorem process_block_vb (ext : Externals) (epochs_ctx : EpochsContext)
    (state : BeaconState) (block : BeaconBlock) (cfg : Eth2Config)
    (s2 : BeaconState) (ctx2 : EpochsContext)
    (hvb : state.validators.length = state.balances.length)
    (h : process_block ext epochs_ctx state block cfg = .ok (s2, ctx2)) :
    s2.validators.length = s2.balances.length := by
  unfold process_block at h
  obtain ⟨st1, h1, h⟩ := except_bind_ok h
  obtain ⟨st2, h2, h⟩ := except_bind_ok h
  obtain ⟨bh1, bh2⟩ := process_block_header_frame ext epochs_ctx state
    block cfg st1 h1
  obtain ⟨br1, br2⟩ := process_randao_frame ext epochs_ctx st1
    block.body cfg st2 h2
  obtain ⟨be1, be2⟩ := process_eth1_data_frame ext epochs_ctx st2
    block.body cfg
  refine process_operations_vb ext epochs_ctx _ block.body cfg s2 ctx2 ?_ h
  rw [be1, be2, br1, br2, bh1, bh2, hvb]


/-- C7: if the validator and balance registries have equal length, then
every state returned by process_block and by process_slots keeps them
equal; process_deposit either appends exactly one entry to each list or
appends to neither; and process_rewards_and_penalties returns a balance
list of unchanged length. -/
theorem validators_balances_length_invariant (ext : Externals)
    (epochs_ctx : EpochsContext) (state : BeaconState) (block : BeaconBlock)
    (slot : Nat) (deposit : Deposit) (process : EpochProcess)
    (cfg : Eth2Config)
    (hvb : state.validators.length = state.balances.length) :
    (∀ (s2 : BeaconState) (ctx2 : EpochsContext),
      process_block ext epochs_ctx state block cfg = .ok (s2, ctx2) →
      s2.validators.length = s2.balances.length) ∧
    (∀ (s2 : BeaconState) (ctx2 : EpochsContext),
      process_slots ext epochs_ctx state slot cfg = .ok (s2, ctx2) →
      s2.validators.length = s2.balances.length) ∧
    (∀ (s2 : BeaconState) (ctx2 : EpochsContext),
      process_deposit ext epochs_ctx state deposit cfg = .ok (s2, ctx2) →
      (s2.validators.length = state.validators.length ∧
        s2.balances.length = state.balances.length) ∨
      (s2.validators.length = state.validators.length + 1 ∧
        s2.balances.length = state.balances.length + 1)) ∧
    (process_rewards_and_penalties epochs_ctx process state cfg).balances.length
      = state.balances.length := by
  refine ⟨?_, ?_, ?_, ?_⟩
  · intro s2 ctx2 h
    exact process_block_vb ext epochs_ctx state block cfg s2 ctx2 hvb h
  · intro s2 ctx2 h
    unfold process_slots at h
    split at h
    · exact absurd h (by simp)
    · obtain ⟨_, g2⟩ := process_slots_go_spec ext cfg _ _ _ _ _ h
      exact g2 hvb
  · intro s2 ctx2 h
    exact process_deposit_lengths ext epochs_ctx state deposit cfg s2 ctx2 h
  · exact (process_rewards_frame epochs_ctx process state cfg).2.2

/-- C7 witness: the rewards conjunct of the invariant theorem at the
empty test state, whose registries both have length zero. -/
theorem validators_balances_length_invariant_witness :
    (process_rewards_and_penalties testCtx testProcess testState
      testConfig).balances.length = testState.balances.length :=
  (validators_balances_length_invariant testExt testCtx testState default 1
    testDeposit testProcess testConfig (by decide)).2.2.2


theorem or_mod_two (a b : Nat) :
    (a ||| b) % 2 = 1 ↔ (a % 2 = 1 ∨ b % 2 = 1) := by
  have h := Nat.testBit_or a b 0
  simp only [Nat.testBit_zero] at h
  constructor
  · intro hab
    have : decide ((a ||| b) % 2 = 1) = true := by simp [hab]
    rw [h] at this
    rcases Bool.or_eq_true_iff.mp this with h1 | h1
    · exact Or.inl (of_decide_eq_true h1)
    · exact Or.inr (of_decide_eq_true h1)
  · intro hab
    have : (decide (a % 2 = 1) || decide (b % 2 = 1)) = true := by
      rcases hab with h1 | h1 <;> simp [h1]
    rw [← h] at this
    exact of_decide_eq_true this

theorem hm_bit0 (f : Nat) :
    has_markers f FLAG_PREV_SOURCE_ATTESTER = true ↔ f % 2 = 1 := by
  unfold has_markers FLAG_PREV_SOURCE_ATTESTER
  have h1 : (1 : Nat) <<< 0 = 1 := by decide
  rw [h1, Nat.and_one_is_mod]
  simp

theorem listTransform_forall_at {α : Type} [Inhabited α] (P : α → Prop)
    (l : List α) (i : Nat) (f : α → α)
    (hl : ∀ x ∈ l, P x)
    (hfi : i < l.length → P (f (l.getD i default))) :
    ∀ x ∈ listTransform l i f, P x := by
  unfold listTransform
  cases h : l[i]? with
  | none => exact hl
  | some a =>
    intro x hx
    have hi : i < l.length := by
      by_contra hge
      rw [List.getElem?_eq_none (by omega)] at h
      cases h
    have ha : l.getD i default = a := by
      rw [List.getD_eq_getElem?_getD, h]
      rfl
    rcases List.mem_or_eq_of_mem_set hx with hx | rfl
    · exact hl x hx
    · rw [← ha]
      exact hfi hi

theorem attProposerUpdate_pos (d pi : Nat) (hd : 1 ≤ d)
    (st : AttesterStatus)
    (h : st.proposer_index = -1 ∨
      (0 ≤ st.proposer_index ∧ 1 ≤ st.inclusion_delay)) :
    0 ≤ (attProposerUpdate d pi st).proposer_index ∧
    1 ≤ (attProposerUpdate d pi st).inclusion_delay := by
  unfold attProposerUpdate
  split
  · exact ⟨Int.natCast_nonneg pi, hd⟩
  · rename_i hcond
    rcases h with h | h
    · rw [h] at hcond
      simp at hcond
    · exact h

theorem attProposerUpdate_flags (d pi : Nat) (st : AttesterStatus) :
    (attProposerUpdate d pi st).flags = st.flags := by
  unfold attProposerUpdate
  split <;> rfl

theorem attProposerUpdate_inv (d pi : Nat) (hd : 1 ≤ d)
    (st : AttesterStatus) (h : statusProposerInv st) :
    statusProposerInv (attProposerUpdate d pi st) := by
  have hq := attProposerUpdate_pos d pi hd st h.2
  exact ⟨fun _ => hq, Or.inr hq⟩

theorem attFlagUpdate_proposer (sf tf hf : Nat) (b1 b2 : Bool)
    (st : AttesterStatus) :
    (attFlagUpdate sf tf hf b1 b2 st).proposer_index = st.proposer_index :=
  rfl

theorem attFlagUpdate_delay (sf tf hf : Nat) (b1 b2 : Bool)
    (st : AttesterStatus) :
    (attFlagUpdate sf tf hf b1 b2 st).inclusion_delay = st.inclusion_delay :=
  rfl

theorem attFlagUpdate_bit0 (sf tf hf : Nat) (b1 b2 : Bool)
    (st : AttesterStatus)
    (h : (attFlagUpdate sf tf hf b1 b2 st).flags % 2 = 1) :
    st.flags % 2 = 1 ∨ sf % 2 = 1 ∨ tf % 2 = 1 ∨ hf % 2 = 1 := by
  unfold attFlagUpdate at h
  dsimp only at h
  split at h
  · rcases (or_mod_two _ _).mp h with h1 | h1
    · rcases (or_mod_two _ _).mp h1 with h2 | h2
      · rcases (or_mod_two _ _).mp h2 with h3 | h3
        · exact Or.inl h3
        · exact Or.inr (Or.inl h3)
      · exact Or.inr (Or.inr (Or.inl h2))
    · split at h1
      · exact Or.inr (Or.inr (Or.inr h1))
      · omega
  · rcases (or_mod_two _ _).mp h with h1 | h1
    · exact Or.inl h1
    · exact Or.inr (Or.inl h1)


theorem transform_fold_length {α : Type} (g : Nat → α → α) :
    ∀ (parts : List Nat) (sts : List α),
      (parts.foldl (fun sts p => listTransform sts p (g p)) sts).length
        = sts.length := by
  intro parts
  induction parts with
  | nil => intro sts; rfl
  | cons q rest ih =>
    intro sts
    rw [List.foldl_cons, ih, listTransform_length]

theorem proposer_fold_inv_all (d pi : Nat) (hd : 1 ≤ d) :
    ∀ (parts : List Nat) (sts : List AttesterStatus),
      (∀ st ∈ sts, statusProposerInv st) →
      ∀ st ∈ parts.foldl
        (fun sts p => listTransform sts p (attProposerUpdate d pi)) sts,
        statusProposerInv st := by
  intro parts
  induction parts with
  | nil => intro sts h; exact h
  | cons q rest ih =>
    intro sts h
    rw [List.foldl_cons]
    apply ih
    apply listTransform_forall_at
    · exact h
    · intro hq
      refine attProposerUpdate_inv d pi hd _ (h _ ?_)
      rw [List.getD_eq_getElem?_getD, List.getElem?_eq_getElem hq]
      exact List.getElem_mem hq


theorem getD_mem {α : Type} [Inhabited α] (l : List α) (i : Nat)
    (h : i < l.length) : l.getD i default ∈ l := by
  rw [List.getD_eq_getElem?_getD, List.getElem?_eq_getElem h]
  exact List.getElem_mem h

theorem proposer_keepQ (d pi : Nat) (hd : 1 ≤ d) :
    ∀ (parts : List Nat) (sts : List AttesterStatus) (p : Nat),
      0 ≤ (sts.getD p default).proposer_index ∧
        1 ≤ (sts.getD p default).inclusion_delay →
      0 ≤ ((parts.foldl
        (fun sts q => listTransform sts q (attProposerUpdate d pi))
          sts).getD p default).proposer_index ∧
      1 ≤ ((parts.foldl
        (fun sts q => listTransform sts q (attProposerUpdate d pi))
          sts).getD p default).inclusion_delay := by
  intro parts
  induction parts with
  | nil => intro sts p h; exact h
  | cons q rest ih =>
    intro sts p h
    rw [List.foldl_cons]
    apply ih
    by_cases hqp : q = p
    · subst hqp
      by_cases hq : q < sts.length
      · rw [listTransform_getD_self _ _ hq]
        exact attProposerUpdate_pos d pi hd _ (Or.inr h)
      · unfold listTransform
        rw [List.getElem?_eq_none (by omega)]
        exact h
    · rw [listTransform_getD_other _ _ hqp]
      exact h

theorem proposer_fold_getQ (d pi : Nat) (hd : 1 ≤ d) :
    ∀ (parts : List Nat) (sts : List AttesterStatus),
      (∀ st ∈ sts, statusProposerInv st) →
      ∀ p ∈ parts, p < sts.length →
        0 ≤ ((parts.foldl
          (fun sts q => listTransform sts q (attProposerUpdate d pi))
            sts).getD p default).proposer_index ∧
        1 ≤ ((parts.foldl
          (fun sts q => listTransform sts q (attProposerUpdate d pi))
            sts).getD p default).inclusion_delay := by
  intro parts
  induction parts with
  | nil => intro sts _ p hp; cases hp
  | cons q rest ih =>
    intro sts hall p hp hlen
    rw [List.foldl_cons]
    have hall2 : ∀ st ∈ listTransform sts q (attProposerUpdate d pi),
        statusProposerInv st := by
      apply listTransform_forall_at
      · exact hall
      · intro hq
        exact attProposerUpdate_inv d pi hd _ (hall _ (getD_mem sts q hq))
    rcases List.mem_cons.mp hp with rfl | hp2
    · apply proposer_keepQ d pi hd
      rw [listTransform_getD_self _ _ hlen]
      exact attProposerUpdate_pos d pi hd _ (hall _ (getD_mem sts p hlen)).2
    · exact ih _ hall2 p hp2 (by rw [listTransform_length]; exact hlen)


theorem flag_getD_props (sf tf hf : Nat) (b1 b2 : Bool) :
    ∀ (sts : List AttesterStatus) (q p : Nat),
      ((listTransform sts q (attFlagUpdate sf tf hf b1 b2)).getD p
        default).proposer_index = (sts.getD p default).proposer_index ∧
      ((listTransform sts q (attFlagUpdate sf tf hf b1 b2)).getD p
        default).inclusion_delay = (sts.getD p default).inclusion_delay := by
  intro sts q p
  by_cases hqp : q = p
  · subst hqp
    by_cases hq : q < sts.length
    · rw [listTransform_getD_self _ _ hq]
      exact ⟨attFlagUpdate_proposer sf tf hf b1 b2 _,
        attFlagUpdate_delay sf tf hf b1 b2 _⟩
    · unfold listTransform
      rw [List.getElem?_eq_none (by omega)]
      exact ⟨rfl, rfl⟩
  · rw [listTransform_getD_other _ _ hqp]
    exact ⟨rfl, rfl⟩

theorem flag_fold_props (sf tf hf : Nat) (b1 b2 : Bool) :
    ∀ (parts : List Nat) (sts : List AttesterStatus) (p : Nat),
      ((parts.foldl
        (fun sts q => listTransform sts q (attFlagUpdate sf tf hf b1 b2))
          sts).getD p default).proposer_index
        = (sts.getD p default).proposer_index ∧
      ((parts.foldl
        (fun sts q => listTransform sts q (attFlagUpdate sf tf hf b1 b2))
          sts).getD p default).inclusion_delay
        = (sts.getD p default).inclusion_delay := by
  intro parts
  induction parts with
  | nil => intro sts p; exact ⟨rfl, rfl⟩
  | cons q rest ih =>
    intro sts p
    rw [List.foldl_cons]
    obtain ⟨i1, i2⟩ := ih (listTransform sts q (attFlagUpdate sf tf hf b1 b2)) p
    obtain ⟨j1, j2⟩ := flag_getD_props sf tf hf b1 b2 sts q p
    exact ⟨i1.trans j1, i2.trans j2⟩

theorem flag_fold_inv_prev (sf tf hf : Nat) (b1 b2 : Bool) :
    ∀ (parts : List Nat) (sts : List AttesterStatus),
      (∀ st ∈ sts, statusProposerInv st) →
      (∀ p ∈ parts, p < sts.length →
        0 ≤ (sts.getD p default).proposer_index ∧
        1 ≤ (sts.getD p default).inclusion_delay) →
      ∀ st ∈ parts.foldl
        (fun sts q => listTransform sts q (attFlagUpdate sf tf hf b1 b2)) sts,
        statusProposerInv st := by
  intro parts
  induction parts with
  | nil => intro sts hall _; exact hall
  | cons q rest ih =>
    intro sts hall hq
    rw [List.foldl_cons]
    have hall2 : ∀ st ∈ listTransform sts q (attFlagUpdate sf tf hf b1 b2),
        statusProposerInv st := by
      apply listTransform_forall_at
      · exact hall
      · intro hlen
        have hQ := hq q (List.mem_cons_self q rest) hlen
        constructor
        · intro _
          rw [attFlagUpdate_proposer, attFlagUpdate_delay]
          exact hQ
        · exact Or.inr (by
            rw [attFlagUpdate_proposer, attFlagUpdate_delay]
            exact hQ)
    apply ih _ hall2
    intro p hp hlen
    obtain ⟨e1, e2⟩ := flag_getD_props sf tf hf b1 b2 sts q p
    rw [e1, e2]
    exact hq p (List.mem_cons_of_mem q hp)
      (by rw [listTransform_length] at hlen; exact hlen)

theorem flag_fold_inv_even (sf tf hf : Nat) (b1 b2 : Bool)
    (heven : sf % 2 = 0 ∧ tf % 2 = 0 ∧ hf % 2 = 0) :
    ∀ (parts : List Nat) (sts : List AttesterStatus),
      (∀ st ∈ sts, statusProposerInv st) →
      ∀ st ∈ parts.foldl
        (fun sts q => listTransform sts q (attFlagUpdate sf tf hf b1 b2)) sts,
        statusProposerInv st := by
  intro parts
  induction parts with
  | nil => intro sts hall; exact hall
  | cons q rest ih =>
    intro sts hall
    rw [List.foldl_cons]
    apply ih
    apply listTransform_forall_at
    · exact hall
    · intro hlen
      obtain ⟨h1, h2⟩ := hall _ (getD_mem sts q hlen)
      constructor
      · intro hbit
        rcases attFlagUpdate_bit0 sf tf hf b1 b2 _ hbit with hb | hb | hb | hb
        · rw [attFlagUpdate_proposer, attFlagUpdate_delay]
          exact h1 hb
        · omega
        · omega
        · omega
      · rcases h2 with h2 | h2
        · exact Or.inl (by rw [attFlagUpdate_proposer]; exact h2)
        · exact Or.inr (by
            rw [attFlagUpdate_proposer, attFlagUpdate_delay]
            exact h2)

theorem foldlM_except_prop_mem {σ α : Type} (P : σ → Prop) :
    ∀ (l : List α) (f : σ → α → Except String σ),
      (∀ s a s2, a ∈ l → P s → f s a = .ok s2 → P s2) →
      ∀ (s s2 : σ), P s → l.foldlM f s = .ok s2 → P s2 := by
  intro l
  induction l with
  | nil =>
    intro f _ s s2 hs h
    simp only [List.foldlM_nil] at h
    cases h
    exact hs
  | cons a rest ih =>
    intro f hf s s2 hs h
    simp only [List.foldlM_cons] at h
    obtain ⟨s1, h1, h2⟩ := except_bind_ok h
    exact ih f (fun s a s2 ha => hf s a s2 (List.mem_cons_of_mem _ ha))
      s1 s2 (hf s a s1 (List.mem_cons_self a rest) hs h1) h2


theorem status_process_epoch_inv (epochs_ctx : EpochsContext)
    (state : BeaconState) (sts : List AttesterStatus)
    (atts : List PendingAttestation) (epoch prev_epoch : Nat)
    (sf tf hf : Nat) (cfg : Eth2Config) (sts2 : List AttesterStatus)
    (hatts : ∀ att ∈ atts, 1 ≤ att.inclusion_delay)
    (hcase : epoch = prev_epoch ∨ (sf % 2 = 0 ∧ tf % 2 = 0 ∧ hf % 2 = 0))
    (hall : ∀ st ∈ sts, statusProposerInv st)
    (h : status_process_epoch epochs_ctx state sts atts epoch prev_epoch
      sf tf hf cfg = .ok sts2) :
    ∀ st ∈ sts2, statusProposerInv st := by
  unfold status_process_epoch at h
  refine foldlM_except_prop_mem
    (fun sts => ∀ st ∈ sts, statusProposerInv st) atts _
    ?_ sts sts2 hall h
  intro scur att s2 hmem hcur hstep
  obtain ⟨committee, hcomm, hstep⟩ := except_bind_ok hstep
  simp only [pure, Except.pure, Except.ok.injEq] at hstep
  subst hstep
  have hd : 1 ≤ att.inclusion_delay := hatts att hmem
  by_cases hep : epoch = prev_epoch
  · rw [if_pos hep]
    apply flag_fold_inv_prev
    · exact proposer_fold_inv_all att.inclusion_delay att.proposer_index
        hd _ scur hcur
    · intro p hp hlen
      rw [transform_fold_length] at hlen
      exact proposer_fold_getQ att.inclusion_delay att.proposer_index hd
        _ scur hcur p hp hlen
  · rw [if_neg hep]
    rcases hcase with hcase | hcase
    · exact absurd hcase hep
    · exact flag_fold_inv_even sf tf hf _ _ hcase _ scur hcur


theorem prepareStep_statuses_inv (cfg : Eth2Config)
    (slashings_epoch prev_epoch current_epoch : Nat) (out : EpochProcess)
    (p : Nat × Validator)
    (hall : ∀ st ∈ out.statuses, statusProposerInv st) :
    ∀ st ∈ (prepareStep cfg slashings_epoch prev_epoch current_epoch
      out p).statuses, statusProposerInv st := by
  unfold prepareStep
  dsimp only
  intro st hst
  rcases List.mem_append.mp hst with hst | hst
  · exact hall st hst
  · have hst2 := List.mem_singleton.mp hst
    subst hst2
    constructor
    · intro hbit
      exfalso
      revert hbit
      unfold AttesterStatus.ofFlat FLAG_UNSLASHED FLAG_ELIGIBLE_ATTESTER
      split <;> split <;> split <;> (dsimp only; decide)
    · left
      unfold AttesterStatus.ofFlat
      split <;> split <;> split <;> rfl


theorem prepare_fold_inv (cfg : Eth2Config) (se pe ce : Nat) :
    ∀ (l : List (Nat × Validator)) (out : EpochProcess),
      (∀ st ∈ out.statuses, statusProposerInv st) →
      ∀ st ∈ (l.foldl (prepareStep cfg se pe ce) out).statuses,
        statusProposerInv st := by
  intro l
  induction l with
  | nil => intro out hall; exact hall
  | cons a rest ih =>
    intro out hall
    rw [List.foldl_cons]
    exact ih _ (prepareStep_statuses_inv cfg se pe ce out a hall)

theorem prepare_epoch_process_state_inv (epochs_ctx : EpochsContext)
    (state : BeaconState) (cfg : Eth2Config) (process : EpochProcess)
    (hprev : ∀ att ∈ state.previous_epoch_attestations,
      1 ≤ att.inclusion_delay)
    (hcurr : ∀ att ∈ state.current_epoch_attestations,
      1 ≤ att.inclusion_delay)
    (h : prepare_epoch_process_state epochs_ctx state cfg = .ok process) :
    ∀ st ∈ process.statuses, statusProposerInv st := by
  unfold prepare_epoch_process_state at h
  dsimp only at h
  split at h <;> split at h <;> split at h <;>
  · obtain ⟨sts1, hs1, h⟩ := except_bind_ok h
    have hall1 : ∀ st ∈ sts1, statusProposerInv st := by
      first
      | (refine status_process_epoch_inv epochs_ctx state _ _ _ _ _ _ _ cfg
            sts1 hprev (Or.inl rfl) ?_ hs1
         try dsimp only
         apply prepare_fold_inv
         intro st hst
         simp [EpochProcess.empty] at hst)
      | (simp only [pure, Except.pure, Except.ok.injEq] at hs1
         subst hs1
         try dsimp only
         apply prepare_fold_inv
         intro st hst
         simp [EpochProcess.empty] at hst)
    try split at h
    all_goals first
      | (obtain ⟨sts2, hs2, h⟩ := except_bind_ok h
         simp only [Except.ok.injEq] at h
         subst h
         intro st hst
         try dsimp only at hst
         exact status_process_epoch_inv epochs_ctx state sts1 _ _ _ _ _ _ cfg
           sts2 hcurr (Or.inr (by decide)) hall1 hs2 st hst)
      | (obtain ⟨sts2, hs2, h⟩ := except_bind_ok h
         simp only [pure, Except.pure, Except.ok.injEq] at hs2
         subst hs2
         simp only [Except.ok.injEq] at h
         subst h
         intro st hst
         try dsimp only at hst
         exact hall1 st hst)


/-- C10: in an EpochProcess prepared from a state all of whose pending
attestations carry an inclusion delay of at least one (as
process_attestation guarantees, MIN_ATTESTATION_INCLUSION_DELAY being
at least one), every status with FLAG_PREV_SOURCE_ATTESTER set has a
nonnegative proposer_index and a positive inclusion_delay, so the
inclusion-delay reward never indexes by -1 and never divides by
zero. -/
theorem prepare_source_attester_delay (epochs_ctx : EpochsContext)
    (state : BeaconState) (cfg : Eth2Config) (process : EpochProcess)
    (hprev : ∀ att ∈ state.previous_epoch_attestations,
      1 ≤ att.inclusion_delay)
    (hcurr : ∀ att ∈ state.current_epoch_attestations,
      1 ≤ att.inclusion_delay)
    (h : prepare_epoch_process_state epochs_ctx state cfg = .ok process) :
    ∀ st ∈ process.statuses,
      has_markers st.flags FLAG_PREV_SOURCE_ATTESTER = true →
      0 ≤ st.proposer_index ∧ 1 ≤ st.inclusion_delay := by
  intro st hst hbit
  exact (prepare_epoch_process_state_inv epochs_ctx state cfg process
    hprev hcurr h st hst).1 ((hm_bit0 _).mp hbit)

/-- C10 witness: the theorem applied to the one-validator fixture whose
prepared status carries FLAG_PREV_SOURCE_ATTESTER from its
previous-epoch attestation, yielding the recorded proposer and
delay. -/
theorem prepare_source_attester_delay_witness :
    0 ≤ (testPrepA.statuses.getD 0 default).proposer_index ∧
    1 ≤ (testPrepA.statuses.getD 0 default).inclusion_delay :=
  prepare_source_attester_delay testCtxA testStateA testConfig testPrepA
    (by decide) (by decide) (by rfl)
    (testPrepA.statuses.getD 0 default) (by decide) (by decide)


/-- C2 witness: the partition theorem at a concrete two-validator
shuffling epoch with the test hash and configuration. -/
theorem ShufflingEpoch_committee_partition_witness :
    (ShufflingEpoch.init testExt.hash [0] [(0, 0, 2), (1, 0, 2)] 0
      testConfig).committees.flatten.flatten
      = (ShufflingEpoch.init testExt.hash [0] [(0, 0, 2), (1, 0, 2)] 0
        testConfig).shuffling ∧
    (ShufflingEpoch.init testExt.hash [0] [(0, 0, 2), (1, 0, 2)] 0
      testConfig).shuffling.Perm
      (ShufflingEpoch.init testExt.hash [0] [(0, 0, 2), (1, 0, 2)] 0
        testConfig).active_indices ∧
    List.Pairwise List.Disjoint
      (ShufflingEpoch.init testExt.hash [0] [(0, 0, 2), (1, 0, 2)] 0
        testConfig).committees.flatten :=
  ShufflingEpoch_committee_partition testExt.hash [0] [(0, 0, 2), (1, 0, 2)]
    0 testConfig (by decide) (by decide)

end Eth2Fast
